import Mathlib

/-!
Pong: a shallow embedding of `script.js`.

The game state of `script.js` (module-level variables and the three entity
objects) is one record, `Game`.  Every function of the script that touches
that state is a Lean function from `Game` to `Game`.

Conventions of the embedding:

* JavaScript numbers are elements of an ordered field `α` (exact arithmetic;
  instantiated with `ℝ` where a run is evaluated or `Math.cos`, `Math.sin`
  or `Math.sqrt` matter).  The functions of the `Math` object
  that are not field operations are supplied by a `MathLib α` record.
* `Math.random()` and `Date.now()` are inputs: each handler receives the
  random draws it may consume and the current time `now` in milliseconds.
* `setTimeout` / `setInterval` / `clearTimeout` / `clearInterval` act on an
  explicit table of pending timers (`Game.timers`); a timer callback is a
  `TimerAction`.
* Pickup objects are compared by reference in the script (`p !== pickup`);
  every pickup gets a unique `uid` when it is created and references are
  compared through it.
* Canvas drawing, DOM text, console output, sounds and paddle colours do not
  feed back into the simulation and are left out; the `disabled` / `display`
  state of the three buttons is kept because it decides whether a click
  reaches its handler.
-/

namespace Pong

/-! ## Constants -/

section Constants

variable {α : Type} [LinearOrderedField α]

def PADDLE_WIDTH : α := 25
def PADDLE_HEIGHT : α := 150
def BALL_RADIUS : α := 15
def PADDLE_SPEED : α := 10
def COMPUTER_PADDLE_SPEED : α := 7
def MAX_TRAIL_LENGTH : Nat := 30
def PICKUP_DURATION : α := 5000
def PICKUP_SPAWN_INTERVAL : α := 20000
def PICKUP_RADIUS : α := 30
def DOUBLE_TAP_DELAY : α := 300

/-- Line 97: `const originalPaddleHeight = PADDLE_HEIGHT`. -/
def originalPaddleHeight : α := PADDLE_HEIGHT

end Constants

/-! ## Data model -/

/-- The functions and constants of the JavaScript `Math` object used by the
script that are not field operations. -/
structure MathLib (α : Type) where
  cos : α → α
  sin : α → α
  sqrt : α → α
  PI : α

/-- The values of `PICKUP_TYPES`, in declaration order. -/
inductive PickupType where
  | SPEED_BOOST
  | BALL_SIZE_INCREASE
  | TRAJECTORY_CHANGE
  | DRUNKEN_BALL
  | PADDLE_SIZE_INCREASE
  deriving DecidableEq, Repr

/-- The list `Object.keys(PICKUP_TYPES)`. -/
def PICKUP_KEYS : List PickupType :=
  [.SPEED_BOOST, .BALL_SIZE_INCREASE, .TRAJECTORY_CHANGE, .DRUNKEN_BALL, .PADDLE_SIZE_INCREASE]

/-- The objects `player` and `computer` (colour and border radius left out). -/
structure Paddle (α : Type) where
  x : α
  y : α
  width : α
  height : α
  dy : α
  shakeIntensity : α
  shakeDuration : Int
  originalX : α

/-- One entry of `ball.history`. -/
structure Sample (α : Type) where
  x : α
  y : α
  speed : α

/-- The object `ball` (colour left out). -/
structure Ball (α : Type) where
  x : α
  y : α
  radius : α
  speed : α
  dx : α
  dy : α
  history : List (Sample α)

/-- What `collides` reads of its first argument. -/
structure Circle (α : Type) where
  x : α
  y : α
  radius : α

/-- A pickup object.  `timeoutId`, `durationEndTime`, `remainingTime` and
`deactivateTimeout` are `none` while the JavaScript property is `null` or
`undefined`.  `deactivateTimeout` is read by `restartGame` and written
nowhere in the script. -/
structure Pickup (α : Type) where
  uid : Nat
  x : α
  y : α
  radius : α
  type : PickupType
  isActive : Bool
  isSpawned : Bool
  timeoutId : Option Nat
  durationEndTime : Option α
  remainingTime : Option α
  deactivateTimeout : Option Nat

/-- The callback handed to `startCountdown`. -/
inductive CountdownCallback where
  /-- `() => resetBall(toPlayer)` of `moveBall`. -/
  | afterScore (toPlayer : Bool)
  /-- The callback of `startGame`. -/
  | afterStart
  /-- The callback of `restartGame`. -/
  | afterRestart
  deriving DecidableEq, Repr

/-- The callbacks registered with `setTimeout` / `setInterval` that change
the game state. -/
inductive TimerAction where
  /-- `setInterval(spawnPickup, PICKUP_SPAWN_INTERVAL)`. -/
  | spawnPickup
  /-- The interval callback of `startCountdown`. -/
  | countdownTick (callback : CountdownCallback)
  /-- `() => deactivatePickup(p)`; the closure holds the pickup object, of
  which `deactivatePickup` reads the identity and the (immutable) type. -/
  | deactivatePickup (uid : Nat) (type : PickupType)
  deriving DecidableEq, Repr

/-- A pending timer: `delay` is the argument given to `setTimeout` /
`setInterval`, `due` the time of its next firing. -/
structure Timer (α : Type) where
  id : Nat
  due : α
  delay : α
  repeating : Bool
  action : TimerAction

/-- The entries of `keys` that the script reads. -/
structure Keys where
  KeyW : Bool
  KeyS : Bool
  ArrowUp : Bool
  ArrowDown : Bool

/-- A button of the page: whether it is displayed and whether it is
disabled. -/
structure Button where
  shown : Bool
  disabled : Bool

/-- The whole mutable state of the script. -/
structure Game (α : Type) where
  canvasWidth : α
  canvasHeight : α
  playerScore : Nat
  computerScore : Nat
  gameOver : Bool
  winner : Option String
  player : Paddle α
  computer : Paddle α
  ball : Ball α
  mouseControlActive : Bool
  touchControlActive : Bool
  gamePaused : Bool
  gameStartedOnce : Bool
  activePickups : List (Pickup α)
  pickupSpawnTimer : Option Nat
  countdownActive : Bool
  countdownTime : Int
  keys : Keys
  lastMouseY : α
  lastTapTime : α
  startButton : Button
  pauseButton : Button
  restartButton : Button
  timers : List (Timer α)
  nextTimerId : Nat
  nextUid : Nat

/-! ## Timers -/

section Model

variable {α : Type} [LinearOrderedField α] [FloorRing α]

/-- `setTimeout(action, delay)` called at time `now`: the new state and the
timer id returned. -/
def setTimeout (now delay : α) (action : TimerAction) (g : Game α) : Game α × Nat :=
  ({ g with
      timers := g.timers ++ [⟨g.nextTimerId, now + delay, delay, false, action⟩]
      nextTimerId := g.nextTimerId + 1 },
   g.nextTimerId)

/-- `setInterval(action, delay)` called at time `now`. -/
def setInterval (now delay : α) (action : TimerAction) (g : Game α) : Game α × Nat :=
  ({ g with
      timers := g.timers ++ [⟨g.nextTimerId, now + delay, delay, true, action⟩]
      nextTimerId := g.nextTimerId + 1 },
   g.nextTimerId)

/-- `clearTimeout(id)` and `clearInterval(id)`; an `undefined` or `null`
argument cancels nothing. -/
def clearTimer (id : Option Nat) (g : Game α) : Game α :=
  { g with timers :=
      match id with
      | none => g.timers
      | some i => g.timers.filter (fun t => t.id != i) }

/-! ## Geometry -/

/-- `getCurrentBallRadius`, lines 117-124. -/
def getCurrentBallRadius (g : Game α) : α :=
  if (g.activePickups.find? (fun p => p.type == .BALL_SIZE_INCREASE && p.isActive)).isSome then
    g.ball.radius * 1.5
  else
    g.ball.radius

/-- `collides(b, p)`, lines 371-383. -/
def collides (b : Circle α) (p : Paddle α) : Bool :=
  let ballTop := b.y - b.radius
  let ballBottom := b.y + b.radius
  let ballLeft := b.x - b.radius
  let ballRight := b.x + b.radius
  let paddleTop := p.y
  let paddleBottom := p.y + p.height
  let paddleLeft := p.x
  let paddleRight := p.x + p.width
  decide (ballRight > paddleLeft) && decide (ballLeft < paddleRight) &&
    decide (ballBottom > paddleTop) && decide (ballTop < paddleBottom)

/-- The ball seen as the first argument of `collides`. -/
def Ball.toCircle (b : Ball α) : Circle α := ⟨b.x, b.y, b.radius⟩

/-- `collidesWithAnyPaddle`, lines 930-933. -/
def collidesWithAnyPaddle (g : Game α) (pickup : Pickup α) : Bool :=
  let pickupAsBall : Circle α := ⟨pickup.x, pickup.y, pickup.radius⟩
  collides pickupAsBall g.player || collides pickupAsBall g.computer

/-- `distance(obj1, obj2)`, lines 935-939, on the coordinates of the two
objects. -/
def distance (m : MathLib α) (x1 y1 x2 y2 : α) : α :=
  let dx := x1 - x2
  let dy := y1 - y2
  m.sqrt (dx * dx + dy * dy)

/-! ## Paddles -/

/-- `moveComputerPaddle`, lines 283-305; `rnd` is the value of
`Math.random()` at line 287. -/
def moveComputerPaddle (rnd : α) (g : Game α) : Game α :=
  if g.gamePaused then g
  else if g.computer.shakeDuration > 0 then
    let shakeOffset := (rnd - 0.5) * g.computer.shakeIntensity
    let c1 : Paddle α := { g.computer with
      x := g.computer.originalX + shakeOffset
      shakeDuration := g.computer.shakeDuration - 1 }
    let c2 : Paddle α :=
      if c1.shakeDuration ≤ 0 then { c1 with x := c1.originalX, shakeIntensity := 0 } else c1
    { g with computer := c2 }
  else
    let c1 : Paddle α :=
      if g.computer.shakeDuration ≤ 0 then
        { g.computer with x := g.canvasWidth - PADDLE_WIDTH * 3 }
      else g.computer
    let paddleCenter := c1.y + c1.height / 2
    if paddleCenter < g.ball.y - 35 ∧ c1.y < g.canvasHeight - c1.height then
      { g with computer := { c1 with y := c1.y + COMPUTER_PADDLE_SPEED } }
    else if paddleCenter > g.ball.y + 35 ∧ c1.y > 0 then
      { g with computer := { c1 with y := c1.y - COMPUTER_PADDLE_SPEED } }
    else
      { g with computer := c1 }

/-- The vertical part of `updatePlayerPaddle`, lines 495-514. -/
def updatePlayerPaddleVertical (g : Game α) : Paddle α :=
  let p := g.player
  if g.touchControlActive || g.mouseControlActive then
    let targetY := g.lastMouseY - p.height / 2
    let targetY := if targetY < 0 then 0 else targetY
    let targetY :=
      if targetY > g.canvasHeight - p.height then g.canvasHeight - p.height else targetY
    { p with y := targetY }
  else
    let p := if g.keys.KeyW = true ∧ p.y > 0 then { p with y := p.y - PADDLE_SPEED } else p
    let p :=
      if g.keys.KeyS = true ∧ p.y < g.canvasHeight - p.height then
        { p with y := p.y + PADDLE_SPEED }
      else p
    let p := if g.keys.ArrowUp = true ∧ p.y > 0 then { p with y := p.y - PADDLE_SPEED } else p
    let p :=
      if g.keys.ArrowDown = true ∧ p.y < g.canvasHeight - p.height then
        { p with y := p.y + PADDLE_SPEED }
      else p
    p

/-- `updatePlayerPaddle`, lines 484-534; `rnd` is the value of
`Math.random()` at line 520. -/
def updatePlayerPaddle (rnd : α) (g : Game α) : Game α :=
  if g.gamePaused then
    if g.player.shakeDuration > 0 then
      { g with player := { g.player with
          x := g.player.originalX, shakeDuration := 0, shakeIntensity := 0 } }
    else g
  else
    let p := updatePlayerPaddleVertical g
    let currentX : α := PADDLE_WIDTH * 2
    if p.shakeDuration > 0 then
      let shakeOffset := (rnd - 0.5) * p.shakeIntensity
      let p1 : Paddle α := { p with
        x := p.originalX + shakeOffset
        shakeDuration := p.shakeDuration - 1 }
      let p2 : Paddle α :=
        if p1.shakeDuration ≤ 0 then { p1 with x := p1.originalX, shakeIntensity := 0 } else p1
      { g with player := p2 }
    else
      { g with player := { p with x := currentX, originalX := currentX } }

/-! ## Random draws -/

/-- The two draws of `resetBall` (lines 430 and 434). -/
structure ResetRand (α : Type) where
  dx : α
  dy : α

/-- The three draws of `spawnPickup` (lines 899, 909, 910). -/
structure SpawnRand (α : Type) where
  type : α
  x : α
  y : α

/-- The four draws of the `TRAJECTORY_CHANGE` case of `applyPickupEffect`
(lines 1040, 1041, 1047, 1048). -/
structure TrajRand (α : Type) where
  dx : α
  dy : α
  nudgeX : α
  nudgeY : α

/-- The draws of one call of `update`: the two paddle shakes, the drunken
jitter, the perturbation of the bounce angle, and for each index of
`activePickups` the draws of a pickup activated there. -/
structure FrameRand (α : Type) where
  shakePlayer : α
  shakeComputer : α
  drunkX : α
  drunkY : α
  hit : α
  traj : Nat → TrajRand α

/-- The draws a timer callback or a button/key handler may consume. -/
structure HandlerRand (α : Type) where
  reset : ResetRand α
  spawn : SpawnRand α

/-! ## Ball -/

/-- Which paddle object `handlePaddleCollision` was called with. -/
inductive Side where
  | player
  | computer
  deriving DecidableEq, Repr

/-- The paddle object of a side. -/
def Game.paddle (g : Game α) : Side → Paddle α
  | .player => g.player
  | .computer => g.computer

/-- Whether a `SPEED_BOOST` pickup is active (lines 312, 394, 611). -/
def speedBoostActive (g : Game α) : Bool :=
  (g.activePickups.find? (fun p => p.type == .SPEED_BOOST && p.isActive)).isSome

/-- `handlePaddleCollision(paddle)`, lines 386-418; `rnd` is the value of
`Math.random()` at line 390. -/
def handlePaddleCollision (m : MathLib α) (rnd : α) (side : Side) (g : Game α) : Game α :=
  let paddle := g.paddle side
  let collidePoint := g.ball.y - (paddle.y + paddle.height / 2)
  let collidePoint := collidePoint / (paddle.height / 2)
  let angleRad := collidePoint * (m.PI / 3)
  let randomFactor := (rnd - 0.5) * 0.1
  let angleRad := angleRad + randomFactor
  let direction : α := if g.ball.x + g.ball.radius < g.canvasWidth / 2 then 1 else -1
  let currentSpeed := g.ball.speed
  let speedBoost := speedBoostActive g
  let currentSpeed := if speedBoost then currentSpeed * 1.5 else currentSpeed
  let ball1 : Ball α := { g.ball with
    dx := direction * currentSpeed * m.cos angleRad
    dy := currentSpeed * m.sin angleRad }
  let ball2 : Ball α := if !speedBoost then { ball1 with speed := ball1.speed + 0.3 } else ball1
  let paddle1 : Paddle α := { paddle with
    shakeIntensity := min (currentSpeed / 1.5) 12
    shakeDuration := 15
    originalX := paddle.x }
  match side with
  | .player => { g with ball := ball2, player := paddle1 }
  | .computer => { g with ball := ball2, computer := paddle1 }

/-- `resetBall(toPlayer, initialGameStart)`, lines 425-435. -/
def resetBall (r : ResetRand α) (toPlayer : Bool) (initialGameStart : Bool) (g : Game α) :
    Game α :=
  let dx : α :=
    if initialGameStart then (if r.dx > 0.5 then 1 else -1) * 5
    else if toPlayer then 5 else -5
  { g with ball := { g.ball with
      x := g.canvasWidth / 2
      y := g.canvasHeight / 2
      speed := 7
      dx := dx
      dy := (if r.dy > 0.5 then 1 else -1) * 5 } }

/-- `updateScore`, lines 437-460. -/
def updateScore (g : Game α) : Game α :=
  if g.gameOver then g
  else if g.playerScore ≥ 5 then
    let g1 := { g with gameOver := true, winner := some "Player" }
    let g2 := if g1.pickupSpawnTimer.isSome then clearTimer g1.pickupSpawnTimer g1 else g1
    { g2 with
      pauseButton := { g2.pauseButton with disabled := true }
      startButton := { g2.startButton with disabled := true } }
  else if g.computerScore ≥ 5 then
    let g1 := { g with gameOver := true, winner := some "Computer" }
    let g2 := if g1.pickupSpawnTimer.isSome then clearTimer g1.pickupSpawnTimer g1 else g1
    { g2 with
      pauseButton := { g2.pauseButton with disabled := true }
      startButton := { g2.startButton with disabled := true } }
  else g

/-- `startCountdown(seconds, callback)`, lines 738-768: the part that runs
at the call; the interval callback is `countdownTick`. -/
def startCountdown (now : α) (seconds : Int) (callback : CountdownCallback) (g : Game α) :
    Game α :=
  let g1 := { g with countdownActive := true, countdownTime := seconds, gamePaused := true }
  (setInterval now 1000 (.countdownTick callback) g1).1

/-- Lines 318-325 of `moveBall`: the ball advances by its velocity, plus the
drunken jitter. -/
def moveBallMotion (rx ry : α) (g : Game α) : Game α :=
  let b : Ball α := { g.ball with x := g.ball.x + g.ball.dx, y := g.ball.y + g.ball.dy }
  let drunkenBall :=
    (g.activePickups.find? (fun p => p.type == .DRUNKEN_BALL && p.isActive)).isSome
  let b : Ball α :=
    if drunkenBall then { b with x := b.x + (rx - 0.5) * 4, y := b.y + (ry - 0.5) * 4 } else b
  { g with ball := b }

/-- Lines 327-336 of `moveBall`: the top and bottom walls. -/
def moveBallWalls (g : Game α) : Game α :=
  if g.ball.y + getCurrentBallRadius g > g.canvasHeight then
    { g with ball := { g.ball with
        y := g.canvasHeight - getCurrentBallRadius g
        dy := g.ball.dy * -1 } }
  else if g.ball.y - getCurrentBallRadius g < 0 then
    { g with ball := { g.ball with
        y := getCurrentBallRadius g
        dy := g.ball.dy * -1 } }
  else g

/-- Lines 338-345 of `moveBall`: the paddles, the player first. -/
def moveBallPaddles (m : MathLib α) (rnd : α) (g : Game α) : Game α :=
  if collides g.ball.toCircle g.player then handlePaddleCollision m rnd .player g
  else if collides g.ball.toCircle g.computer then handlePaddleCollision m rnd .computer g
  else g

/-- Lines 347-360 of `moveBall`: the score. -/
def moveBallScore (now : α) (g : Game α) : Game α :=
  if g.ball.x - g.ball.radius < 0 then
    let g1 := { g with computerScore := g.computerScore + 1 }
    let g2 := updateScore g1
    startCountdown now 1 (.afterScore false) g2
  else if g.ball.x + g.ball.radius > g.canvasWidth then
    let g1 := { g with playerScore := g.playerScore + 1 }
    let g2 := updateScore g1
    startCountdown now 1 (.afterScore true) g2
  else g

/-- Lines 362-367 of `moveBall`: the trail. -/
def moveBallHistory (m : MathLib α) (g : Game α) : Game α :=
  let momentarySpeed := m.sqrt (g.ball.dx * g.ball.dx + g.ball.dy * g.ball.dy)
  let h := g.ball.history ++ [⟨g.ball.x, g.ball.y, momentarySpeed⟩]
  let h := if h.length > MAX_TRAIL_LENGTH then h.tail else h
  { g with ball := { g.ball with history := h } }

/-- The state of `moveBall` when it reaches the scoring test at line 348:
after the motion, the walls and the paddles. -/
def moveBallBeforeScore (m : MathLib α) (r : FrameRand α) (g : Game α) : Game α :=
  moveBallPaddles m r.hit (moveBallWalls (moveBallMotion r.drunkX r.drunkY g))

/-- `moveBall`, lines 308-368. -/
def moveBall (m : MathLib α) (now : α) (r : FrameRand α) (g : Game α) : Game α :=
  if g.gamePaused || g.countdownActive then g
  else moveBallHistory m (moveBallScore now (moveBallBeforeScore m r g))

/-! ## Pickups -/

/-- Assignment to properties of the pickup object `uid` held in the list. -/
def setPickup (uid : Nat) (f : Pickup α → Pickup α) (ps : List (Pickup α)) : List (Pickup α) :=
  ps.map (fun p => if p.uid = uid then f p else p)

/-- `spawnPickup`, lines 896-928. -/
def spawnPickup (m : MathLib α) (r : SpawnRand α) (g : Game α) : Game α :=
  if g.gamePaused then g
  else
    let type := PICKUP_KEYS.getD (Nat.floor (r.type * (PICKUP_KEYS.length : α))) .SPEED_BOOST
    let centralZoneXStart := g.canvasWidth * 0.25
    let centralZoneWidth := g.canvasWidth * 0.5
    let centralZoneYStart := g.canvasHeight * 0.25
    let centralZoneHeight := g.canvasHeight * 0.5
    let newPickup : Pickup α :=
      { uid := g.nextUid
        x := r.x * (centralZoneWidth - PICKUP_RADIUS * 2) + centralZoneXStart + PICKUP_RADIUS
        y := r.y * (centralZoneHeight - PICKUP_RADIUS * 2) + centralZoneYStart + PICKUP_RADIUS
        radius := PICKUP_RADIUS
        type := type
        isActive := false
        isSpawned := true
        timeoutId := none
        durationEndTime := none
        remainingTime := none
        deactivateTimeout := none }
    if collidesWithAnyPaddle g newPickup ||
        decide (distance m newPickup.x newPickup.y g.ball.x g.ball.y
          < g.ball.radius + newPickup.radius + 50) then
      g
    else
      { g with activePickups := g.activePickups ++ [newPickup], nextUid := g.nextUid + 1 }

/-- `startPickupSpawner(isResuming)`, lines 941-948. -/
def startPickupSpawner (m : MathLib α) (now : α) (r : SpawnRand α) (isResuming : Bool)
    (g : Game α) : Game α :=
  let g1 := if g.pickupSpawnTimer.isSome then clearTimer g.pickupSpawnTimer g else g
  let g2 := if !isResuming || g1.pickupSpawnTimer.isNone then spawnPickup m r g1 else g1
  let (g3, id) := setInterval now PICKUP_SPAWN_INTERVAL .spawnPickup g2
  { g3 with pickupSpawnTimer := some id }

/-- `applyPickupEffect(pickup)`, lines 1026-1067. -/
def applyPickupEffect (r : TrajRand α) (pickup : Pickup α) (g : Game α) : Game α :=
  match pickup.type with
  | .SPEED_BOOST => g
  | .BALL_SIZE_INCREASE => g
  | .TRAJECTORY_CHANGE =>
    let dx := g.ball.dx + (r.dx - 0.5) * 10
    let dy := g.ball.dy + (r.dy - 0.5) * 10
    let minSpeedComponent : α := 2
    let dx :=
      if |dx| < minSpeedComponent ∧ dx ≠ 0 then
        (if dx > 0 then minSpeedComponent else -minSpeedComponent)
      else dx
    let dy :=
      if |dy| < minSpeedComponent ∧ dy ≠ 0 then
        (if dy > 0 then minSpeedComponent else -minSpeedComponent)
      else dy
    let dx :=
      if dx = 0 then (if r.nudgeX > 0.5 then minSpeedComponent else -minSpeedComponent) else dx
    let dy :=
      if dy = 0 then (if r.nudgeY > 0.5 then minSpeedComponent else -minSpeedComponent) else dy
    { g with ball := { g.ball with dx := dx, dy := dy } }
  | .DRUNKEN_BALL => g
  | .PADDLE_SIZE_INCREASE =>
    let alreadyActivePaddleSize :=
      (g.activePickups.find? (fun p =>
        p.type == .PADDLE_SIZE_INCREASE && p.isActive && p.uid != pickup.uid)).isSome
    let p1 : Paddle α :=
      if !alreadyActivePaddleSize then { g.player with height := originalPaddleHeight * 1.5 }
      else g.player
    let p2 : Paddle α :=
      if p1.y + p1.height > g.canvasHeight then { p1 with y := g.canvasHeight - p1.height }
      else p1
    { g with player := p2 }

/-- `activatePickup(pickup)`, lines 996-1016; `pickup` is an element of
`activePickups`. -/
def activatePickup (now : α) (r : TrajRand α) (pickup : Pickup α) (g : Game α) : Game α :=
  let ps0 := setPickup pickup.uid (fun p => { p with isActive := true, isSpawned := false })
    g.activePickups
  let g1 := { g with activePickups := ps0 }
  match g1.activePickups.find?
      (fun p => p.type == pickup.type && p.isActive && p.uid != pickup.uid) with
  | some existingActiveSameType =>
    let g2 := clearTimer existingActiveSameType.timeoutId g1
    let (g3, id) := setTimeout now PICKUP_DURATION
      (.deactivatePickup existingActiveSameType.uid existingActiveSameType.type) g2
    let ps := setPickup existingActiveSameType.uid
      (fun p => { p with durationEndTime := some (now + PICKUP_DURATION), timeoutId := some id })
      g3.activePickups
    { g3 with activePickups := ps.filter (fun p => p.uid != pickup.uid) }
  | none =>
    let g2 := applyPickupEffect r pickup g1
    let (g3, id) := setTimeout now PICKUP_DURATION
      (.deactivatePickup pickup.uid pickup.type) g2
    let ps := setPickup pickup.uid
      (fun p => { p with durationEndTime := some (now + PICKUP_DURATION), timeoutId := some id })
      g3.activePickups
    { g3 with activePickups := ps }

/-- The loop of `updatePickups`, lines 985-993: `n` is `i + 1`.  The script
reads `activePickups[i]` afresh at each turn; an index past the end (which
would raise a `TypeError`) cannot arise, because `activatePickup` removes at
most the element at index `i`. -/
def updatePickupsLoop (m : MathLib α) (now : α) (traj : Nat → TrajRand α)
    (currentBallRadius : α) : Nat → Game α → Game α
  | 0, g => g
  | i + 1, g =>
    let g1 :=
      match g.activePickups[i]? with
      | none => g
      | some pickup =>
        if pickup.isSpawned && !pickup.isActive then
          let dist := distance m g.ball.x g.ball.y pickup.x pickup.y
          if dist < currentBallRadius + pickup.radius then
            activatePickup now (traj i) pickup g
          else g
        else g
    updatePickupsLoop m now traj currentBallRadius i g1

/-- `updatePickups`, lines 981-994. -/
def updatePickups (m : MathLib α) (now : α) (traj : Nat → TrajRand α) (g : Game α) : Game α :=
  if g.gamePaused then g
  else updatePickupsLoop m now traj (getCurrentBallRadius g) g.activePickups.length g

/-- `deactivatePickup(pickupToDeactivate)`, lines 1069-1108, for the pickup
object `uid` of type `type`.  The object may no longer be in
`activePickups`; its `isActive` flag is then never read again. -/
def deactivatePickup (uid : Nat) (type : PickupType) (g : Game α) : Game α :=
  let stillActiveSameType :=
    (g.activePickups.find? (fun p =>
      p.type == type && p.isActive && p.uid != uid && p.timeoutId.isSome)).isSome
  let ps := setPickup uid (fun p => { p with isActive := false }) g.activePickups
  let g1 := { g with activePickups := ps.filter (fun p => p.uid != uid) }
  if !stillActiveSameType then
    match type with
    | .PADDLE_SIZE_INCREASE =>
      let p1 : Paddle α := { g1.player with height := originalPaddleHeight }
      let p2 : Paddle α :=
        if p1.y + p1.height > g1.canvasHeight then { p1 with y := g1.canvasHeight - p1.height }
        else p1
      let p3 : Paddle α := if p2.y < 0 then { p2 with y := 0 } else p2
      { g1 with player := p3 }
    | _ => g1
  else g1

/-! ## Game control -/

/-- The `forEach` of the pause branch of `togglePauseGame`, lines 778-783:
the pickups after it and the timers left pending. -/
def pausePickupTimers (now : α) :
    List (Pickup α) → List (Timer α) → List (Pickup α) × List (Timer α)
  | [], ts => ([], ts)
  | p :: ps, ts =>
    match p.isActive, p.timeoutId with
    | true, some id =>
      let p1 : Pickup α := { p with remainingTime := p.durationEndTime.map (fun d => d - now) }
      let (ps1, ts1) := pausePickupTimers now ps (ts.filter (fun t => t.id != id))
      (p1 :: ps1, ts1)
    | _, _ =>
      let (ps1, ts1) := pausePickupTimers now ps ts
      (p :: ps1, ts1)

/-- The `forEach` of the resume branch of `togglePauseGame`, lines 800-807:
the pickups after it, the pending timers and the next timer id. -/
def resumePickupTimers (now : α) :
    List (Pickup α) → List (Timer α) → Nat → List (Pickup α) × List (Timer α) × Nat
  | [], ts, n => ([], ts, n)
  | p :: ps, ts, n =>
    match p.isActive, p.remainingTime with
    | true, some rem =>
      if rem > 0 then
        let t : Timer α := ⟨n, now + rem, rem, false, .deactivatePickup p.uid p.type⟩
        let p1 : Pickup α := { p with timeoutId := some n, durationEndTime := some (now + rem) }
        let (ps1, ts1, n1) := resumePickupTimers now ps (ts ++ [t]) (n + 1)
        (p1 :: ps1, ts1, n1)
      else
        let (ps1, ts1, n1) := resumePickupTimers now ps ts n
        (p :: ps1, ts1, n1)
    | _, _ =>
      let (ps1, ts1, n1) := resumePickupTimers now ps ts n
      (p :: ps1, ts1, n1)

/-- `togglePauseGame`, lines 770-809. -/
def togglePauseGame (m : MathLib α) (now : α) (r : SpawnRand α) (g : Game α) : Game α :=
  if !g.gameStartedOnce then g
  else
    let g1 := { g with gamePaused := !g.gamePaused }
    if g1.gamePaused then
      let g2 := if g1.pickupSpawnTimer.isSome then clearTimer g1.pickupSpawnTimer g1 else g1
      let (ps, ts) := pausePickupTimers now g2.activePickups g2.timers
      let g3 := { g2 with activePickups := ps, timers := ts }
      let g4 :=
        if g3.player.shakeDuration > 0 then
          { g3 with player := { g3.player with
              x := g3.player.originalX, shakeDuration := 0, shakeIntensity := 0 } }
        else g3
      if g4.computer.shakeDuration > 0 then
        { g4 with computer := { g4.computer with
            x := g4.computer.originalX, shakeDuration := 0, shakeIntensity := 0 } }
      else g4
    else
      let g2 := startPickupSpawner m now r true g1
      let (ps, ts, n) := resumePickupTimers now g2.activePickups g2.timers g2.nextTimerId
      { g2 with activePickups := ps, timers := ts, nextTimerId := n }

/-- The `forEach` of `restartGame`, lines 826-832. -/
def restartClearPickups : List (Pickup α) → Game α → Game α
  | [], g => g
  | p :: ps, g =>
    let g1 := if p.deactivateTimeout.isSome then clearTimer p.deactivateTimeout g else g
    let g2 :=
      if p.type = .PADDLE_SIZE_INCREASE then
        { g1 with player := { g1.player with height := originalPaddleHeight } }
      else g1
    restartClearPickups ps g2

/-- `restartGame`, lines 811-880. -/
def restartGame (now : α) (g : Game α) : Game α :=
  if g.countdownActive then g
  else
    let g1 := { g with
      playerScore := 0
      computerScore := 0
      gameOver := false
      winner := none
      gamePaused := true
      gameStartedOnce := true
      mouseControlActive := false }
    let g2 := restartClearPickups g1.activePickups g1
    let g3 := { g2 with activePickups := [] }
    let g4 := if g3.pickupSpawnTimer.isSome then clearTimer g3.pickupSpawnTimer g3 else g3
    let g5 := { g4 with pickupSpawnTimer := none }
    let g6 := { g5 with player := { g5.player with
      y := g5.canvasHeight / 2 - g5.player.height / 2
      dy := 0
      shakeIntensity := 0
      shakeDuration := 0
      originalX := PADDLE_WIDTH * 2
      x := PADDLE_WIDTH * 2 } }
    let g7 := { g6 with computer := { g6.computer with
      y := g6.canvasHeight / 2 - g6.computer.height / 2
      dy := 0
      shakeIntensity := 0
      shakeDuration := 0
      originalX := g6.canvasWidth - PADDLE_WIDTH * 3
      x := g6.canvasWidth - PADDLE_WIDTH * 3 } }
    let g8 := { g7 with
      startButton := { g7.startButton with shown := false }
      pauseButton := { shown := true, disabled := true }
      restartButton := { g7.restartButton with disabled := false } }
    let g9 := updateScore g8
    startCountdown now 1 .afterRestart g9

/-- `startGame`, lines 720-736. -/
def startGame (now : α) (g : Game α) : Game α :=
  let g1 := if !g.gameStartedOnce then { g with gameStartedOnce := true } else g
  let g2 := { g1 with
    gamePaused := false
    startButton := { g1.startButton with shown := false }
    pauseButton := { g1.pauseButton with shown := true }
    restartButton := { g1.restartButton with shown := true } }
  startCountdown now 1 .afterStart g2

/-- The callback run when a countdown completes. -/
def runCountdownCallback (m : MathLib α) (now : α) (r : HandlerRand α) :
    CountdownCallback → Game α → Game α
  | .afterScore toPlayer, g => resetBall r.reset toPlayer false g
  | .afterStart, g => startPickupSpawner m now r.spawn false (resetBall r.reset true true g)
  | .afterRestart, g =>
    let g1 := startPickupSpawner m now r.spawn false (resetBall r.reset true true g)
    let g2 := updateScore g1
    { g2 with pauseButton := { g2.pauseButton with disabled := false } }

/-- The interval callback of `startCountdown`, lines 756-767; `id` is
`countdownInterval`. -/
def countdownTick (m : MathLib α) (now : α) (r : HandlerRand α) (id : Nat)
    (callback : CountdownCallback) (g : Game α) : Game α :=
  let g1 := { g with countdownTime := g.countdownTime - 1 }
  if g1.countdownTime > 0 then g1
  else
    let g2 := clearTimer (some id) g1
    let g3 := { g2 with countdownActive := false, gamePaused := false }
    runCountdownCallback m now r callback g3

/-- `update`, lines 536-541. -/
def update (m : MathLib α) (now : α) (r : FrameRand α) (g : Game α) : Game α :=
  updatePickups m now r.traj
    (moveBall m now r (moveComputerPaddle r.shakeComputer (updatePlayerPaddle r.shakePlayer g)))

/-- `enhancedGameLoop`, lines 623-642: one animation frame. -/
def enhancedGameLoop (m : MathLib α) (now : α) (r : FrameRand α) (g : Game α) : Game α :=
  if g.gameOver then g
  else if g.gamePaused || g.countdownActive then g
  else update m now r g

/-- `resizeCanvas`, lines 104-114, for a window of inner size
`innerWidth` x `innerHeight`. -/
def resizeCanvas (innerWidth innerHeight : α) (r : ResetRand α) (g : Game α) : Game α :=
  let g1 := { g with
    canvasWidth := min (innerWidth * 0.8) 1000
    canvasHeight := min (innerHeight * 0.7) 600 }
  let g2 := { g1 with
    player := { g1.player with
      y := g1.canvasHeight / 2 - PADDLE_HEIGHT / 2
      x := PADDLE_WIDTH * 2 }
    computer := { g1.computer with
      y := g1.canvasHeight / 2 - PADDLE_HEIGHT / 2
      x := g1.canvasWidth - PADDLE_WIDTH * 3 } }
  if g2.gameStartedOnce then resetBall r true false g2 else g2

/-! ## Event handlers -/

/-- The key codes the script distinguishes. -/
inductive KeyCode where
  | KeyW
  | KeyS
  | ArrowUp
  | ArrowDown
  | Space
  | KeyR
  | other
  deriving DecidableEq, Repr

/-- The assignment `keys[code] = v`. -/
def Keys.set (k : Keys) (code : KeyCode) (v : Bool) : Keys :=
  match code with
  | .KeyW => { k with KeyW := v }
  | .KeyS => { k with KeyS := v }
  | .ArrowUp => { k with ArrowUp := v }
  | .ArrowDown => { k with ArrowDown := v }
  | _ => k

/-- The `keydown` listener, lines 464-478. -/
def keydown (m : MathLib α) (now : α) (r : SpawnRand α) (code : KeyCode) (g : Game α) :
    Game α :=
  let g1 := { g with keys := g.keys.set code true }
  let g2 :=
    match code with
    | .Space => if g1.gameStartedOnce then togglePauseGame m now r g1 else g1
    | _ => g1
  match code with
  | .KeyR => if g2.gameStartedOnce then restartGame now g2 else g2
  | _ => g2

/-- The `keyup` listener, lines 480-482. -/
def keyup (code : KeyCode) (g : Game α) : Game α :=
  { g with keys := g.keys.set code false }

/-- The `mousemove` listener, lines 645-657; `canvasY` is
`event.clientY - rect.top`. -/
def mousemove (canvasY : α) (g : Game α) : Game α :=
  if !g.mouseControlActive then g else { g with lastMouseY := canvasY }

/-- The `touchstart` listener, lines 661-673. -/
def touchstart (canvasY : α) (g : Game α) : Game α :=
  let g1 := { g with touchControlActive := true, mouseControlActive := false }
  if g1.gamePaused then g1 else { g1 with lastMouseY := canvasY }

/-- The `touchmove` listener, lines 675-682. -/
def touchmove (canvasY : α) (g : Game α) : Game α :=
  if g.gamePaused || !g.touchControlActive then g else { g with lastMouseY := canvasY }

/-- The `touchend` listener, lines 688-701; `now` is `currentTime`. -/
def touchend (m : MathLib α) (now : α) (r : SpawnRand α) (g : Game α) : Game α :=
  let tapLength := now - g.lastTapTime
  let g1 :=
    if tapLength < DOUBLE_TAP_DELAY ∧ tapLength > 0 then
      (if g.gameStartedOnce then togglePauseGame m now r g else g)
    else g
  { g1 with lastTapTime := now }

/-- The `click` listener of the canvas, lines 703-717. -/
def canvasClick (g : Game α) : Game α :=
  if g.gamePaused && !g.gameStartedOnce then g
  else if g.touchControlActive then g
  else if !g.gamePaused || g.gameStartedOnce then
    { g with mouseControlActive := !g.mouseControlActive }
  else g

/-- Whether a click on the button reaches its listener. -/
def Button.clickable (b : Button) : Bool := b.shown && !b.disabled

/-- The firing of the pending timer `id` at time `now`.  A timer that is not
pending or not yet due does not fire.  A timeout leaves the table before its
callback runs; an interval stays, due again one period later. -/
def fireTimer (m : MathLib α) (now : α) (r : HandlerRand α) (id : Nat) (g : Game α) : Game α :=
  match g.timers.find? (fun t => t.id == id) with
  | none => g
  | some t =>
    if t.due ≤ now then
      let g1 :=
        if t.repeating then
          { g with timers :=
              g.timers.map (fun u => if u.id = id then { u with due := u.due + u.delay } else u) }
        else { g with timers := g.timers.filter (fun u => u.id != id) }
      match t.action with
      | .spawnPickup => spawnPickup m r.spawn g1
      | .countdownTick callback => countdownTick m now r id callback g1
      | .deactivatePickup uid type => deactivatePickup uid type g1
    else g

/-! ## The script as a transition system -/

/-- What the page around the script fixes: the size attributes of the canvas
element, the initial state of the three buttons and the inner size of the
window at load time. -/
structure Page (α : Type) where
  canvasWidth : α
  canvasHeight : α
  startButton : Button
  pauseButton : Button
  restartButton : Button
  innerWidth : α
  innerHeight : α

/-- The state built by the declarations of the script, before the calls of
lines 889-892. -/
def declaredState (page : Page α) : Game α :=
  { canvasWidth := page.canvasWidth
    canvasHeight := page.canvasHeight
    playerScore := 0
    computerScore := 0
    gameOver := false
    winner := none
    player :=
      { x := PADDLE_WIDTH * 2
        y := page.canvasHeight / 2 - PADDLE_HEIGHT / 2
        width := PADDLE_WIDTH
        height := PADDLE_HEIGHT
        dy := 0
        shakeIntensity := 0
        shakeDuration := 0
        originalX := 0 }
    computer :=
      { x := page.canvasWidth - PADDLE_WIDTH * 3
        y := page.canvasHeight / 2 - PADDLE_HEIGHT / 2
        width := PADDLE_WIDTH
        height := PADDLE_HEIGHT
        dy := 0
        shakeIntensity := 0
        shakeDuration := 0
        originalX := 0 }
    ball :=
      { x := page.canvasWidth / 2
        y := page.canvasHeight / 2
        radius := BALL_RADIUS
        speed := 7
        dx := 5
        dy := 5
        history := [] }
    mouseControlActive := false
    touchControlActive := false
    gamePaused := true
    gameStartedOnce := false
    activePickups := []
    pickupSpawnTimer := none
    countdownActive := false
    countdownTime := 0
    keys := ⟨false, false, false, false⟩
    lastMouseY := page.canvasHeight / 2
    lastTapTime := 0
    startButton := page.startButton
    pauseButton := page.pauseButton
    restartButton := page.restartButton
    timers := []
    nextTimerId := 1
    nextUid := 0 }

/-- The state after the initial setup, lines 889-892: `resizeCanvas()`,
`updateScore()` (the first call of `enhancedGameLoop` is the first frame). -/
def initialState (page : Page α) : Game α :=
  updateScore (resizeCanvas page.innerWidth page.innerHeight ⟨0, 0⟩ (declaredState page))

/-- What can happen to the running script. -/
inductive Event (α : Type) where
  /-- An animation frame: `enhancedGameLoop`. -/
  | frame (now : α) (r : FrameRand α)
  /-- The pending timer `id` fires. -/
  | timer (now : α) (r : HandlerRand α) (id : Nat)
  | keydown (now : α) (r : SpawnRand α) (code : KeyCode)
  | keyup (code : KeyCode)
  | mousemove (canvasY : α)
  | touchstart (canvasY : α)
  | touchmove (canvasY : α)
  | touchend (now : α) (r : SpawnRand α)
  | canvasClick
  | startClick (now : α)
  | pauseClick (now : α) (r : SpawnRand α)
  | restartClick (now : α)
  | resize (innerWidth innerHeight : α) (r : ResetRand α)

/-- The state after one event. -/
def step (m : MathLib α) (g : Game α) : Event α → Game α
  | .frame now r => enhancedGameLoop m now r g
  | .timer now r id => fireTimer m now r id g
  | .keydown now r code => keydown m now r code g
  | .keyup code => keyup code g
  | .mousemove y => mousemove y g
  | .touchstart y => touchstart y g
  | .touchmove y => touchmove y g
  | .touchend now r => touchend m now r g
  | .canvasClick => canvasClick g
  | .startClick now => if g.startButton.clickable then startGame now g else g
  | .pauseClick now r => if g.pauseButton.clickable then togglePauseGame m now r g else g
  | .restartClick now => if g.restartButton.clickable then restartGame now g else g
  | .resize w h r => resizeCanvas w h r g

/-- The state after a sequence of events, the first event first. -/
def run (m : MathLib α) (g : Game α) (es : List (Event α)) : Game α :=
  es.foldl (step m) g

/-- The states the script can be in on a given page: the initial state and
every state one event away from a reachable state.  (Event times are not
required to increase: every execution of the script is covered.) -/
inductive Reachable (m : MathLib α) (page : Page α) : Game α → Prop where
  | init : Reachable m page (initialState page)
  | step (g : Game α) (e : Event α) : Reachable m page g → Reachable m page (step m g e)

/-! ## Vocabulary of the statements -/

/-- Whether a pending timer is an expiry timer (`deactivatePickup`) of the
pickup object `uid`. -/
def Timer.expires (uid : Nat) (t : Timer α) : Bool :=
  match t.action with
  | .deactivatePickup u _ => u == uid
  | _ => false

/-- The pending expiry timers of the pickup object `uid`. -/
def expiryTimersOf (uid : Nat) (ts : List (Timer α)) : List (Timer α) :=
  ts.filter (Timer.expires uid)

/-- What the pause branch of `togglePauseGame` does to one pickup at time
`now` (lines 779-782). -/
def pauseOne (now : α) (p : Pickup α) : Pickup α :=
  match p.isActive, p.timeoutId with
  | true, some _ => { p with remainingTime := p.durationEndTime.map (fun d => d - now) }
  | _, _ => p

/-- The identity and type of each pickup of a list, in order. -/
def signature (ps : List (Pickup α)) : List (Nat × PickupType) :=
  ps.map (fun q => (q.uid, q.type))

/-- The scoreboard is within the match: no score above 5, and both below 5
while the game is not over. -/
structure ScoreInv (g : Game α) : Prop where
  player_le : g.playerScore ≤ 5
  computer_le : g.computerScore ≤ 5
  running : g.gameOver = false → g.playerScore < 5 ∧ g.computerScore < 5

/-- `g'` has the scoreboard of `g`, and a countdown active in `g` is still
active in `g'`. -/
structure SameScore (g g' : Game α) : Prop where
  playerScore : g'.playerScore = g.playerScore
  computerScore : g'.computerScore = g.computerScore
  gameOver : g'.gameOver = g.gameOver
  countdown : g.countdownActive = true → g'.countdownActive = true

/-- The pickup list and the expiry timers are consistent: the pickups of the
list are distinct objects created before `nextUid`, the `deactivateTimeout`
property is unset, every pending expiry timer refers to an object created
before `nextUid` and carries its type, and the player paddle is enlarged
only while a paddle-enlarge pickup is in the list. -/
structure PickInv (g : Game α) : Prop where
  nodup : (g.activePickups.map Pickup.uid).Nodup
  fresh : ∀ q ∈ g.activePickups, q.uid < g.nextUid
  unset : ∀ q ∈ g.activePickups, q.deactivateTimeout = none
  timers : ∀ t ∈ g.timers, ∀ u ty, t.action = .deactivatePickup u ty →
    u < g.nextUid ∧ ∀ q ∈ g.activePickups, q.uid = u → q.type = ty
  height : g.player.height = originalPaddleHeight ∨
    ∃ q ∈ g.activePickups, q.type = .PADDLE_SIZE_INCREASE

/-- `g'` has the pickups of `g` (same objects and types, in order), the same
player paddle height and no expiry callback that `g` has not. -/
structure SamePick (g g' : Game α) : Prop where
  height : g'.player.height = g.player.height
  pickups : signature g'.activePickups = signature g.activePickups
  unset : (∀ q ∈ g.activePickups, q.deactivateTimeout = none) →
    ∀ q ∈ g'.activePickups, q.deactivateTimeout = none
  nextUid : g'.nextUid = g.nextUid
  timers : ∀ t ∈ g'.timers, ∀ u ty, t.action = .deactivatePickup u ty →
    ∃ t0 ∈ g.timers, t0.action = .deactivatePickup u ty

/-- Whether the event invokes `restartGame`: the `R` key or a click on the
restart button. -/
def Event.restarts : Event α → Bool
  | .keydown _ _ .KeyR => true
  | .restartClick _ => true
  | _ => false

/-- The timer table and the pickup list are consistent: every pending timer
was issued before `nextTimerId`, and every active pickup of the list carries
a timer id. -/
structure TimerInv (g : Game α) : Prop where
  ids : ∀ t ∈ g.timers, t.id < g.nextTimerId
  ticking : ∀ q ∈ g.activePickups, q.isActive = true → q.timeoutId.isSome = true

/-- The paddles have the declared width and the ball has the declared (base)
radius. -/
structure ShapeInv (g : Game α) : Prop where
  playerWidth : g.player.width = PADDLE_WIDTH
  computerWidth : g.computer.width = PADDLE_WIDTH
  radius : g.ball.radius = BALL_RADIUS

/-- `g'` has the paddle widths and the ball radius of `g`. -/
structure SameShape (g g' : Game α) : Prop where
  playerWidth : g'.player.width = g.player.width
  computerWidth : g'.computer.width = g.computer.width
  radius : g'.ball.radius = g.ball.radius

end Model

/-! ## Sample states

Concrete states on which the theorems below are exercised.  They are stated
for any ordered field so that they can be used over `ℚ` and over `ℝ`. -/

section Samples

variable {α : Type} [LinearOrderedField α]

/-- A page with a default-sized canvas element (300 x 150), the start button
shown, the other two hidden, in a window large enough for the full
1000 x 600 arena. -/
def fullPage : Page α :=
  { canvasWidth := 300
    canvasHeight := 150
    startButton := ⟨true, false⟩
    pauseButton := ⟨false, false⟩
    restartButton := ⟨false, false⟩
    innerWidth := 1250
    innerHeight := 1000 }

/-- The running match on the 1000 x 600 arena right after the countdown of
`startGame`, when the first spawn attempt was dropped: paddles centred, ball
at the centre heading down-left, spawn timer 2 pending. -/
def runningGame : Game α :=
  { canvasWidth := 1000
    canvasHeight := 600
    playerScore := 0
    computerScore := 0
    gameOver := false
    winner := none
    player := ⟨50, 225, 25, 150, 0, 0, 0, 0⟩
    computer := ⟨925, 225, 25, 150, 0, 0, 0, 0⟩
    ball := ⟨500, 300, 15, 7, -5, 5, []⟩
    mouseControlActive := false
    touchControlActive := false
    gamePaused := false
    gameStartedOnce := true
    activePickups := []
    pickupSpawnTimer := some 2
    countdownActive := false
    countdownTime := 0
    keys := ⟨false, false, false, false⟩
    lastMouseY := 75
    lastTapTime := 0
    startButton := ⟨false, false⟩
    pauseButton := ⟨true, false⟩
    restartButton := ⟨true, false⟩
    timers := [⟨2, 21000, 20000, true, .spawnPickup⟩]
    nextTimerId := 3
    nextUid := 0 }

/-- Frame draws that leave every random quantity at its midpoint (no shake
offset, no jitter, no angle perturbation). -/
def midFrame : FrameRand α :=
  ⟨1 / 2, 1 / 2, 1 / 2, 1 / 2, 1 / 2, fun _ => ⟨1 / 2, 1 / 2, 1 / 2, 1 / 2⟩⟩

/-- `runningGame` with the ball one tick away from crossing the left
boundary below the player paddle, the computer leading 4 : 0. -/
def leftExitGame : Game α :=
  { (runningGame : Game α) with
    computerScore := 4
    ball := ⟨12, 500, 15, 7, -5, 5, []⟩ }

/-- `runningGame` with the ball overlapping the player paddle. -/
def playerHitGame : Game α :=
  { (runningGame : Game α) with ball := ⟨85, 300, 15, 7, -5, 5, []⟩ }

/-- Spawn draws that put the candidate at the centre of the arena. -/
def midSpawn : SpawnRand α := ⟨0, 1 / 2, 1 / 2⟩

/-- An active speed-boost pickup collected at time 2000: expiry timer 3,
deadline 7000. -/
def boostPickup : Pickup α :=
  { uid := 0
    x := 400
    y := 300
    radius := 30
    type := .SPEED_BOOST
    isActive := true
    isSpawned := false
    timeoutId := some 3
    durationEndTime := some 7000
    remainingTime := none
    deactivateTimeout := none }

/-- `runningGame` holding `boostPickup` and its pending expiry timer. -/
def boostedGame : Game α :=
  { (runningGame : Game α) with
    activePickups := [boostPickup]
    timers := [⟨2, 21000, 20000, true, .spawnPickup⟩,
      ⟨3, 7000, 5000, false, .deactivatePickup 0 .SPEED_BOOST⟩]
    nextTimerId := 4
    nextUid := 1 }

/-- Draws of a handler: the ball is reset heading down-left, the spawn
candidate sits at the centre of the arena. -/
def midHandler : HandlerRand α := ⟨⟨0, 1⟩, midSpawn⟩

/-- A click on the start button at time 0 and the firing of its countdown
timer (id 1) one second later. -/
def startEvents : List (Event α) :=
  [.startClick 0, .timer 1000 midHandler 1]

/-- The `W` key goes down at time 1001 and stays down for 23 animation
frames. -/
def holdUpEvents : List (Event α) :=
  .keydown 1001 midSpawn .KeyW :: List.replicate 23 (.frame 1016 midFrame)

/-- `runningGame` with the computer paddle one unit above its lowest
position and the ball near the bottom wall. -/
def computerLowGame : Game α :=
  { (runningGame : Game α) with
    computer := ⟨925, 449, 25, 150, 0, 0, 0, 0⟩
    ball := ⟨500, 585, 15, 7, -5, -5, []⟩ }

/-- The page `fullPage` in a window 500 wide: the arena is 400 x 600. -/
def narrowPage : Page α :=
  { (fullPage : Page α) with innerWidth := 500 }

/-- `n` animation frames 16 ms apart, the first at `t + 16`. -/
def framesFrom (t : α) : Nat → List (Event α)
  | 0 => []
  | n + 1 => .frame (t + 16) midFrame :: framesFrom (t + 16) n

/-- Spawn draws for a speed-boost pickup at (130, 370) on the 400 x 600
arena. -/
def boostSpawn : SpawnRand α := ⟨0, 0, 19 / 24⟩

/-- A run on `narrowPage`: start; the first spawn succeeds; the ball collects
the pickup in the 8th frame (time 1128); Space pauses at 1130 and resumes at
1200; the ball leaves on the left in the 30th frame after that (time 1680),
which starts the score countdown; Space is pressed at 1700, during the
countdown. -/
def duplicateTimerEvents : List (Event α) :=
  [.startClick 0, .timer 1000 ⟨⟨0, 1⟩, boostSpawn⟩ 1] ++ framesFrom 1000 8 ++
    [.keydown 1130 midSpawn .Space, .keydown 1200 midSpawn .Space] ++ framesFrom 1200 30 ++
    [.keydown 1700 midSpawn .Space]

/-- The run `duplicateTimerEvents` followed by the last tick (time 2680) of
the countdown that followed the point: the game is running again. -/
def strayTimerEvents : List (Event α) :=
  duplicateTimerEvents ++ [.timer 2680 midHandler 6]

/-- The page `fullPage` in a window 150 wide: the arena is 120 x 600. -/
def slimPage : Page α :=
  { (fullPage : Page α) with innerWidth := 150 }

/-- The state on the 120 x 600 arena in which the countdown of `startGame`
calls `spawnPickup`: paddles centred, ball reset to the centre (60, 300). -/
def slimGame : Game α :=
  { (runningGame : Game α) with
    canvasWidth := 120
    computer := ⟨45, 225, 25, 150, 0, 0, 0, 0⟩
    ball := ⟨60, 300, 15, 7, -5, 5, []⟩
    pickupSpawnTimer := none
    timers := []
    nextTimerId := 2 }

/-- Spawn draws all 0: a speed boost at the top-left corner of the spawn
zone. -/
def cornerSpawn : SpawnRand α := ⟨0, 0, 0⟩

/-- A click on the start button at time 0 and the firing of its countdown
timer one second later, the spawn draws being `cornerSpawn`. -/
def cornerSpawnEvents : List (Event α) :=
  [.startClick 0, .timer 1000 ⟨⟨0, 1⟩, cornerSpawn⟩ 1]

/-- A click on the start button at time 0: the game is counting down. -/
def startClickEvents : List (Event α) := [.startClick 0]

/-- The match on the 1000 x 600 arena after the computer's fifth point and
the countdown that followed it: game over, the pause and start buttons
disabled, the spawn interval cancelled, the ball back at the centre. -/
def overGame : Game α :=
  { (runningGame : Game α) with
    computerScore := 5
    gameOver := true
    winner := some "Computer"
    ball := ⟨500, 300, 15, 7, -5, 5, []⟩
    startButton := ⟨false, true⟩
    pauseButton := ⟨true, true⟩
    timers := [] }

/-- A run on `narrowPage`: start; the first spawn puts a speed boost at
(130, 370); the ball collects it in the 8th frame (time 1128). -/
def collectEvents : List (Event α) :=
  [.startClick 0, .timer 1000 ⟨⟨0, 1⟩, boostSpawn⟩ 1] ++ framesFrom 1000 8

/-- `runningGame` with a speed boost spawned at (500, 320), 20 units from the
ball. -/
def spawnedGame : Game α :=
  { (runningGame : Game α) with
    activePickups := [⟨0, 500, 320, 30, .SPEED_BOOST, false, true, none, none, none, none⟩]
    nextUid := 1 }

/-- `runningGame` with the ball overlapping the lower end of the player
paddle: its centre, at `y = 385`, is 10 below the paddle's lower edge
(`y = 375`), its top, at 370, above it. -/
def edgeHitGame : Game α :=
  { (runningGame : Game α) with ball := ⟨85, 385, 15, 7, -5, 5, []⟩ }

/-- `runningGame` with an active ball-enlarge pickup (expiry timer 3), the
player paddle lower down (from `y = 425` to `y = 575`), and the ball next to
it, heading down-left towards the bottom wall. -/
def megaBallGame : Game α :=
  { (runningGame : Game α) with
    player := ⟨50, 425, 25, 150, 0, 0, 0, 0⟩
    ball := ⟨100, 575, 15, 7, -5, 5, []⟩
    activePickups :=
      [⟨0, 400, 300, 30, .BALL_SIZE_INCREASE, true, false, some 3, some 7000, none, none⟩]
    timers := [⟨2, 21000, 20000, true, .spawnPickup⟩,
      ⟨3, 7000, 5000, false, .deactivatePickup 0 .BALL_SIZE_INCREASE⟩]
    nextTimerId := 4
    nextUid := 1 }

/-- `runningGame` with an active ball-enlarge pickup (expiry timer 3) and a
speed boost spawned at (540, 330), 50 units from the ball. -/
def megaPickupGame : Game α :=
  { (runningGame : Game α) with
    activePickups :=
      [⟨0, 400, 300, 30, .BALL_SIZE_INCREASE, true, false, some 3, some 7000, none, none⟩,
       ⟨1, 540, 330, 30, .SPEED_BOOST, false, true, none, none, none, none⟩]
    timers := [⟨2, 21000, 20000, true, .spawnPickup⟩,
      ⟨3, 7000, 5000, false, .deactivatePickup 0 .BALL_SIZE_INCREASE⟩]
    nextTimerId := 4
    nextUid := 2 }

end Samples

/-! ## Theorems -/

section Theorems

set_option linter.unusedSectionVars false

variable {α : Type} [LinearOrderedField α]

/-! ### Auxiliary facts about the primitives -/

theorem clearTimer_guard (o : Option Nat) (g : Game α) :
    (if o.isSome = true then clearTimer o g else g) = clearTimer o g := by
  cases o <;> rfl

theorem mem_clearTimer (i : Nat) (g : Game α) (t : Timer α) :
    t ∈ (clearTimer (some i) g).timers ↔ t ∈ g.timers ∧ t.id ≠ i := by
  simp [clearTimer]

theorem speedBoostActive_iff (g : Game α) :
    speedBoostActive g = true ↔
      ∃ p ∈ g.activePickups, p.type = .SPEED_BOOST ∧ p.isActive = true := by
  simp [speedBoostActive]

theorem collides_iff (b : Circle α) (p : Paddle α) :
    collides b p = true ↔
      (b.x + b.radius > p.x ∧ b.x - b.radius < p.x + p.width ∧
        b.y + b.radius > p.y ∧ b.y - b.radius < p.y + p.height) := by
  simp [collides, and_assoc]

theorem handlePaddleCollision_frame (m : MathLib α) (rnd : α) (s : Side) (g : Game α) :
    ∃ b p c, handlePaddleCollision m rnd s g = { g with ball := b, player := p, computer := c } := by
  cases s
  · exact ⟨_, _, g.computer, rfl⟩
  · exact ⟨_, g.player, _, rfl⟩

theorem moveBallWalls_frame (g : Game α) : ∃ b, moveBallWalls g = { g with ball := b } := by
  unfold moveBallWalls; split_ifs <;> exact ⟨_, rfl⟩

theorem moveBallPaddles_frame (m : MathLib α) (rnd : α) (g : Game α) :
    ∃ b p c, moveBallPaddles m rnd g = { g with ball := b, player := p, computer := c } := by
  unfold moveBallPaddles
  split_ifs
  · exact handlePaddleCollision_frame m _ _ g
  · exact handlePaddleCollision_frame m _ _ g
  · exact ⟨g.ball, g.player, g.computer, rfl⟩

theorem moveBallBeforeScore_frame (m : MathLib α) (r : FrameRand α) (g : Game α) :
    ∃ b p c, moveBallBeforeScore m r g = { g with ball := b, player := p, computer := c } := by
  unfold moveBallBeforeScore
  obtain ⟨b1, h1⟩ := moveBallWalls_frame (moveBallMotion r.drunkX r.drunkY g)
  obtain ⟨b2, p2, c2, h2⟩ := moveBallPaddles_frame m r.hit
    (moveBallWalls (moveBallMotion r.drunkX r.drunkY g))
  rw [h2, h1]
  exact ⟨b2, p2, c2, rfl⟩

theorem updateScore_playerScore (g : Game α) : (updateScore g).playerScore = g.playerScore := by
  simp only [updateScore]
  split_ifs <;> rfl

theorem updateScore_computerScore (g : Game α) :
    (updateScore g).computerScore = g.computerScore := by
  simp only [updateScore]
  split_ifs <;> rfl

theorem handlePaddleCollision_ball_x (m : MathLib α) (rnd : α) (s : Side) (g : Game α) :
    (handlePaddleCollision m rnd s g).ball.x = g.ball.x ∧
    (handlePaddleCollision m rnd s g).ball.radius = g.ball.radius := by
  unfold handlePaddleCollision
  cases s <;> simp <;> split_ifs <;> simp

theorem moveBallBeforeScore_ball_x (m : MathLib α) (r : FrameRand α) (g : Game α) :
    (moveBallBeforeScore m r g).ball.x =
      g.ball.x + g.ball.dx +
        (if ∃ p ∈ g.activePickups, p.type = .DRUNKEN_BALL ∧ p.isActive = true then
          (r.drunkX - 0.5) * 4 else 0) ∧
    (moveBallBeforeScore m r g).ball.radius = g.ball.radius := by
  have hw : ∀ g : Game α, (moveBallWalls g).ball.x = g.ball.x ∧
      (moveBallWalls g).ball.radius = g.ball.radius := by
    intro g; unfold moveBallWalls; split_ifs <;> simp
  have hp : ∀ g : Game α, (moveBallPaddles m r.hit g).ball.x = g.ball.x ∧
      (moveBallPaddles m r.hit g).ball.radius = g.ball.radius := by
    intro g; unfold moveBallPaddles
    split_ifs
    · exact handlePaddleCollision_ball_x m _ _ g
    · exact handlePaddleCollision_ball_x m _ _ g
    · simp
  unfold moveBallBeforeScore
  obtain ⟨h1, h2⟩ := hp (moveBallWalls (moveBallMotion r.drunkX r.drunkY g))
  obtain ⟨k1, k2⟩ := hw (moveBallMotion r.drunkX r.drunkY g)
  rw [h1, h2, k1, k2]
  constructor
  · unfold moveBallMotion
    simp only [List.find?_isSome]
    split_ifs with h1 h2 h2
    · simp [add_assoc]
    · exfalso; apply h2; obtain ⟨p, hp, hq⟩ := h1; exact ⟨p, hp, by simpa using hq⟩
    · exfalso; apply h1; obtain ⟨p, hp, hq⟩ := h2; exact ⟨p, hp, by simpa using hq⟩
    · simp
  · unfold moveBallMotion
    simp only
    split_ifs <;> rfl

/-! ### C5: the wall step -/

/-- C5. The wall step of `moveBall` is exactly elastic.  With `r` the
effective radius (1.5 x the base radius while an active `BALL_SIZE_INCREASE`
pickup is in the list, the base radius otherwise): if `ball.y + r` exceeds
the arena height the ball is put at `height - r` and `dy` is negated; else if
`ball.y - r < 0` the ball is put at `r` and `dy` is negated; otherwise the
state is unchanged.  `x` and `dx` are never touched. -/
theorem wall_bounce_elastic (g : Game α) :
    (getCurrentBallRadius g =
      if ∃ p ∈ g.activePickups, p.type = .BALL_SIZE_INCREASE ∧ p.isActive = true then
        g.ball.radius * 1.5 else g.ball.radius) ∧
    (g.ball.y + getCurrentBallRadius g > g.canvasHeight →
      (moveBallWalls g).ball.y = g.canvasHeight - getCurrentBallRadius g ∧
      (moveBallWalls g).ball.x = g.ball.x ∧
      (moveBallWalls g).ball.dx = g.ball.dx ∧ (moveBallWalls g).ball.dy = -g.ball.dy) ∧
    (¬ g.ball.y + getCurrentBallRadius g > g.canvasHeight →
      g.ball.y - getCurrentBallRadius g < 0 →
      (moveBallWalls g).ball.y = getCurrentBallRadius g ∧
      (moveBallWalls g).ball.x = g.ball.x ∧
      (moveBallWalls g).ball.dx = g.ball.dx ∧ (moveBallWalls g).ball.dy = -g.ball.dy) ∧
    (¬ g.ball.y + getCurrentBallRadius g > g.canvasHeight →
      ¬ g.ball.y - getCurrentBallRadius g < 0 → moveBallWalls g = g) := by
  refine ⟨?_, ?_, ?_, ?_⟩
  · unfold getCurrentBallRadius
    simp
  · intro h
    simp [moveBallWalls, h]
  · intro h1 h2
    simp [moveBallWalls, h1, h2]
  · intro h1 h2
    simp [moveBallWalls, h1, h2]

/-! ### C2: the scoring step -/

theorem moveBallScore_scores (now : α) (G : Game α) :
    (G.ball.x - G.ball.radius < 0 →
      (moveBallScore now G).computerScore = G.computerScore + 1 ∧
      (moveBallScore now G).playerScore = G.playerScore) ∧
    (¬ G.ball.x - G.ball.radius < 0 → G.ball.x + G.ball.radius > G.canvasWidth →
      (moveBallScore now G).playerScore = G.playerScore + 1 ∧
      (moveBallScore now G).computerScore = G.computerScore) ∧
    (¬ G.ball.x - G.ball.radius < 0 → ¬ G.ball.x + G.ball.radius > G.canvasWidth →
      moveBallScore now G = G) := by
  refine ⟨?_, ?_, ?_⟩
  · intro h
    simp only [moveBallScore, if_pos h]
    exact ⟨updateScore_computerScore _, updateScore_playerScore _⟩
  · intro h h'
    simp only [moveBallScore, if_neg h, if_pos h']
    exact ⟨updateScore_playerScore _, updateScore_computerScore _⟩
  · intro h h'
    simp only [moveBallScore, if_neg h, if_neg h']

/-- C2. In a running state (not paused, no countdown) one `moveBall` tick
changes the scores by the position `b` of the ball after motion and collision
handling: if `b.x - radius < 0` the computer's score grows by exactly 1 and
the player's is unchanged; else if `b.x + radius > arenaWidth` the player's
score grows by exactly 1 and the computer's is unchanged; otherwise both are
unchanged.  The sum of the scores grows by 1 on a scoring tick and by 0
otherwise.  (`b.x` is the old `x` plus `dx`, plus the drunken jitter when a
`DRUNKEN_BALL` pickup is active; `radius` is the base radius.) -/
theorem scoring_step (m : MathLib α) (now : α) (r : FrameRand α) (g : Game α)
    (hp : g.gamePaused = false) (hc : g.countdownActive = false) :
    let b := (moveBallBeforeScore m r g).ball
    let g' := moveBall m now r g
    (b.x = g.ball.x + g.ball.dx +
        (if ∃ p ∈ g.activePickups, p.type = .DRUNKEN_BALL ∧ p.isActive = true then
          (r.drunkX - 0.5) * 4 else 0) ∧ b.radius = g.ball.radius) ∧
    (b.x - b.radius < 0 →
      g'.computerScore = g.computerScore + 1 ∧ g'.playerScore = g.playerScore) ∧
    (¬ b.x - b.radius < 0 → b.x + b.radius > g.canvasWidth →
      g'.playerScore = g.playerScore + 1 ∧ g'.computerScore = g.computerScore) ∧
    (¬ b.x - b.radius < 0 → ¬ b.x + b.radius > g.canvasWidth →
      g'.playerScore = g.playerScore ∧ g'.computerScore = g.computerScore) ∧
    (g'.playerScore + g'.computerScore =
      g.playerScore + g.computerScore +
        (if b.x - b.radius < 0 ∨ b.x + b.radius > g.canvasWidth then 1 else 0)) := by
  intro b g'
  have hx := moveBallBeforeScore_ball_x m r g
  obtain ⟨b0, p0, c0, hb⟩ := moveBallBeforeScore_frame m r g
  have hg' : g' = moveBallHistory m (moveBallScore now (moveBallBeforeScore m r g)) := by
    simp [g', moveBall, hp, hc]
  obtain ⟨ka, kb, kc⟩ := moveBallScore_scores now (moveBallBeforeScore m r g)
  have h3 : (moveBallBeforeScore m r g).canvasWidth = g.canvasWidth := by rw [hb]
  have h4 : (moveBallBeforeScore m r g).playerScore = g.playerScore := by rw [hb]
  have h5 : (moveBallBeforeScore m r g).computerScore = g.computerScore := by rw [hb]
  simp only [h3, h4, h5] at ka kb kc
  have e1 : g'.playerScore = (moveBallScore now (moveBallBeforeScore m r g)).playerScore := by
    rw [hg']; rfl
  have e2 : g'.computerScore = (moveBallScore now (moveBallBeforeScore m r g)).computerScore := by
    rw [hg']; rfl
  refine ⟨hx, ?_, ?_, ?_, ?_⟩
  · intro h
    rw [e1, e2]; exact ka h
  · intro h h'
    rw [e1, e2]; exact kb h h'
  · intro h h'
    rw [e1, e2, kc h h']; exact ⟨h4, h5⟩
  · rw [e1, e2]
    by_cases h : b.x - b.radius < 0
    · obtain ⟨a1, a2⟩ := ka h
      rw [a1, a2, if_pos (Or.inl h)]; omega
    · by_cases h' : b.x + b.radius > g.canvasWidth
      · obtain ⟨a1, a2⟩ := kb h h'
        rw [a1, a2, if_pos (Or.inr h')]; omega
      · rw [kc h h', if_neg (by tauto), h4, h5]; rfl

/-- On `leftExitGame` (running, ball at x = 12 moving left by 5) the tick
gives the point to the computer. -/
theorem scoring_step_witness :
    (leftExitGame : Game ℝ).gamePaused = false ∧ (leftExitGame : Game ℝ).countdownActive = false ∧
    (moveBall ⟨Real.cos, Real.sin, Real.sqrt, Real.pi⟩ 0 midFrame
      (leftExitGame : Game ℝ)).computerScore = 5 ∧
    (moveBall ⟨Real.cos, Real.sin, Real.sqrt, Real.pi⟩ 0 midFrame
      (leftExitGame : Game ℝ)).playerScore = 0 := by
  have h := scoring_step ⟨Real.cos, Real.sin, Real.sqrt, Real.pi⟩ (0 : ℝ) midFrame
    leftExitGame rfl rfl
  obtain ⟨⟨hx, hr⟩, h1, -⟩ := h
  have hlt : (moveBallBeforeScore ⟨Real.cos, Real.sin, Real.sqrt, Real.pi⟩ midFrame
      (leftExitGame : Game ℝ)).ball.x
      - (moveBallBeforeScore ⟨Real.cos, Real.sin, Real.sqrt, Real.pi⟩ midFrame
      (leftExitGame : Game ℝ)).ball.radius < 0 := by
    rw [hx, hr]
    norm_num [leftExitGame, runningGame]
  exact ⟨rfl, rfl, (h1 hlt).1, (h1 hlt).2⟩

/-! ### C3: the win threshold -/

theorem updateScore_spec (G : Game α) (hG : G.gameOver = false) :
    ((updateScore G).gameOver = true ↔ (G.playerScore ≥ 5 ∨ G.computerScore ≥ 5)) ∧
    (G.computerScore ≥ 5 → G.playerScore < 5 → (updateScore G).winner = some "Computer") ∧
    (G.playerScore ≥ 5 → (updateScore G).winner = some "Player") ∧
    ((updateScore G).gameOver = true → ∀ i, G.pickupSpawnTimer = some i →
      ∀ t ∈ (updateScore G).timers, t.id ≠ i) ∧
    (updateScore G).playerScore = G.playerScore ∧
    (updateScore G).computerScore = G.computerScore := by
  have hG' : ¬ G.gameOver = true := by simp [hG]
  simp only [updateScore, clearTimer_guard]
  rw [if_neg hG']
  by_cases h1 : G.playerScore ≥ 5
  · rw [if_pos h1]
    refine ⟨⟨fun _ => Or.inl h1, fun _ => rfl⟩, by intro _ h; omega, fun _ => rfl, ?_, rfl, rfl⟩
    intro _ i hi t ht
    rw [hi] at ht
    exact ((mem_clearTimer i _ t).1 ht).2
  · by_cases h2 : G.computerScore ≥ 5
    · rw [if_neg h1, if_pos h2]
      refine ⟨⟨fun _ => Or.inr h2, fun _ => rfl⟩, fun _ _ => rfl,
        by intro h; exact absurd h h1, ?_, rfl, rfl⟩
      intro _ i hi t ht
      rw [hi] at ht
      exact ((mem_clearTimer i _ t).1 ht).2
    · rw [if_neg h1, if_neg h2]
      have hf : G.gameOver = true → False := fun h => hG' h
      exact ⟨⟨fun h => (hf h).elim, fun h => (h.elim h1 h2).elim⟩,
        fun h => absurd h h2, fun h => absurd h h1, fun h => (hf h).elim, rfl, rfl⟩

theorem startCountdown_spawn_timers (now : α) (cb : CountdownCallback) (G : Game α) :
    ∀ t ∈ (startCountdown now 1 cb G).timers, t.action = .spawnPickup → t ∈ G.timers := by
  intro t ht ha
  simp only [startCountdown, setInterval, List.mem_append, List.mem_singleton] at ht
  rcases ht with ht | ht
  · exact ht
  · rw [ht] at ha; cases ha

/-- C3. In a running state with `gameOver` false, after a scoring tick
(`moveBall` reaching the score branch, which calls `updateScore`): `gameOver`
is true iff `playerScore >= 5` or `computerScore >= 5`; if the computer's
score is at least 5 (and the player's is not) the winner is "Computer", if
the player's score is at least 5 the winner is "Player"; and when the game is
over the interval timer registered in `pickupSpawnTimer` is no longer
pending. -/
theorem win_threshold (m : MathLib α) (now : α) (r : FrameRand α) (g : Game α)
    (hp : g.gamePaused = false) (hc : g.countdownActive = false) (hgo : g.gameOver = false)
    (hscore : (moveBallBeforeScore m r g).ball.x - (moveBallBeforeScore m r g).ball.radius < 0 ∨
      (moveBallBeforeScore m r g).ball.x + (moveBallBeforeScore m r g).ball.radius
        > g.canvasWidth) :
    let g' := moveBall m now r g
    (g'.gameOver = true ↔ (g'.playerScore ≥ 5 ∨ g'.computerScore ≥ 5)) ∧
    (g'.computerScore ≥ 5 → g'.playerScore < 5 → g'.winner = some "Computer") ∧
    (g'.playerScore ≥ 5 → g'.winner = some "Player") ∧
    (g'.gameOver = true → ∀ i, g.pickupSpawnTimer = some i →
      ∀ t ∈ g'.timers, t.action = .spawnPickup → t.id ≠ i) := by
  intro g'
  obtain ⟨b, p, c, hb⟩ := moveBallBeforeScore_frame m r g
  have hg' : g' = moveBallHistory m (moveBallScore now (moveBallBeforeScore m r g)) := by
    simp [g', moveBall, hp, hc]
  rw [hb] at hscore hg'
  simp only at hscore
  have hh : ∀ G : Game α, (moveBallHistory m G).gameOver = G.gameOver ∧
      (moveBallHistory m G).winner = G.winner ∧
      (moveBallHistory m G).playerScore = G.playerScore ∧
      (moveBallHistory m G).computerScore = G.computerScore ∧
      (moveBallHistory m G).timers = G.timers := fun G => ⟨rfl, rfl, rfl, rfl, rfl⟩
  have hs : ∀ (G : Game α) (cb : CountdownCallback),
      (startCountdown now 1 cb G).gameOver = G.gameOver ∧
      (startCountdown now 1 cb G).winner = G.winner ∧
      (startCountdown now 1 cb G).playerScore = G.playerScore ∧
      (startCountdown now 1 cb G).computerScore = G.computerScore :=
    fun _ _ => ⟨rfl, rfl, rfl, rfl⟩
  obtain ⟨e1, e2, e3, e4, e5⟩ := hh (moveBallScore now
    { g with ball := b, player := p, computer := c })
  rw [hg', e1, e2, e3, e4, e5]
  by_cases hl : b.x - b.radius < 0
  · simp only [moveBallScore, hl, if_true]
    obtain ⟨u1, u2, u3, u4, u5, u6⟩ := updateScore_spec
      { g with ball := b, player := p, computer := c, computerScore := g.computerScore + 1 } hgo
    have s5 := startCountdown_spawn_timers now (.afterScore false) (updateScore
      { g with ball := b, player := p, computer := c, computerScore := g.computerScore + 1 })
    rw [(hs _ _).1, (hs _ _).2.1, (hs _ _).2.2.1, (hs _ _).2.2.2, u5, u6]
    exact ⟨u1, u2, u3, fun h i hi t ht ha => u4 h i hi t (s5 t ht ha)⟩
  · have hr : b.x + b.radius > g.canvasWidth := by tauto
    simp only [moveBallScore, hl, hr, if_true, if_false]
    obtain ⟨u1, u2, u3, u4, u5, u6⟩ := updateScore_spec
      { g with ball := b, player := p, computer := c, playerScore := g.playerScore + 1 } hgo
    have s5 := startCountdown_spawn_timers now (.afterScore true) (updateScore
      { g with ball := b, player := p, computer := c, playerScore := g.playerScore + 1 })
    rw [(hs _ _).1, (hs _ _).2.1, (hs _ _).2.2.1, (hs _ _).2.2.2, u5, u6]
    exact ⟨u1, u2, u3, fun h i hi t ht ha => u4 h i hi t (s5 t ht ha)⟩

/-- On `leftExitGame` (computer leading 4 : 0, ball about to leave on the
left) the tick ends the match with winner "Computer". -/
theorem win_threshold_witness :
    (moveBall ⟨Real.cos, Real.sin, Real.sqrt, Real.pi⟩ 0 midFrame
      (leftExitGame : Game ℝ)).gameOver = true ∧
    (moveBall ⟨Real.cos, Real.sin, Real.sqrt, Real.pi⟩ 0 midFrame
      (leftExitGame : Game ℝ)).winner = some "Computer" ∧
    ∀ t ∈ (moveBall ⟨Real.cos, Real.sin, Real.sqrt, Real.pi⟩ 0 midFrame
      (leftExitGame : Game ℝ)).timers, t.action = .spawnPickup → t.id ≠ 2 := by
  have hx := moveBallBeforeScore_ball_x ⟨Real.cos, Real.sin, Real.sqrt, Real.pi⟩ midFrame
    (leftExitGame : Game ℝ)
  have hlt : (moveBallBeforeScore ⟨Real.cos, Real.sin, Real.sqrt, Real.pi⟩ midFrame
      (leftExitGame : Game ℝ)).ball.x
      - (moveBallBeforeScore ⟨Real.cos, Real.sin, Real.sqrt, Real.pi⟩ midFrame
      (leftExitGame : Game ℝ)).ball.radius < 0 := by
    rw [hx.1, hx.2]
    norm_num [leftExitGame, runningGame]
  have h := win_threshold ⟨Real.cos, Real.sin, Real.sqrt, Real.pi⟩ (0 : ℝ) midFrame
    leftExitGame rfl rfl rfl (Or.inl hlt)
  obtain ⟨h1, h2, -, h4⟩ := h
  have hs := moveBallScore_scores (0 : ℝ)
    (moveBallBeforeScore ⟨Real.cos, Real.sin, Real.sqrt, Real.pi⟩ midFrame (leftExitGame : Game ℝ))
  obtain ⟨b, p, c, hb⟩ := moveBallBeforeScore_frame ⟨Real.cos, Real.sin, Real.sqrt, Real.pi⟩
    midFrame (leftExitGame : Game ℝ)
  have hmb : moveBall ⟨Real.cos, Real.sin, Real.sqrt, Real.pi⟩ 0 midFrame (leftExitGame : Game ℝ) =
      moveBallHistory ⟨Real.cos, Real.sin, Real.sqrt, Real.pi⟩ (moveBallScore 0
        (moveBallBeforeScore ⟨Real.cos, Real.sin, Real.sqrt, Real.pi⟩ midFrame
          (leftExitGame : Game ℝ))) := by
    simp [moveBall, leftExitGame, runningGame]
  have hcs : (moveBall ⟨Real.cos, Real.sin, Real.sqrt, Real.pi⟩ 0 midFrame
      (leftExitGame : Game ℝ)).computerScore = 5 := by
    rw [hmb]
    show (moveBallScore 0 _).computerScore = 5
    rw [(hs.1 hlt).1, hb]
    rfl
  have hps : (moveBall ⟨Real.cos, Real.sin, Real.sqrt, Real.pi⟩ 0 midFrame
      (leftExitGame : Game ℝ)).playerScore = 0 := by
    rw [hmb]
    show (moveBallScore 0 _).playerScore = 0
    rw [(hs.1 hlt).2, hb]
    rfl
  have hgo := h1.2 (Or.inr (by rw [hcs]))
  exact ⟨hgo, h2 (by rw [hcs]) (by rw [hps]; norm_num), h4 hgo 2 rfl⟩

/-! ### C8: the speed rule of a paddle hit -/

theorem bounce_norm (d cs c s : ℝ) (hd : d ^ 2 = 1) (hcs : c ^ 2 + s ^ 2 = 1) :
    (d * cs * c) ^ 2 + (cs * s) ^ 2 = cs ^ 2 := by
  linear_combination cs ^ 2 * hcs + cs ^ 2 * c ^ 2 * hd

theorem handlePaddleCollision_dx (g : Game ℝ) (rnd : ℝ) (side : Side) :
    (handlePaddleCollision ⟨Real.cos, Real.sin, Real.sqrt, Real.pi⟩ rnd side g).ball.dx =
      (if g.ball.x + g.ball.radius < g.canvasWidth / 2 then (1:ℝ) else -1) *
      (if speedBoostActive g then g.ball.speed * 1.5 else g.ball.speed) *
      Real.cos ((g.ball.y - ((g.paddle side).y + (g.paddle side).height / 2)) /
          ((g.paddle side).height / 2) * (Real.pi / 3) + (rnd - 0.5) * 0.1) := by
  cases side <;> simp only [handlePaddleCollision] <;> split_ifs <;> rfl

theorem handlePaddleCollision_dy (g : Game ℝ) (rnd : ℝ) (side : Side) :
    (handlePaddleCollision ⟨Real.cos, Real.sin, Real.sqrt, Real.pi⟩ rnd side g).ball.dy =
      (if speedBoostActive g then g.ball.speed * 1.5 else g.ball.speed) *
      Real.sin ((g.ball.y - ((g.paddle side).y + (g.paddle side).height / 2)) /
          ((g.paddle side).height / 2) * (Real.pi / 3) + (rnd - 0.5) * 0.1) := by
  cases side <;> simp only [handlePaddleCollision] <;> split_ifs <;> rfl

theorem handlePaddleCollision_speed (m : MathLib α) (g : Game α) (rnd : α) (side : Side) :
    (handlePaddleCollision m rnd side g).ball.speed =
      if speedBoostActive g then g.ball.speed else g.ball.speed + 0.3 := by
  cases side <;> simp only [handlePaddleCollision] <;> split_ifs <;> simp_all

/-- C8. Over the reals, with `Math.cos`, `Math.sin` the real cosine and sine:
for every state and either paddle, `handlePaddleCollision` sets the velocity
so that `dx^2 + dy^2` is the square of the effective speed, which is
`ball.speed * 1.5` if an active `SPEED_BOOST` pickup is in the list and
`ball.speed` otherwise; the stored `ball.speed` is unchanged when boosted and
grows by 0.3 otherwise (7 becomes 7.3). -/
theorem paddle_hit_speed_rule (g : Game ℝ) (rnd : ℝ) (side : Side) :
    let g' := handlePaddleCollision ⟨Real.cos, Real.sin, Real.sqrt, Real.pi⟩ rnd side g
    let boosted : Prop := ∃ p ∈ g.activePickups, p.type = .SPEED_BOOST ∧ p.isActive = true
    (g'.ball.dx ^ 2 + g'.ball.dy ^ 2 =
      (if boosted then g.ball.speed * 1.5 else g.ball.speed) ^ 2) ∧
    (g'.ball.speed = if boosted then g.ball.speed else g.ball.speed + 0.3) ∧
    (¬ boosted → g.ball.speed = 7 → g'.ball.speed = 7.3) := by
  intro g' boosted
  have hb : speedBoostActive g = true ↔ boosted := speedBoostActive_iff g
  have hdir : ((if g.ball.x + g.ball.radius < g.canvasWidth / 2 then (1:ℝ) else -1)) ^ 2 = 1 := by
    split_ifs <;> norm_num
  have hnorm := bounce_norm _ (if speedBoostActive g then g.ball.speed * 1.5 else g.ball.speed)
    _ _ hdir (Real.cos_sq_add_sin_sq ((g.ball.y - ((g.paddle side).y + (g.paddle side).height / 2)) /
          ((g.paddle side).height / 2) * (Real.pi / 3) + (rnd - 0.5) * 0.1))
  rw [handlePaddleCollision_dx, handlePaddleCollision_dy, handlePaddleCollision_speed, hnorm]
  by_cases h : speedBoostActive g = true
  · have hB : boosted := hb.1 h
    rw [if_pos h, if_pos h, if_pos hB, if_pos hB]
    exact ⟨rfl, rfl, fun h' => absurd hB h'⟩
  · have hB : ¬ boosted := fun h' => h (hb.2 h')
    rw [if_neg h, if_neg h, if_neg hB, if_neg hB]
    exact ⟨rfl, rfl, fun _ h7 => by rw [h7]; norm_num⟩

/-! ### C9: the ball leaves away from the paddle it hit -/

/-- The bounce angle stays strictly inside a quarter turn, so its cosine is
positive. -/
theorem bounce_cos_pos (y py h r rnd : ℝ) (hr : r = 15) (hh : 150 ≤ h)
    (h0 : 0 ≤ rnd) (h1 : rnd ≤ 1) (ht : y + r > py) (hb : y - r < py + h) :
    0 < Real.cos ((y - (py + h / 2)) / (h / 2) * (Real.pi / 3) + (rnd - 0.5) * 0.1) := by
  have hpi := Real.pi_gt_three
  have hh2 : 0 < h / 2 := by linarith
  have hu : (y - (py + h / 2)) / (h / 2) < 1.2 := by
    rw [div_lt_iff₀ hh2]; subst hr; nlinarith
  have hl : -1.2 < (y - (py + h / 2)) / (h / 2) := by
    rw [lt_div_iff₀ hh2]; subst hr; nlinarith
  apply Real.cos_pos_of_mem_Ioo
  constructor
  · nlinarith
  · nlinarith

/-- C9. Over the reals: in an arena at least 300 wide, with the ball of the
base radius, a positive ball speed, a random draw in [0, 1] (a perturbation
in [-0.05, 0.05]), paddles at least `PADDLE_HEIGHT` high and each paddle's
`x` within 6 units of its resting `x`: if `collides(ball, player)` the
velocity set by `handlePaddleCollision` (and so by the paddle step of
`moveBall`) has `dx > 0`; if `collides(ball, computer)` the velocity set by
`handlePaddleCollision(computer)` has `dx < 0`, and so has the one set by the
paddle step when the player paddle is not hit. -/
theorem ball_leaves_hit_paddle (g : Game ℝ) (rnd : ℝ)
    (hW : 300 ≤ g.canvasWidth) (hr : g.ball.radius = BALL_RADIUS) (hs : 0 < g.ball.speed)
    (h0 : 0 ≤ rnd) (h1 : rnd ≤ 1)
    (hpw : g.player.width = PADDLE_WIDTH) (hph : PADDLE_HEIGHT ≤ g.player.height)
    (hpx : |g.player.x - PADDLE_WIDTH * 2| ≤ 6)
    (hch : PADDLE_HEIGHT ≤ g.computer.height)
    (hcx : |g.computer.x - (g.canvasWidth - PADDLE_WIDTH * 3)| ≤ 6) :
    (collides g.ball.toCircle g.player = true →
      0 < (handlePaddleCollision ⟨Real.cos, Real.sin, Real.sqrt, Real.pi⟩ rnd .player g).ball.dx ∧
      0 < (moveBallPaddles ⟨Real.cos, Real.sin, Real.sqrt, Real.pi⟩ rnd g).ball.dx) ∧
    (collides g.ball.toCircle g.computer = true →
      (handlePaddleCollision ⟨Real.cos, Real.sin, Real.sqrt, Real.pi⟩ rnd .computer g).ball.dx < 0 ∧
      (collides g.ball.toCircle g.player = false →
        (moveBallPaddles ⟨Real.cos, Real.sin, Real.sqrt, Real.pi⟩ rnd g).ball.dx < 0)) := by
  have hcs : 0 < (if speedBoostActive g then g.ball.speed * 1.5 else g.ball.speed) := by
    split_ifs
    · linarith
    · exact hs
  simp only [BALL_RADIUS, PADDLE_WIDTH, PADDLE_HEIGHT] at hr hpw hph hpx hch hcx
  constructor
  · intro hc
    have hc' := (collides_iff _ _).1 hc
    simp only [Ball.toCircle] at hc'
    obtain ⟨-, c2, c3, c4⟩ := hc'
    have hcos := bounce_cos_pos g.ball.y g.player.y g.player.height g.ball.radius rnd hr hph
      h0 h1 c3 c4
    have hdir : g.ball.x + g.ball.radius < g.canvasWidth / 2 := by
      have := (abs_le.1 hpx).2
      rw [hr, hpw] at *
      linarith
    have key : 0 < (handlePaddleCollision ⟨Real.cos, Real.sin, Real.sqrt, Real.pi⟩ rnd
        .player g).ball.dx := by
      rw [handlePaddleCollision_dx, if_pos hdir]
      simp only [Game.paddle]
      rw [one_mul]
      exact mul_pos hcs hcos
    refine ⟨key, ?_⟩
    simp only [moveBallPaddles, hc, if_true]
    exact key
  · intro hc
    have hc' := (collides_iff _ _).1 hc
    simp only [Ball.toCircle] at hc'
    obtain ⟨c1, -, c3, c4⟩ := hc'
    have hcos := bounce_cos_pos g.ball.y g.computer.y g.computer.height g.ball.radius rnd hr hch
      h0 h1 c3 c4
    have hdir : ¬ g.ball.x + g.ball.radius < g.canvasWidth / 2 := by
      have := (abs_le.1 hcx).1
      rw [hr] at *
      intro h
      linarith
    have key : (handlePaddleCollision ⟨Real.cos, Real.sin, Real.sqrt, Real.pi⟩ rnd
        .computer g).ball.dx < 0 := by
      rw [handlePaddleCollision_dx, if_neg hdir]
      simp only [Game.paddle]
      have : 0 < (if speedBoostActive g then g.ball.speed * 1.5 else g.ball.speed) *
        Real.cos ((g.ball.y - (g.computer.y + g.computer.height / 2)) / (g.computer.height / 2) *
          (Real.pi / 3) + (rnd - 0.5) * 0.1) := mul_pos hcs hcos
      linarith
    refine ⟨key, ?_⟩
    intro hp
    simp only [moveBallPaddles, hp, hc, if_true]
    exact key

/-- On `playerHitGame` (ball overlapping the player paddle, moving left at
speed 7) the hit sends the ball to the right. -/
theorem ball_leaves_hit_paddle_witness :
    collides (playerHitGame : Game ℝ).ball.toCircle (playerHitGame : Game ℝ).player = true ∧
    0 < (moveBallPaddles ⟨Real.cos, Real.sin, Real.sqrt, Real.pi⟩ (1 / 2)
      (playerHitGame : Game ℝ)).ball.dx := by
  have hc : collides (playerHitGame : Game ℝ).ball.toCircle
      (playerHitGame : Game ℝ).player = true := by
    rw [collides_iff]
    norm_num [playerHitGame, runningGame, Ball.toCircle]
  refine ⟨hc, ((ball_leaves_hit_paddle playerHitGame (1 / 2) ?_ ?_ ?_ ?_ ?_ ?_ ?_ ?_ ?_ ?_).1 hc).2⟩
  all_goals norm_num [playerHitGame, runningGame, BALL_RADIUS, PADDLE_WIDTH, PADDLE_HEIGHT]

/-! ### Pausing and resuming the expiry timers -/

theorem pausePickupTimers_fst (now : α) (ps : List (Pickup α)) (ts : List (Timer α)) :
    (pausePickupTimers now ps ts).1 = ps.map (pauseOne now) := by
  induction ps generalizing ts with
  | nil => rfl
  | cons p ps ih =>
    rcases hp : p.isActive with _ | _ <;> rcases ht : p.timeoutId with _ | id <;>
      simp [pausePickupTimers, pauseOne, hp, ht, ih]

theorem pausePickupTimers_snd (now : α) (ps : List (Pickup α)) (ts : List (Timer α)) :
    (pausePickupTimers now ps ts).2 =
      ts.filter (fun t => !(ps.any (fun p => p.isActive && p.timeoutId == some t.id))) := by
  induction ps generalizing ts with
  | nil => simp [pausePickupTimers]
  | cons p ps ih =>
    rcases hp : p.isActive with _ | _ <;> rcases ht : p.timeoutId with _ | id <;>
      simp [pausePickupTimers, hp, ht, ih, List.filter_filter]
    congr 1
    funext t
    by_cases h : id = t.id
    · subst h; simp
    · have h' : ¬ t.id = id := fun e => h e.symm
      have e1 : (t.id != id) = true := by simpa using h'
      have e2 : (id == t.id) = false := by simpa using h
      simp only [Bool.and_comm]
      rw [e1, e2]
      simp

theorem resumePickupTimers_append (now : α) (l1 l2 : List (Pickup α)) (ts : List (Timer α))
    (n : Nat) :
    resumePickupTimers now (l1 ++ l2) ts n =
      ((resumePickupTimers now l1 ts n).1 ++
        (resumePickupTimers now l2 (resumePickupTimers now l1 ts n).2.1
          (resumePickupTimers now l1 ts n).2.2).1,
       (resumePickupTimers now l2 (resumePickupTimers now l1 ts n).2.1
          (resumePickupTimers now l1 ts n).2.2).2.1,
       (resumePickupTimers now l2 (resumePickupTimers now l1 ts n).2.1
          (resumePickupTimers now l1 ts n).2.2).2.2) := by
  induction l1 generalizing ts n with
  | nil => rfl
  | cons p ps ih =>
    rcases hp : p.isActive with _ | _ <;> rcases hr : p.remainingTime with _ | rem <;>
      simp [resumePickupTimers, hp, hr, ih]
    split_ifs <;> simp [ih]


theorem resumePickupTimers_harmless (now : α) (u : Nat) (ps : List (Pickup α))
    (ts : List (Timer α)) (n : Nat) (hps : ∀ q ∈ ps, q.uid = u → q.isActive = false) :
    expiryTimersOf u (resumePickupTimers now ps ts n).2.1 = expiryTimersOf u ts := by
  induction ps generalizing ts n with
  | nil => rfl
  | cons p ps ih =>
    have ihp := fun ts n => ih ts n (fun q hq => hps q (List.mem_cons_of_mem _ hq))
    rcases hp : p.isActive with _ | _ <;> rcases hr : p.remainingTime with _ | rem <;>
      simp only [resumePickupTimers, hp, hr, ihp]
    split_ifs
    · rw [ihp]
      have hu : p.uid ≠ u := by
        intro h
        have := hps p (List.mem_cons_self _ _) h
        rw [hp] at this
        cases this
      simp [expiryTimersOf, Timer.expires, hu]
    · rw [ihp]

theorem spawnPickup_frame [FloorRing α] (m : MathLib α) (r : SpawnRand α) (g : Game α) :
    ∃ extra : List (Pickup α), ∃ k : Nat,
      (∀ q ∈ extra, q.isActive = false ∧ q.remainingTime = none) ∧
      spawnPickup m r g = { g with activePickups := g.activePickups ++ extra, nextUid := k } := by
  have hid : g = { g with activePickups := g.activePickups ++ [], nextUid := g.nextUid } := by
    simp
  unfold spawnPickup
  by_cases hp : g.gamePaused = true
  · rw [if_pos hp]
    exact ⟨[], g.nextUid, by simp, hid⟩
  · rw [if_neg hp]
    simp only
    split_ifs
    · exact ⟨[], g.nextUid, by simp, hid⟩
    · exact ⟨[_], g.nextUid + 1, by simp, rfl⟩

theorem startPickupSpawner_frame [FloorRing α] (m : MathLib α) (now : α) (r : SpawnRand α)
    (isResuming : Bool) (g : Game α) :
    ∃ extra : List (Pickup α), ∃ k : Nat,
      (∀ q ∈ extra, q.isActive = false ∧ q.remainingTime = none) ∧
      startPickupSpawner m now r isResuming g =
        { g with
          activePickups := g.activePickups ++ extra
          nextUid := k
          timers := (clearTimer g.pickupSpawnTimer g).timers ++
            [⟨g.nextTimerId, now + PICKUP_SPAWN_INTERVAL, PICKUP_SPAWN_INTERVAL, true, .spawnPickup⟩]
          nextTimerId := g.nextTimerId + 1
          pickupSpawnTimer := some g.nextTimerId } := by
  simp only [startPickupSpawner, clearTimer_guard]
  split_ifs
  · obtain ⟨extra, k, h1, h2⟩ := spawnPickup_frame m r (clearTimer g.pickupSpawnTimer g)
    refine ⟨extra, k, h1, ?_⟩
    rw [h2]
    rfl
  · exact ⟨[], g.nextUid, by simp, by simp [setInterval, clearTimer]⟩

theorem togglePauseGame_pause [FloorRing α] (m : MathLib α) (now : α) (r : SpawnRand α)
    (g : Game α) (hs : g.gameStartedOnce = true) (hr : g.gamePaused = false) :
    ∃ pl co, togglePauseGame m now r g =
      { g with
        gamePaused := true
        activePickups := g.activePickups.map (pauseOne now)
        timers := (pausePickupTimers now g.activePickups (clearTimer g.pickupSpawnTimer g).timers).2
        player := pl
        computer := co } := by
  simp only [togglePauseGame, hs, hr, clearTimer_guard, Bool.not_true, Bool.not_false,
    Bool.false_eq_true, if_false, if_true, pausePickupTimers_fst]
  simp only [clearTimer]
  split_ifs <;> exact ⟨_, _, rfl⟩

theorem togglePauseGame_resume [FloorRing α] (m : MathLib α) (now : α) (r : SpawnRand α)
    (g : Game α) (hs : g.gameStartedOnce = true) (hr : g.gamePaused = true) :
    togglePauseGame m now r g =
      { startPickupSpawner m now r true { g with gamePaused := false } with
        activePickups := (resumePickupTimers now
          (startPickupSpawner m now r true { g with gamePaused := false }).activePickups
          (startPickupSpawner m now r true { g with gamePaused := false }).timers
          (startPickupSpawner m now r true { g with gamePaused := false }).nextTimerId).1
        timers := (resumePickupTimers now
          (startPickupSpawner m now r true { g with gamePaused := false }).activePickups
          (startPickupSpawner m now r true { g with gamePaused := false }).timers
          (startPickupSpawner m now r true { g with gamePaused := false }).nextTimerId).2.1
        nextTimerId := (resumePickupTimers now
          (startPickupSpawner m now r true { g with gamePaused := false }).activePickups
          (startPickupSpawner m now r true { g with gamePaused := false }).timers
          (startPickupSpawner m now r true { g with gamePaused := false }).nextTimerId).2.2 } := by
  simp only [togglePauseGame, hs, hr, Bool.not_true, Bool.not_false,
    Bool.false_eq_true, if_false, if_true]

theorem expiryTimersOf_eq_nil (u : Nat) (ts : List (Timer α))
    (h : ∀ t ∈ ts, Timer.expires u t = true → False) : expiryTimersOf u ts = [] := by
  unfold expiryTimersOf
  rw [List.filter_eq_nil_iff]
  intro t ht he
  exact h t ht he

theorem resumePickupTimers_unique (now : α) (u : Nat) (A B : List (Pickup α))
    (ts : List (Timer α)) (n : Nat) (q : Pickup α) (rem : α)
    (hq : q.isActive = true) (hr : q.remainingTime = some rem) (hpos : rem > 0) (hu : q.uid = u)
    (hA : ∀ x ∈ A, x.uid = u → x.isActive = false)
    (hB : ∀ x ∈ B, x.uid = u → x.isActive = false) :
    ∃ k, expiryTimersOf u (resumePickupTimers now (A ++ q :: B) ts n).2.1 =
        expiryTimersOf u ts ++ [⟨k, now + rem, rem, false, .deactivatePickup q.uid q.type⟩] ∧
      { q with timeoutId := some k, durationEndTime := some (now + rem) } ∈
        (resumePickupTimers now (A ++ q :: B) ts n).1 := by
  refine ⟨(resumePickupTimers now A ts n).2.2, ?_, ?_⟩
  · rw [resumePickupTimers_append]
    simp only [resumePickupTimers, hq, hr, if_pos hpos]
    rw [resumePickupTimers_harmless now u B _ _ hB]
    unfold expiryTimersOf
    rw [List.filter_append]
    have := resumePickupTimers_harmless now u A ts n hA
    unfold expiryTimersOf at this
    rw [this]
    simp [Timer.expires, hu]
  · rw [resumePickupTimers_append]
    simp only [resumePickupTimers, hq, hr, if_pos hpos]
    simp

/-- Pause/resume round trip from a state without stray timers.  In a running
state whose pickup list has pairwise distinct objects, let `p` be an active
pickup with expiry deadline `D` whose only pending expiry timers are the
registered one (`timeoutId`).
If the game is paused at a time `t1 < D`, then no expiry timer of `p` is
pending while paused (and frames leave the paused state unchanged), and
after resuming at any time `t2` the pickup has exactly one pending expiry
timer, scheduled with delay `D - t1` and due at `t2 + (D - t1)`, which is
also its new deadline and whose id is its new `timeoutId`. -/
theorem pause_resume_round_trip [FloorRing α] (m : MathLib α) (t1 t2 : α)
    (r1 r2 : SpawnRand α) (g : Game α) (p : Pickup α) (tid : Nat) (D : α)
    (hstarted : g.gameStartedOnce = true) (hrun : g.gamePaused = false)
    (hmem : p ∈ g.activePickups) (hnodup : (g.activePickups.map Pickup.uid).Nodup)
    (hact : p.isActive = true) (htid : p.timeoutId = some tid) (hD : p.durationEndTime = some D)
    (hpending : ∀ t ∈ expiryTimersOf p.uid g.timers, t.id = tid)
    (hlt : t1 < D) :
    let g1 := togglePauseGame m t1 r1 g
    let g2 := togglePauseGame m t2 r2 g1
    (g1.gamePaused = true ∧ expiryTimersOf p.uid g1.timers = [] ∧
      ∀ now r, enhancedGameLoop m now r g1 = g1) ∧
    g2.gamePaused = false ∧
    ∃ n, expiryTimersOf p.uid g2.timers =
        [⟨n, t2 + (D - t1), D - t1, false, .deactivatePickup p.uid p.type⟩] ∧
      ∃ p' ∈ g2.activePickups, p'.uid = p.uid ∧ p'.isActive = true ∧
        p'.timeoutId = some n ∧ p'.durationEndTime = some (t2 + (D - t1)) := by
  intro g1 g2
  obtain ⟨pl, co, h1⟩ := togglePauseGame_pause m t1 r1 g hstarted hrun
  have hg1 : g1 = _ := h1
  -- the paused state
  have hp1 : g1.gamePaused = true := by rw [hg1]
  have hs1 : g1.gameStartedOnce = true := by rw [hg1]; exact hstarted
  have hl1 : g1.activePickups = g.activePickups.map (pauseOne t1) := by rw [hg1]
  have ht1 : g1.timers =
      (pausePickupTimers t1 g.activePickups (clearTimer g.pickupSpawnTimer g).timers).2 := by
    rw [hg1]
  have he1 : expiryTimersOf p.uid g1.timers = [] := by
    apply expiryTimersOf_eq_nil
    intro t ht he
    rw [ht1, pausePickupTimers_snd, List.mem_filter] at ht
    obtain ⟨hin, hno⟩ := ht
    have hin' : t ∈ g.timers := by
      cases hsp : g.pickupSpawnTimer with
      | none => simpa [clearTimer, hsp] using hin
      | some i => rw [hsp] at hin; exact ((mem_clearTimer i g t).1 hin).1
    have hid : t.id = tid := hpending t (by
      unfold expiryTimersOf; rw [List.mem_filter]; exact ⟨hin', he⟩)
    simp only [Bool.not_eq_true', List.any_eq_false, Bool.and_eq_true, beq_iff_eq, not_and] at hno
    exact hno p hmem hact (by rw [htid, hid])
  refine ⟨⟨hp1, he1, ?_⟩, ?_⟩
  · intro now r
    simp [enhancedGameLoop, hp1]
  -- the resumed state
  have hg2 : g2 = _ := togglePauseGame_resume m t2 r2 g1 hs1 hp1
  obtain ⟨extra, k, hex, hsp⟩ := startPickupSpawner_frame m t2 r2 true { g1 with gamePaused := false }
  rw [hsp] at hg2
  simp only at hg2
  obtain ⟨l1, l2, hsplit⟩ := List.append_of_mem hmem
  have hnd := hnodup
  rw [hsplit, List.map_append, List.map_cons] at hnd
  have hl1u : ∀ q ∈ l1, q.uid ≠ p.uid := by
    intro q hq he
    have := (List.nodup_append.1 hnd).2.2
    exact this (List.mem_map_of_mem _ hq) (by rw [he]; exact List.mem_cons_self _ _)
  have hl2u : ∀ q ∈ l2, q.uid ≠ p.uid := by
    intro q hq he
    have := (List.nodup_cons.1 (List.nodup_append.1 hnd).2.1).1
    exact this (by rw [← he]; exact List.mem_map_of_mem _ hq)
  have hfu : ∀ q : Pickup α, (pauseOne t1 q).uid = q.uid := by
    intro q; unfold pauseOne; split <;> rfl
  have hfp : pauseOne t1 p = { p with remainingTime := some (D - t1) } := by
    simp [pauseOne, hact, htid, hD]
  have hps : g1.activePickups ++ extra =
      l1.map (pauseOne t1) ++ pauseOne t1 p :: (l2.map (pauseOne t1) ++ extra) := by
    rw [hl1, hsplit]; simp
  have hA : ∀ x ∈ l1.map (pauseOne t1), x.uid = p.uid → x.isActive = false := by
    intro x hx he
    obtain ⟨q, hq, rfl⟩ := List.mem_map.1 hx
    rw [hfu] at he
    exact absurd he (hl1u q hq)
  have hB : ∀ x ∈ l2.map (pauseOne t1) ++ extra, x.uid = p.uid → x.isActive = false := by
    intro x hx he
    rcases List.mem_append.1 hx with hx | hx
    · obtain ⟨q, hq, rfl⟩ := List.mem_map.1 hx
      rw [hfu] at he
      exact absurd he (hl2u q hq)
    · exact (hex x hx).1
  have hTS : expiryTimersOf p.uid ((clearTimer g1.pickupSpawnTimer
      { g1 with gamePaused := false }).timers ++
      [⟨g1.nextTimerId, t2 + PICKUP_SPAWN_INTERVAL, PICKUP_SPAWN_INTERVAL, true, .spawnPickup⟩]) = [] := by
    apply expiryTimersOf_eq_nil
    intro t ht he
    rcases List.mem_append.1 ht with ht | ht
    · have hin : t ∈ g1.timers := by
        cases hsp : g1.pickupSpawnTimer with
        | none => simpa [clearTimer, hsp] using ht
        | some i =>
          rw [hsp] at ht
          exact ((mem_clearTimer i { g1 with gamePaused := false } t).1 ht).1
      have : t ∈ expiryTimersOf p.uid g1.timers := by
        unfold expiryTimersOf; rw [List.mem_filter]; exact ⟨hin, he⟩
      rw [he1] at this
      cases this
    · rw [List.mem_singleton] at ht
      rw [ht] at he
      simp [Timer.expires] at he
  obtain ⟨n, hn1, hn2⟩ := resumePickupTimers_unique t2 p.uid (l1.map (pauseOne t1))
    (l2.map (pauseOne t1) ++ extra)
    ((clearTimer g1.pickupSpawnTimer { g1 with gamePaused := false }).timers ++
      [⟨g1.nextTimerId, t2 + PICKUP_SPAWN_INTERVAL, PICKUP_SPAWN_INTERVAL, true, .spawnPickup⟩])
    (g1.nextTimerId + 1) (pauseOne t1 p) (D - t1)
    (by rw [hfp]; exact hact) (by rw [hfp]) (by linarith) (hfu p) hA hB
  rw [← hps, hTS, List.nil_append] at hn1
  rw [← hps] at hn2
  refine ⟨by rw [hg2], n, ?_, ?_⟩
  · rw [hg2]
    simp only [hfp] at hn1
    exact hn1
  · refine ⟨{ pauseOne t1 p with
      timeoutId := some n, durationEndTime := some (t2 + (D - t1)) }, ?_, ?_⟩
    · rw [hg2]; exact hn2
    · rw [hfp]
      exact ⟨rfl, hact, rfl, rfl⟩


/-- On `boostedGame` (deadline 7000): paused at 3000 and resumed at 10000,
the pickup has the single expiry timer of delay 4000 due at 14000. -/
theorem pause_resume_round_trip_witness :
    ∃ n, expiryTimersOf 0
        (togglePauseGame ⟨Real.cos, Real.sin, Real.sqrt, Real.pi⟩ 10000 midSpawn
          (togglePauseGame ⟨Real.cos, Real.sin, Real.sqrt, Real.pi⟩ 3000 midSpawn
            (boostedGame : Game ℝ))).timers =
      [⟨n, 14000, 4000, false, .deactivatePickup 0 .SPEED_BOOST⟩] := by
  obtain ⟨-, -, n, hn, -⟩ := pause_resume_round_trip ⟨Real.cos, Real.sin, Real.sqrt, Real.pi⟩
    (3000 : ℝ) 10000 midSpawn midSpawn boostedGame boostPickup 3 7000 rfl rfl
    (by simp [boostedGame]) (by simp [boostedGame, boostPickup]) rfl rfl rfl
    (by simp [boostedGame, expiryTimersOf, Timer.expires, boostPickup]) (by norm_num)
  refine ⟨n, ?_⟩
  have e : (10000 : ℝ) + (7000 - 3000) = 14000 ∧ (7000 : ℝ) - 3000 = 4000 := by norm_num
  rw [e.1, e.2] at hn
  exact hn

/-! ### The scoreboard through the handlers -/

theorem sameScore_refl (g : Game α) : SameScore g g := ⟨rfl, rfl, rfl, fun h => h⟩

theorem sameScore_trans {g1 g2 g3 : Game α} (h : SameScore g1 g2) (h' : SameScore g2 g3) :
    SameScore g1 g3 :=
  ⟨h'.playerScore.trans h.playerScore, h'.computerScore.trans h.computerScore,
    h'.gameOver.trans h.gameOver, fun hc => h'.countdown (h.countdown hc)⟩

theorem scoreInv_of_same {g g' : Game α} (h : SameScore g g') (hi : ScoreInv g) : ScoreInv g' := by
  refine ⟨?_, ?_, ?_⟩
  · rw [h.playerScore]; exact hi.player_le
  · rw [h.computerScore]; exact hi.computer_le
  · rw [h.playerScore, h.computerScore, h.gameOver]; exact hi.running

theorem updatePlayerPaddleVertical_height (g : Game α) :
    (updatePlayerPaddleVertical g).height = g.player.height := by
  unfold updatePlayerPaddleVertical
  simp only
  split_ifs <;> rfl

theorem updatePlayerPaddle_frame (rnd : α) (g : Game α) :
    ∃ p, updatePlayerPaddle rnd g = { g with player := p } ∧ p.height = g.player.height := by
  unfold updatePlayerPaddle
  have hv := updatePlayerPaddleVertical_height g
  simp only
  split_ifs
  · exact ⟨_, rfl, rfl⟩
  · exact ⟨g.player, rfl, rfl⟩
  · exact ⟨_, rfl, hv⟩
  · exact ⟨_, rfl, hv⟩
  · exact ⟨_, rfl, hv⟩

theorem moveComputerPaddle_frame (rnd : α) (g : Game α) :
    ∃ c, moveComputerPaddle rnd g = { g with computer := c } := by
  unfold moveComputerPaddle
  simp only
  split_ifs <;> exact ⟨_, rfl⟩

theorem handlePaddleCollision_height (m : MathLib α) (rnd : α) (s : Side) (g : Game α) :
    (handlePaddleCollision m rnd s g).player.height = g.player.height := by
  cases s <;> rfl

theorem moveBallBeforeScore_height (m : MathLib α) (r : FrameRand α) (g : Game α) :
    (moveBallBeforeScore m r g).player.height = g.player.height := by
  have hw : ∀ g : Game α, (moveBallWalls g).player = g.player := by
    intro g; obtain ⟨b, hb⟩ := moveBallWalls_frame g; rw [hb]
  have hp : ∀ g : Game α, (moveBallPaddles m r.hit g).player.height = g.player.height := by
    intro g; unfold moveBallPaddles
    split_ifs
    · exact handlePaddleCollision_height m _ _ g
    · exact handlePaddleCollision_height m _ _ g
    · rfl
  unfold moveBallBeforeScore
  rw [hp, hw]
  rfl

/-! ### The pickup list through the handlers -/

theorem mem_signature {ps : List (Pickup α)} {u : Nat} {ty : PickupType} :
    (u, ty) ∈ signature ps ↔ ∃ q ∈ ps, q.uid = u ∧ q.type = ty := by
  simp [signature]

theorem signature_uids (ps : List (Pickup α)) :
    (signature ps).map Prod.fst = ps.map Pickup.uid := by
  simp [signature]

theorem samePick_refl (g : Game α) : SamePick g g :=
  ⟨rfl, rfl, fun h => h, rfl, fun t ht _ _ ha => ⟨t, ht, ha⟩⟩

theorem samePick_trans {g1 g2 g3 : Game α} (h : SamePick g1 g2) (h' : SamePick g2 g3) :
    SamePick g1 g3 := by
  refine ⟨h'.height.trans h.height, h'.pickups.trans h.pickups, fun hu => h'.unset (h.unset hu),
    h'.nextUid.trans h.nextUid, ?_⟩
  intro t ht u ty ha
  obtain ⟨t0, ht0, ha0⟩ := h'.timers t ht u ty ha
  exact h.timers t0 ht0 u ty ha0

theorem pickInv_of_same {g g' : Game α} (h : SamePick g g') (hi : PickInv g) : PickInv g' := by
  have hmem : ∀ q' ∈ g'.activePickups, ∃ q ∈ g.activePickups, q.uid = q'.uid ∧ q.type = q'.type := by
    intro q' hq'
    have : (q'.uid, q'.type) ∈ signature g'.activePickups := mem_signature.2 ⟨q', hq', rfl, rfl⟩
    rw [h.pickups] at this
    exact mem_signature.1 this
  refine ⟨?_, ?_, h.unset hi.unset, ?_, ?_⟩
  · rw [← signature_uids, h.pickups, signature_uids]; exact hi.nodup
  · intro q' hq'
    obtain ⟨q, hq, hu, -⟩ := hmem q' hq'
    rw [h.nextUid, ← hu]; exact hi.fresh q hq
  · intro t ht u ty ha
    obtain ⟨t0, ht0, ha0⟩ := h.timers t ht u ty ha
    obtain ⟨h1, h2⟩ := hi.timers t0 ht0 u ty ha0
    refine ⟨by rw [h.nextUid]; exact h1, ?_⟩
    intro q' hq' hu'
    obtain ⟨q, hq, hu, hty⟩ := hmem q' hq'
    rw [← hty]; exact h2 q hq (hu.trans hu')
  · rcases hi.height with hh | ⟨q, hq, hty⟩
    · left; rw [h.height]; exact hh
    · right
      have : (q.uid, q.type) ∈ signature g.activePickups := mem_signature.2 ⟨q, hq, rfl, rfl⟩
      rw [← h.pickups] at this
      obtain ⟨q', hq', -, hty'⟩ := mem_signature.1 this
      exact ⟨q', hq', hty'.trans hty⟩

theorem signature_setPickup (u : Nat) (f : Pickup α → Pickup α) (ps : List (Pickup α))
    (hf : ∀ q, (f q).uid = q.uid ∧ (f q).type = q.type) :
    signature (setPickup u f ps) = signature ps := by
  unfold signature setPickup
  rw [List.map_map]
  apply List.map_congr_left
  intro q _
  simp only [Function.comp]
  split_ifs
  · rw [(hf q).1, (hf q).2]
  · rfl

theorem unset_setPickup (u : Nat) (f : Pickup α → Pickup α) (ps : List (Pickup α))
    (hf : ∀ q, (f q).deactivateTimeout = q.deactivateTimeout)
    (h : ∀ q ∈ ps, q.deactivateTimeout = none) :
    ∀ q ∈ setPickup u f ps, q.deactivateTimeout = none := by
  intro q hq
  unfold setPickup at hq
  obtain ⟨q0, hq0, rfl⟩ := List.mem_map.1 hq
  split_ifs
  · rw [hf]; exact h q0 hq0
  · exact h q0 hq0

theorem signature_filter (u : Nat) (ps : List (Pickup α)) :
    signature (ps.filter (fun p => p.uid != u)) = (signature ps).filter (fun s => s.1 != u) := by
  unfold signature
  rw [List.filter_map]
  rfl

theorem signature_functional {ps : List (Pickup α)} (hn : (ps.map Pickup.uid).Nodup)
    {u : Nat} {ty ty' : PickupType} (h : (u, ty) ∈ signature ps) (h' : (u, ty') ∈ signature ps) :
    ty = ty' := by
  obtain ⟨q, hq, hu, hty⟩ := mem_signature.1 h
  obtain ⟨q', hq', hu', hty'⟩ := mem_signature.1 h'
  have : q = q' := List.inj_on_of_nodup_map hn hq hq' (hu.trans hu'.symm)
  rw [← hty, ← hty', this]

/-- The way most handlers keep `PickInv`: the list loses pickups at most, the
new expiry timers are for pickups of the list, and the height clause is kept. -/
theorem PickInv.step {g g' : Game α} (hi : PickInv g)
    (hsub : (signature g'.activePickups).Sublist (signature g.activePickups))
    (hnext : g'.nextUid = g.nextUid)
    (hunset : ∀ q ∈ g'.activePickups, q.deactivateTimeout = none)
    (htimers : ∀ t ∈ g'.timers, ∀ u ty, t.action = .deactivatePickup u ty →
      (∃ t0 ∈ g.timers, t0.action = .deactivatePickup u ty) ∨ (u, ty) ∈ signature g.activePickups)
    (hheight : g'.player.height = originalPaddleHeight ∨
      ∃ q ∈ g'.activePickups, q.type = .PADDLE_SIZE_INCREASE) :
    PickInv g' := by
  have hmem : ∀ q' ∈ g'.activePickups, (q'.uid, q'.type) ∈ signature g.activePickups :=
    fun q' hq' => hsub.subset (mem_signature.2 ⟨q', hq', rfl, rfl⟩)
  refine ⟨?_, ?_, hunset, ?_, hheight⟩
  · rw [← signature_uids]
    have := hsub.map Prod.fst
    rw [signature_uids g.activePickups] at this
    exact hi.nodup.sublist this
  · intro q' hq'
    obtain ⟨q, hq, hu, -⟩ := mem_signature.1 (hmem q' hq')
    rw [hnext, ← hu]; exact hi.fresh q hq
  · intro t ht u ty ha
    rcases htimers t ht u ty ha with ⟨t0, ht0, ha0⟩ | hin
    · obtain ⟨h1, h2⟩ := hi.timers t0 ht0 u ty ha0
      refine ⟨by rw [hnext]; exact h1, ?_⟩
      intro q' hq' hu'
      obtain ⟨q, hq, hu, hty⟩ := mem_signature.1 (hmem q' hq')
      rw [← hty]; exact h2 q hq (hu.trans hu')
    · obtain ⟨q, hq, hu, -⟩ := mem_signature.1 hin
      refine ⟨by rw [hnext, ← hu]; exact hi.fresh q hq, ?_⟩
      intro q' hq' hu'
      have := hmem q' hq'
      rw [hu'] at this
      exact signature_functional hi.nodup this hin

theorem setTimeout_fst (now delay : α) (a : TimerAction) (g : Game α) :
    (setTimeout now delay a g).1 =
      { g with timers := g.timers ++ [⟨g.nextTimerId, now + delay, delay, false, a⟩]
               nextTimerId := g.nextTimerId + 1 } := rfl

theorem mem_setPickup {u : Nat} {f : Pickup α → Pickup α} {ps : List (Pickup α)} {q : Pickup α}
    (hq : q ∈ ps) : (if q.uid = u then f q else q) ∈ setPickup u f ps := by
  unfold setPickup
  exact List.mem_map.2 ⟨q, hq, rfl⟩

theorem applyPickupEffect_frame (r : TrajRand α) (pickup : Pickup α) (g : Game α) :
    ∃ b pl, applyPickupEffect r pickup g = { g with ball := b, player := pl } ∧
      (pickup.type ≠ .PADDLE_SIZE_INCREASE → pl.height = g.player.height) := by
  unfold applyPickupEffect
  split
  · exact ⟨g.ball, g.player, rfl, fun _ => rfl⟩
  · exact ⟨g.ball, g.player, rfl, fun _ => rfl⟩
  · exact ⟨_, g.player, rfl, fun _ => rfl⟩
  · exact ⟨g.ball, g.player, rfl, fun _ => rfl⟩
  · rename_i h
    exact ⟨g.ball, _, rfl, fun h' => absurd h h'⟩

theorem mem_clearTimer_sub (o : Option Nat) (g : Game α) (t : Timer α)
    (h : t ∈ (clearTimer o g).timers) : t ∈ g.timers := by
  cases o with
  | none => exact h
  | some i => exact ((mem_clearTimer i g t).1 h).1

theorem activatePickup_sameScore (now : α) (r : TrajRand α) (pickup : Pickup α) (g : Game α) :
    SameScore g (activatePickup now r pickup g) := by
  unfold activatePickup
  simp only
  split
  · exact ⟨rfl, rfl, rfl, fun h => h⟩
  · obtain ⟨b, pl, hb, -⟩ := applyPickupEffect_frame r pickup
      { g with activePickups := (setPickup pickup.uid
        (fun p => { p with isActive := true, isSpawned := false }) g.activePickups) }
    simp only [setTimeout_fst]
    rw [hb]
    exact ⟨rfl, rfl, rfl, fun h => h⟩

theorem activatePickup_pickInv (now : α) (r : TrajRand α) (pickup : Pickup α) (g : Game α)
    (hi : PickInv g) (hmem : pickup ∈ g.activePickups) :
    PickInv (activatePickup now r pickup g) := by
  have hsig0 : signature (setPickup pickup.uid
      (fun p => { p with isActive := true, isSpawned := false }) g.activePickups) =
      signature g.activePickups := signature_setPickup _ _ _ (fun _ => ⟨rfl, rfl⟩)
  have hun0 := unset_setPickup pickup.uid
      (fun p => { p with isActive := true, isSpawned := false }) g.activePickups
      (fun _ => rfl) hi.unset
  have hpin : (pickup.uid, pickup.type) ∈ signature g.activePickups :=
    mem_signature.2 ⟨pickup, hmem, rfl, rfl⟩
  have hs1 : ∀ (u : Nat) (ps : List (Pickup α)) (d : Option α) (i : Option Nat),
      signature (setPickup u (fun p => { p with durationEndTime := d, timeoutId := i }) ps) =
        signature ps :=
    fun u ps d i => signature_setPickup _ _ _ (fun _ => ⟨rfl, rfl⟩)
  have hu1 : ∀ (u : Nat) (ps : List (Pickup α)) (d : Option α) (i : Option Nat),
      (∀ q ∈ ps, q.deactivateTimeout = none) →
      ∀ q ∈ setPickup u (fun p => { p with durationEndTime := d, timeoutId := i }) ps,
        q.deactivateTimeout = none :=
    fun u ps d i h => unset_setPickup _ _ _ (fun _ => rfl) h
  unfold activatePickup
  simp only
  split
  · rename_i e he
    have hein := List.mem_of_find?_eq_some he
    have hep := List.find?_some he
    simp only [Bool.and_eq_true, beq_iff_eq, bne_iff_ne, ne_eq] at hep
    obtain ⟨⟨hety, -⟩, heu⟩ := hep
    have hesig : (e.uid, e.type) ∈ signature g.activePickups := by
      rw [← hsig0]; exact mem_signature.2 ⟨e, hein, rfl, rfl⟩
    apply PickInv.step hi
    · simp only [setTimeout_fst, clearTimer]
      rw [signature_filter, hs1, hsig0]
      exact List.filter_sublist _
    · rfl
    · simp only [setTimeout_fst, clearTimer]
      intro q hq
      exact hu1 _ _ _ _ hun0 q (List.mem_of_mem_filter hq)
    · simp only [setTimeout_fst]
      intro t ht u ty ha
      rcases List.mem_append.1 ht with ht | ht
      · exact Or.inl ⟨t, mem_clearTimer_sub _ _ t ht, ha⟩
      · rw [List.mem_singleton] at ht
        rw [ht] at ha
        simp only [TimerAction.deactivatePickup.injEq] at ha
        rw [← ha.1, ← ha.2]
        exact Or.inr hesig
    · simp only [setTimeout_fst, clearTimer]
      rcases hi.height with hh | ⟨q, hq, hty⟩
      · exact Or.inl hh
      · right
        have hq' : (q.uid, q.type) ∈ signature g.activePickups :=
          mem_signature.2 ⟨q, hq, rfl, rfl⟩
        by_cases hqu : q.uid = pickup.uid
        · -- the enlarged paddle is held by the collected pickup: the existing one has its type
          have hpty : pickup.type = .PADDLE_SIZE_INCREASE := by
            rw [hqu] at hq'
            rw [← hty]
            exact signature_functional hi.nodup hpin hq'
          have : (e.uid, e.type) ∈ (signature g.activePickups).filter
              (fun s => s.1 != pickup.uid) := by
            rw [List.mem_filter]
            exact ⟨hesig, by simpa using heu⟩
          rw [← hsig0, ← hs1 e.uid _ (some (now + PICKUP_DURATION)) (some g.nextTimerId),
            ← signature_filter] at this
          obtain ⟨q2, hq2, -, hty2⟩ := mem_signature.1 this
          exact ⟨q2, hq2, by rw [hty2, hety, hpty]⟩
        · have : (q.uid, q.type) ∈ (signature g.activePickups).filter
              (fun s => s.1 != pickup.uid) := by
            rw [List.mem_filter]
            exact ⟨hq', by simpa using hqu⟩
          rw [← hsig0, ← hs1 e.uid _ (some (now + PICKUP_DURATION)) (some g.nextTimerId),
            ← signature_filter] at this
          obtain ⟨q2, hq2, -, hty2⟩ := mem_signature.1 this
          exact ⟨q2, hq2, by rw [hty2, hty]⟩
  · obtain ⟨b, pl, hb, hpl⟩ := applyPickupEffect_frame r pickup
      { g with activePickups := (setPickup pickup.uid
        (fun p => { p with isActive := true, isSpawned := false }) g.activePickups) }
    simp only [setTimeout_fst]
    rw [hb]
    apply PickInv.step hi
    · simp only
      rw [hs1, hsig0]
    · rfl
    · exact hu1 _ _ _ _ hun0
    · intro t ht u ty ha
      rcases List.mem_append.1 ht with ht | ht
      · exact Or.inl ⟨t, ht, ha⟩
      · rw [List.mem_singleton] at ht
        rw [ht] at ha
        simp only [TimerAction.deactivatePickup.injEq] at ha
        rw [← ha.1, ← ha.2]
        exact Or.inr hpin
    · simp only
      have hsig2 : signature (setPickup pickup.uid
          (fun p => { p with durationEndTime := some (now + PICKUP_DURATION),
                             timeoutId := some g.nextTimerId })
          (setPickup pickup.uid (fun p => { p with isActive := true, isSpawned := false })
            g.activePickups)) = signature g.activePickups := by
        rw [hs1, hsig0]
      by_cases hpty : pickup.type = .PADDLE_SIZE_INCREASE
      · right
        rw [← hsig2] at hpin
        obtain ⟨q2, hq2, -, hty2⟩ := mem_signature.1 hpin
        exact ⟨q2, hq2, hty2.trans hpty⟩
      · rcases hi.height with hh | ⟨q, hq, hty⟩
        · left; rw [hpl hpty]; exact hh
        · right
          have hq' : (q.uid, q.type) ∈ signature g.activePickups :=
            mem_signature.2 ⟨q, hq, rfl, rfl⟩
          rw [← hsig2] at hq'
          obtain ⟨q2, hq2, -, hty2⟩ := mem_signature.1 hq'
          exact ⟨q2, hq2, hty2.trans hty⟩


theorem updatePickupsLoop_sameScore (m : MathLib α) (now : α) (traj : Nat → TrajRand α)
    (rad : α) (n : Nat) (g : Game α) :
    SameScore g (updatePickupsLoop m now traj rad n g) := by
  induction n generalizing g with
  | zero => exact sameScore_refl g
  | succ i ih =>
    unfold updatePickupsLoop
    simp only
    refine sameScore_trans ?_ (ih _)
    split
    · exact sameScore_refl g
    · split_ifs
      · exact activatePickup_sameScore _ _ _ _
      · exact sameScore_refl g
      · exact sameScore_refl g

theorem updatePickupsLoop_pickInv (m : MathLib α) (now : α) (traj : Nat → TrajRand α)
    (rad : α) (n : Nat) (g : Game α) (hi : PickInv g) :
    PickInv (updatePickupsLoop m now traj rad n g) := by
  induction n generalizing g with
  | zero => exact hi
  | succ i ih =>
    unfold updatePickupsLoop
    simp only
    apply ih
    split
    · exact hi
    · rename_i pickup hp
      split_ifs
      · exact activatePickup_pickInv _ _ _ _ hi (List.getElem?_mem hp)
      · exact hi
      · exact hi

theorem updatePickups_sameScore (m : MathLib α) (now : α) (traj : Nat → TrajRand α)
    (g : Game α) : SameScore g (updatePickups m now traj g) := by
  unfold updatePickups
  split_ifs
  · exact sameScore_refl g
  · exact updatePickupsLoop_sameScore _ _ _ _ _ _

theorem updatePickups_pickInv (m : MathLib α) (now : α) (traj : Nat → TrajRand α)
    (g : Game α) (hi : PickInv g) : PickInv (updatePickups m now traj g) := by
  unfold updatePickups
  split_ifs
  · exact hi
  · exact updatePickupsLoop_pickInv _ _ _ _ _ _ hi

theorem deactivatePickup_frame (uid : Nat) (ty : PickupType) (g : Game α) :
    ∃ pl, deactivatePickup uid ty g =
      { g with
        activePickups := (setPickup uid (fun p => { p with isActive := false })
          g.activePickups).filter (fun p => p.uid != uid)
        player := pl } := by
  unfold deactivatePickup
  cases ty <;> simp only <;> split_ifs <;> exact ⟨_, rfl⟩

theorem deactivatePickup_sameScore (uid : Nat) (ty : PickupType) (g : Game α) :
    SameScore g (deactivatePickup uid ty g) := by
  obtain ⟨pl, h⟩ := deactivatePickup_frame uid ty g
  rw [h]
  exact ⟨rfl, rfl, rfl, fun h => h⟩

theorem deactivatePickup_pickInv (uid : Nat) (ty : PickupType) (g : Game α) (hi : PickInv g)
    (hty : ∀ q ∈ g.activePickups, q.uid = uid → q.type = ty) :
    PickInv (deactivatePickup uid ty g) := by
  have hsig : signature ((setPickup uid (fun p => { p with isActive := false })
      g.activePickups).filter (fun p => p.uid != uid)) =
      (signature g.activePickups).filter (fun s => s.1 != uid) := by
    rw [signature_filter, signature_setPickup]
    exact fun _ => ⟨rfl, rfl⟩
  have hun : ∀ q ∈ (setPickup uid (fun p => { p with isActive := false })
      g.activePickups).filter (fun p => p.uid != uid), q.deactivateTimeout = none := by
    intro q hq
    refine unset_setPickup uid (fun p => { p with isActive := false }) _ ?_ hi.unset q
      (List.mem_of_mem_filter hq)
    exact fun _ => rfl
  have hkeep : ∀ q ∈ g.activePickups, q.uid ≠ uid →
      ∃ q' ∈ (setPickup uid (fun p => { p with isActive := false })
        g.activePickups).filter (fun p => p.uid != uid), q'.type = q.type := by
    intro q hq hne
    have : (q.uid, q.type) ∈ (signature g.activePickups).filter (fun s => s.1 != uid) := by
      rw [List.mem_filter]
      exact ⟨mem_signature.2 ⟨q, hq, rfl, rfl⟩, by simpa using hne⟩
    rw [← hsig] at this
    obtain ⟨q', hq', -, hty'⟩ := mem_signature.1 this
    exact ⟨q', hq', hty'⟩
  have hgen : ∀ g' : Game α, g'.activePickups = (setPickup uid (fun p => { p with isActive := false })
        g.activePickups).filter (fun p => p.uid != uid) → g'.nextUid = g.nextUid →
      g'.timers = g.timers →
      (g'.player.height = originalPaddleHeight ∨
        ∃ q ∈ g'.activePickups, q.type = .PADDLE_SIZE_INCREASE) → PickInv g' := by
    intro g' hl hn ht hh
    apply PickInv.step hi
    · rw [hl, hsig]; exact List.filter_sublist _
    · exact hn
    · rw [hl]; exact hun
    · intro t htm u ty' ha
      rw [ht] at htm
      exact Or.inl ⟨t, htm, ha⟩
    · exact hh
  unfold deactivatePickup
  simp only
  by_cases hst : (g.activePickups.find? (fun p =>
      p.type == ty && p.isActive && p.uid != uid && p.timeoutId.isSome)).isSome = true
  · -- another active pickup of the type remains
    rw [if_neg (by simp [hst])]
    refine hgen _ ?_ ?_ ?_ ?_ <;> try rfl
    rcases hi.height with hh | ⟨q, hq, hqty⟩
    · exact Or.inl hh
    · right
      by_cases hqu : q.uid = uid
      · rw [List.find?_isSome] at hst
        obtain ⟨q2, hq2, hp2⟩ := hst
        simp only [Bool.and_eq_true, beq_iff_eq, bne_iff_ne, ne_eq] at hp2
        obtain ⟨q3, hq3, hty3⟩ := hkeep q2 hq2 hp2.1.2
        exact ⟨q3, hq3, by rw [hty3, hp2.1.1.1, ← hty q hq hqu, hqty]⟩
      · obtain ⟨q3, hq3, hty3⟩ := hkeep q hq hqu
        exact ⟨q3, hq3, hty3.trans hqty⟩
  · rw [if_pos (by simpa using hst)]
    by_cases htp : ty = .PADDLE_SIZE_INCREASE
    · subst htp
      simp only
      refine hgen _ ?_ ?_ ?_ ?_ <;> try rfl
      left
      split_ifs <;> rfl
    · have hother : ∀ q ∈ g.activePickups, q.type = .PADDLE_SIZE_INCREASE → q.uid ≠ uid := by
        intro q hq hqty hqu
        exact htp ((hty q hq hqu).symm.trans hqty)
      have hh : g.player.height = originalPaddleHeight ∨
          ∃ q ∈ (setPickup uid (fun p => { p with isActive := false })
            g.activePickups).filter (fun p => p.uid != uid), q.type = .PADDLE_SIZE_INCREASE := by
        rcases hi.height with hh | ⟨q, hq, hqty⟩
        · exact Or.inl hh
        · obtain ⟨q3, hq3, hty3⟩ := hkeep q hq (hother q hq hqty)
          exact Or.inr ⟨q3, hq3, hty3.trans hqty⟩
      cases ty <;> first | exact absurd rfl htp | exact hgen _ (by rfl) (by rfl) (by rfl) hh

theorem spawnPickup_cases [FloorRing α] (m : MathLib α) (r : SpawnRand α) (g : Game α) :
    spawnPickup m r g = g ∨
    ∃ q : Pickup α, q.uid = g.nextUid ∧ q.deactivateTimeout = none ∧
      spawnPickup m r g =
        { g with activePickups := g.activePickups ++ [q], nextUid := g.nextUid + 1 } := by
  unfold spawnPickup
  by_cases hp : g.gamePaused = true
  · rw [if_pos hp]; exact Or.inl rfl
  · rw [if_neg hp]
    simp only
    split_ifs
    · exact Or.inl rfl
    · exact Or.inr ⟨_, rfl, rfl, rfl⟩

theorem spawnPickup_sameScore [FloorRing α] (m : MathLib α) (r : SpawnRand α) (g : Game α) :
    SameScore g (spawnPickup m r g) := by
  rcases spawnPickup_cases m r g with h | ⟨q, -, -, h⟩ <;> rw [h]
  · exact sameScore_refl g
  · exact ⟨rfl, rfl, rfl, fun h => h⟩

theorem spawnPickup_pickInv [FloorRing α] (m : MathLib α) (r : SpawnRand α) (g : Game α)
    (hi : PickInv g) : PickInv (spawnPickup m r g) := by
  rcases spawnPickup_cases m r g with h | ⟨q, hu, hd, h⟩ <;> rw [h]
  · exact hi
  · refine ⟨?_, ?_, ?_, ?_, ?_⟩
    · simp only [List.map_append, List.map_cons, List.map_nil]
      rw [List.nodup_append]
      refine ⟨hi.nodup, List.nodup_singleton _, ?_⟩
      intro a ha hb
      rw [List.mem_singleton] at hb
      obtain ⟨q0, hq0, rfl⟩ := List.mem_map.1 ha
      have := hi.fresh q0 hq0
      omega
    · intro q' hq'
      simp only at hq' ⊢
      rcases List.mem_append.1 hq' with hq' | hq'
      · have := hi.fresh q' hq'; omega
      · rw [List.mem_singleton] at hq'; rw [hq', hu]; omega
    · intro q' hq'
      simp only at hq'
      rcases List.mem_append.1 hq' with hq' | hq'
      · exact hi.unset q' hq'
      · rw [List.mem_singleton] at hq'; rw [hq']; exact hd
    · intro t ht u ty ha
      obtain ⟨h1, h2⟩ := hi.timers t ht u ty ha
      refine ⟨by simp only; omega, ?_⟩
      intro q' hq' hu'
      simp only at hq'
      rcases List.mem_append.1 hq' with hq' | hq'
      · exact h2 q' hq' hu'
      · rw [List.mem_singleton] at hq'
        rw [hq', hu] at hu'
        omega
    · rcases hi.height with hh | ⟨q0, hq0, hty⟩
      · exact Or.inl hh
      · exact Or.inr ⟨q0, List.mem_append_left _ hq0, hty⟩

theorem clearTimer_samePick (o : Option Nat) (g : Game α) : SamePick g (clearTimer o g) :=
  ⟨rfl, rfl, fun h => h, rfl, fun t ht _ _ ha => ⟨t, mem_clearTimer_sub o g t ht, ha⟩⟩

theorem setInterval_samePick (now d : α) (a : TimerAction)
    (ha : ∀ u ty, a ≠ .deactivatePickup u ty) (g : Game α) :
    SamePick g (setInterval now d a g).1 := by
  refine ⟨rfl, rfl, fun h => h, rfl, ?_⟩
  intro t ht u ty hta
  simp only [setInterval] at ht
  rcases List.mem_append.1 ht with ht | ht
  · exact ⟨t, ht, hta⟩
  · rw [List.mem_singleton] at ht
    rw [ht] at hta
    exact absurd hta (ha u ty)

theorem startPickupSpawner_sameScore [FloorRing α] (m : MathLib α) (now : α) (r : SpawnRand α)
    (b : Bool) (g : Game α) : SameScore g (startPickupSpawner m now r b g) := by
  simp only [startPickupSpawner, clearTimer_guard]
  split_ifs
  · have := spawnPickup_sameScore m r (clearTimer g.pickupSpawnTimer g)
    exact ⟨this.playerScore, this.computerScore, this.gameOver, this.countdown⟩
  · exact ⟨rfl, rfl, rfl, fun h => h⟩

theorem startPickupSpawner_pickInv [FloorRing α] (m : MathLib α) (now : α) (r : SpawnRand α)
    (b : Bool) (g : Game α) (hi : PickInv g) : PickInv (startPickupSpawner m now r b g) := by
  have h1 : PickInv (clearTimer g.pickupSpawnTimer g) :=
    pickInv_of_same (clearTimer_samePick _ g) hi
  have key : ∀ G : Game α, PickInv G → ∀ o : Option Nat,
      PickInv { (setInterval now PICKUP_SPAWN_INTERVAL .spawnPickup G).1 with
        pickupSpawnTimer := o } := by
    intro G hG o
    have h := setInterval_samePick now PICKUP_SPAWN_INTERVAL .spawnPickup
      (fun _ _ h => by cases h) G
    exact pickInv_of_same ⟨h.height, h.pickups, h.unset, h.nextUid, h.timers⟩ hG
  simp only [startPickupSpawner, clearTimer_guard]
  split_ifs
  · exact key _ (spawnPickup_pickInv m r _ h1) _
  · exact key _ h1 _

theorem pauseOne_fields (now : α) (q : Pickup α) :
    (pauseOne now q).uid = q.uid ∧ (pauseOne now q).type = q.type ∧
    (pauseOne now q).deactivateTimeout = q.deactivateTimeout := by
  unfold pauseOne
  split <;> exact ⟨rfl, rfl, rfl⟩

theorem resumePickupTimers_signature (now : α) (ps : List (Pickup α)) (ts : List (Timer α))
    (n : Nat) :
    signature (resumePickupTimers now ps ts n).1 = signature ps ∧
    ((∀ q ∈ ps, q.deactivateTimeout = none) →
      ∀ q ∈ (resumePickupTimers now ps ts n).1, q.deactivateTimeout = none) ∧
    (∀ t ∈ (resumePickupTimers now ps ts n).2.1,
      t ∈ ts ∨ ∃ q ∈ ps, t.action = .deactivatePickup q.uid q.type) := by
  induction ps generalizing ts n with
  | nil => exact ⟨rfl, fun h => h, fun t ht => Or.inl ht⟩
  | cons p ps ih =>
    have hcons : ∀ (p' : Pickup α) (ts' : List (Timer α)) (n' : Nat),
        p'.uid = p.uid → p'.type = p.type → p'.deactivateTimeout = p.deactivateTimeout →
        (∀ t ∈ ts', t ∈ ts ∨ t.action = .deactivatePickup p.uid p.type) →
        signature (p' :: (resumePickupTimers now ps ts' n').1) = signature (p :: ps) ∧
        ((∀ q ∈ p :: ps, q.deactivateTimeout = none) →
          ∀ q ∈ p' :: (resumePickupTimers now ps ts' n').1, q.deactivateTimeout = none) ∧
        (∀ t ∈ (resumePickupTimers now ps ts' n').2.1,
          t ∈ ts ∨ ∃ q ∈ p :: ps, t.action = .deactivatePickup q.uid q.type) := by
      intro p' ts' n' hu hty hd hts
      obtain ⟨i1, i2, i3⟩ := ih ts' n'
      refine ⟨?_, ?_, ?_⟩
      · have : signature (p' :: (resumePickupTimers now ps ts' n').1) =
            (p'.uid, p'.type) :: signature (resumePickupTimers now ps ts' n').1 := rfl
        rw [this, i1, hu, hty]; rfl
      · intro h q hq
        rcases List.mem_cons.1 hq with hq | hq
        · rw [hq, hd]; exact h p (List.mem_cons_self _ _)
        · exact i2 (fun q hq => h q (List.mem_cons_of_mem _ hq)) q hq
      · intro t ht
        rcases i3 t ht with h | ⟨q, hq, ha⟩
        · rcases hts t h with h | h
          · exact Or.inl h
          · exact Or.inr ⟨p, List.mem_cons_self _ _, h⟩
        · exact Or.inr ⟨q, List.mem_cons_of_mem _ hq, ha⟩
    rcases hp : p.isActive with _ | _ <;> rcases hr : p.remainingTime with _ | rem <;>
      simp only [resumePickupTimers, hp, hr]
    · exact hcons p ts n rfl rfl rfl (fun t ht => Or.inl ht)
    · exact hcons p ts n rfl rfl rfl (fun t ht => Or.inl ht)
    · exact hcons p ts n rfl rfl rfl (fun t ht => Or.inl ht)
    · split_ifs
      · refine hcons _ _ _ rfl rfl rfl ?_
        intro t ht
        rcases List.mem_append.1 ht with ht | ht
        · exact Or.inl ht
        · rw [List.mem_singleton] at ht; rw [ht]; exact Or.inr rfl
      · exact hcons p ts n rfl rfl rfl (fun t ht => Or.inl ht)

theorem togglePauseGame_sameScore [FloorRing α] (m : MathLib α) (now : α) (r : SpawnRand α)
    (g : Game α) : SameScore g (togglePauseGame m now r g) := by
  rcases hs : g.gameStartedOnce with _ | _
  · simp only [togglePauseGame, hs, Bool.not_false, if_true]
    exact sameScore_refl g
  · rcases hp : g.gamePaused with _ | _
    · obtain ⟨pl, co, h⟩ := togglePauseGame_pause m now r g hs hp
      rw [h]
      exact ⟨rfl, rfl, rfl, fun h => h⟩
    · rw [togglePauseGame_resume m now r g hs hp]
      have := startPickupSpawner_sameScore m now r true { g with gamePaused := false }
      exact ⟨this.playerScore, this.computerScore, this.gameOver, this.countdown⟩

theorem togglePauseGame_pickInv [FloorRing α] (m : MathLib α) (now : α) (r : SpawnRand α)
    (g : Game α) (hi : PickInv g) : PickInv (togglePauseGame m now r g) := by
  rcases hs : g.gameStartedOnce with _ | _
  · simp only [togglePauseGame, hs, Bool.not_false, if_true]
    exact hi
  · rcases hp : g.gamePaused with _ | _
    · -- pause
      have hgen : ∀ g' : Game α, g'.activePickups = g.activePickups.map (pauseOne now) →
          g'.timers = (pausePickupTimers now g.activePickups
            (clearTimer g.pickupSpawnTimer g).timers).2 →
          g'.nextUid = g.nextUid → g'.player.height = g.player.height → PickInv g' := by
        intro g' hl ht hn hh
        refine pickInv_of_same ⟨hh, ?_, ?_, hn, ?_⟩ hi
        · rw [hl]; unfold signature; rw [List.map_map]
          apply List.map_congr_left
          intro q _
          simp only [Function.comp, (pauseOne_fields now q).1, (pauseOne_fields now q).2.1]
        · intro h q hq
          rw [hl] at hq
          obtain ⟨q0, hq0, rfl⟩ := List.mem_map.1 hq
          rw [(pauseOne_fields now q0).2.2]; exact h q0 hq0
        · intro t htm u ty ha
          rw [ht, pausePickupTimers_snd] at htm
          exact ⟨t, mem_clearTimer_sub _ g t (List.mem_of_mem_filter htm), ha⟩
      simp only [togglePauseGame, hs, hp, clearTimer_guard, Bool.not_true, Bool.not_false,
        Bool.false_eq_true, if_false, if_true, pausePickupTimers_fst]
      simp only [clearTimer]
      split_ifs <;> exact hgen _ (by rfl) (by rfl) (by rfl) (by rfl)
    · -- resume
      rw [togglePauseGame_resume m now r g hs hp]
      have h2 := startPickupSpawner_pickInv m now r true { g with gamePaused := false }
        (pickInv_of_same (show SamePick g { g with gamePaused := false } from
          ⟨rfl, rfl, fun h => h, rfl, fun t ht _ _ ha => ⟨t, ht, ha⟩⟩) hi)
      obtain ⟨r1, r2, r3⟩ := resumePickupTimers_signature now
        (startPickupSpawner m now r true { g with gamePaused := false }).activePickups
        (startPickupSpawner m now r true { g with gamePaused := false }).timers
        (startPickupSpawner m now r true { g with gamePaused := false }).nextTimerId
      apply PickInv.step h2
      · simp only; rw [r1]
      · rfl
      · exact r2 h2.unset
      · intro t ht u ty ha
        rcases r3 t ht with h | ⟨q, hq, hq'⟩
        · exact Or.inl ⟨t, h, ha⟩
        · rw [hq'] at ha
          simp only [TimerAction.deactivatePickup.injEq] at ha
          rw [← ha.1, ← ha.2]
          exact Or.inr (mem_signature.2 ⟨q, hq, rfl, rfl⟩)
      · simp only
        rcases h2.height with hh | ⟨q, hq, hty⟩
        · exact Or.inl hh
        · right
          have : (q.uid, q.type) ∈ signature
              (startPickupSpawner m now r true { g with gamePaused := false }).activePickups :=
            mem_signature.2 ⟨q, hq, rfl, rfl⟩
          rw [← r1] at this
          obtain ⟨q', hq', -, hty'⟩ := mem_signature.1 this
          exact ⟨q', hq', hty'.trans hty⟩


theorem updateScore_of_gameOver (g : Game α) (h : g.gameOver = true) : updateScore g = g := by
  simp [updateScore, h]

theorem updateScore_of_lt (g : Game α) (hp : g.playerScore < 5) (hc : g.computerScore < 5) :
    updateScore g = g := by
  have h1 : ¬ g.playerScore ≥ 5 := by omega
  have h2 : ¬ g.computerScore ≥ 5 := by omega
  simp only [updateScore, if_neg h1, if_neg h2]
  split_ifs <;> rfl

theorem updateScore_frame (g : Game α) :
    ∃ go w ts pb sb, updateScore g =
      { g with gameOver := go, winner := w, timers := ts, pauseButton := pb, startButton := sb } ∧
      (∀ t ∈ ts, t ∈ g.timers) := by
  simp only [updateScore, clearTimer_guard]
  split_ifs
  · exact ⟨_, _, _, _, _, rfl, fun t ht => ht⟩
  · exact ⟨_, _, _, _, _, rfl, fun t ht => mem_clearTimer_sub _ _ t ht⟩
  · exact ⟨_, _, _, _, _, rfl, fun t ht => mem_clearTimer_sub _ _ t ht⟩
  · exact ⟨_, _, _, _, _, rfl, fun t ht => ht⟩

theorem updateScore_samePick (g : Game α) : SamePick g (updateScore g) := by
  obtain ⟨go, w, ts, pb, sb, h, hts⟩ := updateScore_frame g
  rw [h]
  exact ⟨rfl, rfl, fun h => h, rfl, fun t ht _ _ ha => ⟨t, hts t ht, ha⟩⟩

theorem updateScore_closes (g : Game α) (hgo : g.gameOver = false)
    (hp : g.playerScore ≤ 5) (hc : g.computerScore ≤ 5) : ScoreInv (updateScore g) := by
  obtain ⟨u1, -, -, -, u5, u6⟩ := updateScore_spec g hgo
  refine ⟨by rw [u5]; exact hp, by rw [u6]; exact hc, ?_⟩
  intro h
  rw [u5, u6]
  have : ¬ (g.playerScore ≥ 5 ∨ g.computerScore ≥ 5) := by
    intro h'
    have := u1.2 h'
    rw [h] at this
    cases this
  omega

theorem updateScore_scoreInv (g : Game α) (hi : ScoreInv g) : ScoreInv (updateScore g) := by
  by_cases hgo : g.gameOver = true
  · rw [updateScore_of_gameOver g hgo]; exact hi
  · exact updateScore_closes g (by simpa using hgo) hi.player_le hi.computer_le

theorem startCountdown_sameScore (now : α) (s : Int) (cb : CountdownCallback) (g : Game α) :
    SameScore g (startCountdown now s cb g) := ⟨rfl, rfl, rfl, fun _ => rfl⟩

theorem startCountdown_samePick (now : α) (s : Int) (cb : CountdownCallback) (g : Game α) :
    SamePick g (startCountdown now s cb g) := by
  refine ⟨rfl, rfl, fun h => h, rfl, ?_⟩
  intro t ht u ty ha
  simp only [startCountdown, setInterval] at ht
  rcases List.mem_append.1 ht with ht | ht
  · exact ⟨t, ht, ha⟩
  · rw [List.mem_singleton] at ht
    rw [ht] at ha
    cases ha

theorem moveBallScore_samePick (now : α) (g : Game α) : SamePick g (moveBallScore now g) := by
  unfold moveBallScore
  simp only
  split_ifs
  · refine samePick_trans ?_ (startCountdown_samePick _ _ _ _)
    refine samePick_trans ?_ (updateScore_samePick _)
    exact ⟨rfl, rfl, fun h => h, rfl, fun t ht _ _ ha => ⟨t, ht, ha⟩⟩
  · refine samePick_trans ?_ (startCountdown_samePick _ _ _ _)
    refine samePick_trans ?_ (updateScore_samePick _)
    exact ⟨rfl, rfl, fun h => h, rfl, fun t ht _ _ ha => ⟨t, ht, ha⟩⟩
  · exact samePick_refl g

theorem moveBallScore_scoreInv (now : α) (g : Game α) (hi : ScoreInv g)
    (hgo : g.gameOver = false) : ScoreInv (moveBallScore now g) := by
  obtain ⟨hp, hc⟩ := hi.running hgo
  unfold moveBallScore
  simp only
  split_ifs
  · exact scoreInv_of_same (startCountdown_sameScore _ _ _ _)
      (updateScore_closes _ hgo hi.player_le (by simp only; omega))
  · exact scoreInv_of_same (startCountdown_sameScore _ _ _ _)
      (updateScore_closes _ hgo (by simp only; omega) hi.computer_le)
  · exact hi

theorem moveBallBeforeScore_sameScore (m : MathLib α) (r : FrameRand α) (g : Game α) :
    SameScore g (moveBallBeforeScore m r g) := by
  obtain ⟨b, p, c, h⟩ := moveBallBeforeScore_frame m r g
  rw [h]; exact ⟨rfl, rfl, rfl, fun h => h⟩

theorem moveBallBeforeScore_samePick (m : MathLib α) (r : FrameRand α) (g : Game α) :
    SamePick g (moveBallBeforeScore m r g) := by
  have hh := moveBallBeforeScore_height m r g
  obtain ⟨b, p, c, h⟩ := moveBallBeforeScore_frame m r g
  rw [h] at hh ⊢
  exact ⟨hh, rfl, fun h => h, rfl, fun t ht _ _ ha => ⟨t, ht, ha⟩⟩

theorem moveBall_scoreInv (m : MathLib α) (now : α) (r : FrameRand α) (g : Game α)
    (hi : ScoreInv g) (hgo : g.gameOver = false) : ScoreInv (moveBall m now r g) := by
  unfold moveBall
  split_ifs
  · exact hi
  · have h1 := moveBallBeforeScore_sameScore m r g
    have h2 := moveBallScore_scoreInv now _ (scoreInv_of_same h1 hi) (h1.gameOver.trans hgo)
    exact ⟨h2.player_le, h2.computer_le, h2.running⟩

theorem moveBall_pickInv (m : MathLib α) (now : α) (r : FrameRand α) (g : Game α)
    (hi : PickInv g) : PickInv (moveBall m now r g) := by
  unfold moveBall
  split_ifs
  · exact hi
  · have h1 := pickInv_of_same (moveBallBeforeScore_samePick m r g) hi
    have h2 := pickInv_of_same (moveBallScore_samePick now _) h1
    exact ⟨h2.nodup, h2.fresh, h2.unset, h2.timers, h2.height⟩

theorem updatePlayerPaddle_same (rnd : α) (g : Game α) :
    SameScore g (updatePlayerPaddle rnd g) ∧ SamePick g (updatePlayerPaddle rnd g) := by
  obtain ⟨p, h, hh⟩ := updatePlayerPaddle_frame rnd g
  rw [h]
  exact ⟨⟨rfl, rfl, rfl, fun h => h⟩, ⟨hh, rfl, fun h => h, rfl, fun t ht _ _ ha => ⟨t, ht, ha⟩⟩⟩

theorem moveComputerPaddle_same (rnd : α) (g : Game α) :
    SameScore g (moveComputerPaddle rnd g) ∧ SamePick g (moveComputerPaddle rnd g) := by
  obtain ⟨c, h⟩ := moveComputerPaddle_frame rnd g
  rw [h]
  exact ⟨⟨rfl, rfl, rfl, fun h => h⟩, ⟨rfl, rfl, fun h => h, rfl, fun t ht _ _ ha => ⟨t, ht, ha⟩⟩⟩

theorem enhancedGameLoop_inv (m : MathLib α) (now : α) (r : FrameRand α) (g : Game α)
    (hs : ScoreInv g) (hp : PickInv g) :
    ScoreInv (enhancedGameLoop m now r g) ∧ PickInv (enhancedGameLoop m now r g) := by
  unfold enhancedGameLoop
  split_ifs with h1 h2
  · exact ⟨hs, hp⟩
  · exact ⟨hs, hp⟩
  · have hgo : g.gameOver = false := by simpa using h1
    unfold update
    obtain ⟨a1, a2⟩ := updatePlayerPaddle_same r.shakePlayer g
    obtain ⟨b1, b2⟩ := moveComputerPaddle_same r.shakeComputer (updatePlayerPaddle r.shakePlayer g)
    have s2 := scoreInv_of_same (sameScore_trans a1 b1) hs
    have p2 := pickInv_of_same (samePick_trans a2 b2) hp
    have s3 := moveBall_scoreInv m now r _ s2 ((sameScore_trans a1 b1).gameOver.trans hgo)
    have p3 := moveBall_pickInv m now r _ p2
    exact ⟨scoreInv_of_same (updatePickups_sameScore m now r.traj _) s3,
      updatePickups_pickInv m now r.traj _ p3⟩

theorem resetBall_same (r : ResetRand α) (a b : Bool) (g : Game α) :
    SameScore g (resetBall r a b g) ∧ SamePick g (resetBall r a b g) :=
  ⟨⟨rfl, rfl, rfl, fun h => h⟩, ⟨rfl, rfl, fun h => h, rfl, fun t ht _ _ ha => ⟨t, ht, ha⟩⟩⟩

theorem resizeCanvas_same (w h : α) (r : ResetRand α) (g : Game α) :
    SameScore g (resizeCanvas w h r g) ∧ SamePick g (resizeCanvas w h r g) := by
  unfold resizeCanvas
  simp only
  split_ifs
  · exact ⟨⟨rfl, rfl, rfl, fun h => h⟩,
      ⟨rfl, rfl, fun h => h, rfl, fun t ht _ _ ha => ⟨t, ht, ha⟩⟩⟩
  · exact ⟨⟨rfl, rfl, rfl, fun h => h⟩,
      ⟨rfl, rfl, fun h => h, rfl, fun t ht _ _ ha => ⟨t, ht, ha⟩⟩⟩

theorem startGame_same (now : α) (g : Game α) :
    SameScore g (startGame now g) ∧ SamePick g (startGame now g) := by
  unfold startGame
  simp only
  constructor
  · refine sameScore_trans ?_ (startCountdown_sameScore _ _ _ _)
    split_ifs <;> exact ⟨rfl, rfl, rfl, fun h => h⟩
  · refine samePick_trans ?_ (startCountdown_samePick _ _ _ _)
    split_ifs <;> exact ⟨rfl, rfl, fun h => h, rfl, fun t ht _ _ ha => ⟨t, ht, ha⟩⟩

theorem restartClearPickups_frame (ps : List (Pickup α)) (g : Game α) :
    ∃ ts, (∀ t ∈ ts, t ∈ g.timers) ∧
      restartClearPickups ps g =
        { g with
          timers := ts
          player := { g.player with
            height := if ∃ q ∈ ps, q.type = .PADDLE_SIZE_INCREASE then originalPaddleHeight
              else g.player.height } } := by
  induction ps generalizing g with
  | nil => exact ⟨g.timers, fun t ht => ht, by simp [restartClearPickups]⟩
  | cons p ps ih =>
    simp only [restartClearPickups, clearTimer_guard]
    by_cases hp : p.type = .PADDLE_SIZE_INCREASE
    · rw [if_pos hp]
      obtain ⟨ts, hts, h⟩ := ih
        { clearTimer p.deactivateTimeout g with
          player := { (clearTimer p.deactivateTimeout g).player with
            height := originalPaddleHeight } }
      refine ⟨ts, fun t ht => mem_clearTimer_sub _ g t (hts t ht), ?_⟩
      rw [h]
      have hex : ∃ q ∈ p :: ps, q.type = .PADDLE_SIZE_INCREASE := ⟨p, List.mem_cons_self _ _, hp⟩
      rw [if_pos hex]
      simp only [clearTimer]
      split_ifs <;> rfl
    · rw [if_neg hp]
      obtain ⟨ts, hts, h⟩ := ih (clearTimer p.deactivateTimeout g)
      refine ⟨ts, fun t ht => mem_clearTimer_sub _ g t (hts t ht), ?_⟩
      rw [h]
      have hiff : (∃ q ∈ p :: ps, q.type = .PADDLE_SIZE_INCREASE) ↔
          ∃ q ∈ ps, q.type = .PADDLE_SIZE_INCREASE := by
        constructor
        · rintro ⟨q, hq, hty⟩
          rcases List.mem_cons.1 hq with rfl | hq
          · exact absurd hty hp
          · exact ⟨q, hq, hty⟩
        · rintro ⟨q, hq, hty⟩
          exact ⟨q, List.mem_cons_of_mem _ hq, hty⟩
      simp only [hiff, clearTimer]

/-- What `restartGame` leaves when no countdown is active. -/
theorem restartGame_frame (now : α) (g : Game α) (hc : g.countdownActive = false) :
    ∃ ts, (∀ t ∈ ts, t ∈ g.timers) ∧
      restartGame now g =
        { g with
          playerScore := 0
          computerScore := 0
          gameOver := false
          winner := none
          gamePaused := true
          gameStartedOnce := true
          mouseControlActive := false
          activePickups := []
          pickupSpawnTimer := none
          player :=
            { g.player with
              height := if ∃ q ∈ g.activePickups, q.type = .PADDLE_SIZE_INCREASE then
                originalPaddleHeight else g.player.height
              y := g.canvasHeight / 2 -
                (if ∃ q ∈ g.activePickups, q.type = .PADDLE_SIZE_INCREASE then
                  originalPaddleHeight else g.player.height) / 2
              dy := 0
              shakeIntensity := 0
              shakeDuration := 0
              originalX := PADDLE_WIDTH * 2
              x := PADDLE_WIDTH * 2 }
          computer :=
            { g.computer with
              y := g.canvasHeight / 2 - g.computer.height / 2
              dy := 0
              shakeIntensity := 0
              shakeDuration := 0
              originalX := g.canvasWidth - PADDLE_WIDTH * 3
              x := g.canvasWidth - PADDLE_WIDTH * 3 }
          startButton := { g.startButton with shown := false }
          pauseButton := { shown := true, disabled := true }
          restartButton := { g.restartButton with disabled := false }
          countdownActive := true
          countdownTime := 1
          timers := ts ++ [⟨g.nextTimerId, now + 1000, 1000, true, .countdownTick .afterRestart⟩]
          nextTimerId := g.nextTimerId + 1 } := by
  obtain ⟨ts, hts, h⟩ := restartClearPickups_frame g.activePickups
    { g with
      playerScore := 0
      computerScore := 0
      gameOver := false
      winner := none
      gamePaused := true
      gameStartedOnce := true
      mouseControlActive := false }
  have hc' : ¬ g.countdownActive = true := by simp [hc]
  simp only [restartGame, if_neg hc', clearTimer_guard]
  rw [h]
  refine ⟨(clearTimer g.pickupSpawnTimer { g with timers := ts }).timers,
    fun t ht => hts t (mem_clearTimer_sub _ _ t ht), ?_⟩
  rw [updateScore_of_lt _ (by simp [clearTimer]) (by simp [clearTimer])]
  simp only [startCountdown, setInterval, clearTimer]

theorem restartGame_inv (now : α) (g : Game α) (hs : ScoreInv g) (hp : PickInv g) :
    ScoreInv (restartGame now g) ∧ PickInv (restartGame now g) := by
  by_cases hc : g.countdownActive = true
  · simp only [restartGame, if_pos hc]; exact ⟨hs, hp⟩
  · obtain ⟨ts, hts, h⟩ := restartGame_frame now g (by simpa using hc)
    rw [h]
    refine ⟨⟨by simp, by simp, fun _ => ⟨by simp, by simp⟩⟩, ?_⟩
    refine ⟨List.nodup_nil, by simp, by simp, ?_, ?_⟩
    · intro t ht u ty ha
      simp only at ht
      rcases List.mem_append.1 ht with ht | ht
      · exact ⟨(hp.timers t (hts t ht) u ty ha).1, by simp⟩
      · rw [List.mem_singleton] at ht
        rw [ht] at ha
        cases ha
    · left
      simp only
      split_ifs with hex
      · rfl
      · rcases hp.height with hh | hh
        · exact hh
        · exact absurd hh hex

theorem runCountdownCallback_inv [FloorRing α] (m : MathLib α) (now : α) (r : HandlerRand α)
    (cb : CountdownCallback) (g : Game α) (hs : ScoreInv g) (hp : PickInv g) :
    ScoreInv (runCountdownCallback m now r cb g) ∧ PickInv (runCountdownCallback m now r cb g) := by
  cases cb with
  | afterScore toPlayer =>
    obtain ⟨a, b⟩ := resetBall_same r.reset toPlayer false g
    exact ⟨scoreInv_of_same a hs, pickInv_of_same b hp⟩
  | afterStart =>
    obtain ⟨a, b⟩ := resetBall_same r.reset true true g
    exact ⟨scoreInv_of_same (sameScore_trans a (startPickupSpawner_sameScore m now r.spawn false _)) hs,
      startPickupSpawner_pickInv m now r.spawn false _ (pickInv_of_same b hp)⟩
  | afterRestart =>
    obtain ⟨a, b⟩ := resetBall_same r.reset true true g
    have s1 := scoreInv_of_same (sameScore_trans a (startPickupSpawner_sameScore m now r.spawn false _)) hs
    have p1 := startPickupSpawner_pickInv m now r.spawn false _ (pickInv_of_same b hp)
    have s2 := updateScore_scoreInv _ s1
    have p2 := pickInv_of_same (updateScore_samePick _) p1
    exact ⟨⟨s2.player_le, s2.computer_le, s2.running⟩,
      ⟨p2.nodup, p2.fresh, p2.unset, p2.timers, p2.height⟩⟩

theorem countdownTick_inv [FloorRing α] (m : MathLib α) (now : α) (r : HandlerRand α) (id : Nat)
    (cb : CountdownCallback) (g : Game α) (hs : ScoreInv g) (hp : PickInv g) :
    ScoreInv (countdownTick m now r id cb g) ∧ PickInv (countdownTick m now r id cb g) := by
  unfold countdownTick
  simp only
  split_ifs
  · exact ⟨⟨hs.player_le, hs.computer_le, hs.running⟩,
      ⟨hp.nodup, hp.fresh, hp.unset, hp.timers, hp.height⟩⟩
  · apply runCountdownCallback_inv
    · exact ⟨hs.player_le, hs.computer_le, hs.running⟩
    · have := pickInv_of_same (clearTimer_samePick (some id)
        { g with countdownTime := g.countdownTime - 1 })
        ⟨hp.nodup, hp.fresh, hp.unset, hp.timers, hp.height⟩
      exact ⟨this.nodup, this.fresh, this.unset, this.timers, this.height⟩

theorem fireTimer_inv [FloorRing α] (m : MathLib α) (now : α) (r : HandlerRand α) (id : Nat)
    (g : Game α) (hs : ScoreInv g) (hp : PickInv g) :
    ScoreInv (fireTimer m now r id g) ∧ PickInv (fireTimer m now r id g) := by
  unfold fireTimer
  split
  · exact ⟨hs, hp⟩
  · rename_i t ht
    have htin := List.mem_of_find?_eq_some ht
    by_cases hdue : t.due ≤ now
    · rw [if_pos hdue]
      -- the table after the timer is taken out or re-armed keeps the invariants
      have key : ∀ ts : List (Timer α),
          (∀ t' ∈ ts, ∃ t0 ∈ g.timers, t0.action = t'.action) →
          ScoreInv { g with timers := ts } ∧ PickInv { g with timers := ts } := by
        intro ts hts
        refine ⟨⟨hs.player_le, hs.computer_le, hs.running⟩, ?_⟩
        refine pickInv_of_same (show SamePick g { g with timers := ts } from
          ⟨rfl, rfl, fun h => h, rfl, ?_⟩) hp
        intro t' ht' u ty ha
        obtain ⟨t0, ht0, ha0⟩ := hts t' ht'
        exact ⟨t0, ht0, ha0.trans ha⟩
      have hmap : ∀ t' ∈ g.timers.map
          (fun u => if u.id = id then { u with due := u.due + u.delay } else u),
          ∃ t0 ∈ g.timers, t0.action = t'.action := by
        intro t' ht'
        obtain ⟨t0, ht0, rfl⟩ := List.mem_map.1 ht'
        refine ⟨t0, ht0, ?_⟩
        split_ifs <;> rfl
      have hfil : ∀ t' ∈ g.timers.filter (fun u => u.id != id),
          ∃ t0 ∈ g.timers, t0.action = t'.action :=
        fun t' ht' => ⟨t', List.mem_of_mem_filter ht', rfl⟩
      have hg1 : ∀ G : Game α, (ScoreInv G ∧ PickInv G) →
          (∀ u ty, t.action = .deactivatePickup u ty →
            ∀ q ∈ G.activePickups, q.uid = u → q.type = ty) →
          ScoreInv (match t.action with
            | .spawnPickup => spawnPickup m r.spawn G
            | .countdownTick callback => countdownTick m now r id callback G
            | .deactivatePickup uid type => deactivatePickup uid type G) ∧
          PickInv (match t.action with
            | .spawnPickup => spawnPickup m r.spawn G
            | .countdownTick callback => countdownTick m now r id callback G
            | .deactivatePickup uid type => deactivatePickup uid type G) := by
        intro G hG hcons
        cases hta : t.action with
        | spawnPickup =>
          exact ⟨scoreInv_of_same (spawnPickup_sameScore m r.spawn G) hG.1,
            spawnPickup_pickInv m r.spawn G hG.2⟩
        | countdownTick cb => exact countdownTick_inv m now r id cb G hG.1 hG.2
        | deactivatePickup u ty =>
          exact ⟨scoreInv_of_same (deactivatePickup_sameScore u ty G) hG.1,
            deactivatePickup_pickInv u ty G hG.2 (hcons u ty hta)⟩
      simp only
      split_ifs
      · exact hg1 _ (key _ hmap) (fun u ty ha => (hp.timers t htin u ty ha).2)
      · exact hg1 _ (key _ hfil) (fun u ty ha => (hp.timers t htin u ty ha).2)
    · rw [if_neg hdue]; exact ⟨hs, hp⟩

theorem keydown_inv [FloorRing α] (m : MathLib α) (now : α) (r : SpawnRand α) (code : KeyCode)
    (g : Game α) (hs : ScoreInv g) (hp : PickInv g) :
    ScoreInv (keydown m now r code g) ∧ PickInv (keydown m now r code g) := by
  have h0 : ScoreInv { g with keys := g.keys.set code true } ∧
      PickInv { g with keys := g.keys.set code true } :=
    ⟨⟨hs.player_le, hs.computer_le, hs.running⟩, ⟨hp.nodup, hp.fresh, hp.unset, hp.timers, hp.height⟩⟩
  have htog : ∀ G : Game α, ScoreInv G ∧ PickInv G →
      ScoreInv (if G.gameStartedOnce then togglePauseGame m now r G else G) ∧
      PickInv (if G.gameStartedOnce then togglePauseGame m now r G else G) := by
    intro G hG
    split_ifs
    · exact ⟨scoreInv_of_same (togglePauseGame_sameScore m now r G) hG.1,
        togglePauseGame_pickInv m now r G hG.2⟩
    · exact hG
  have hres : ∀ G : Game α, ScoreInv G ∧ PickInv G →
      ScoreInv (if G.gameStartedOnce then restartGame now G else G) ∧
      PickInv (if G.gameStartedOnce then restartGame now G else G) := by
    intro G hG
    split_ifs
    · exact restartGame_inv now G hG.1 hG.2
    · exact hG
  unfold keydown
  cases code <;> simp only
  · exact h0
  · exact h0
  · exact h0
  · exact h0
  · exact htog _ h0
  · exact hres _ h0
  · exact h0

theorem touchend_inv [FloorRing α] (m : MathLib α) (now : α) (r : SpawnRand α)
    (g : Game α) (hs : ScoreInv g) (hp : PickInv g) :
    ScoreInv (touchend m now r g) ∧ PickInv (touchend m now r g) := by
  have key : ∀ G : Game α, ScoreInv G ∧ PickInv G →
      ScoreInv { G with lastTapTime := now } ∧ PickInv { G with lastTapTime := now } :=
    fun G hG => ⟨⟨hG.1.player_le, hG.1.computer_le, hG.1.running⟩,
      ⟨hG.2.nodup, hG.2.fresh, hG.2.unset, hG.2.timers, hG.2.height⟩⟩
  unfold touchend
  simp only
  apply key
  split_ifs
  · exact ⟨scoreInv_of_same (togglePauseGame_sameScore m now r g) hs,
      togglePauseGame_pickInv m now r g hp⟩
  · exact ⟨hs, hp⟩
  · exact ⟨hs, hp⟩

theorem light_handlers_same (g : Game α) :
    (∀ code, SameScore g (keyup code g) ∧ SamePick g (keyup code g)) ∧
    (∀ y, SameScore g (mousemove y g) ∧ SamePick g (mousemove y g)) ∧
    (∀ y, SameScore g (touchstart y g) ∧ SamePick g (touchstart y g)) ∧
    (∀ y, SameScore g (touchmove y g) ∧ SamePick g (touchmove y g)) ∧
    (SameScore g (canvasClick g) ∧ SamePick g (canvasClick g)) := by
  have triv : ∀ G : Game α, G.playerScore = g.playerScore → G.computerScore = g.computerScore →
      G.gameOver = g.gameOver → G.countdownActive = g.countdownActive →
      G.player = g.player → G.activePickups = g.activePickups → G.nextUid = g.nextUid →
      G.timers = g.timers → SameScore g G ∧ SamePick g G := by
    intro G h1 h2 h3 h4 h5 h6 h7 h8
    exact ⟨⟨h1, h2, h3, fun h => h4.trans h⟩,
      ⟨by rw [h5], by rw [h6], fun h q hq => h q (h6 ▸ hq), h7,
        fun t ht _ _ ha => ⟨t, h8 ▸ ht, ha⟩⟩⟩
  refine ⟨?_, ?_, ?_, ?_, ?_⟩
  · intro code
    exact triv _ rfl rfl rfl rfl rfl rfl rfl rfl
  · intro y
    unfold mousemove
    split_ifs <;> exact triv _ rfl rfl rfl rfl rfl rfl rfl rfl
  · intro y
    unfold touchstart
    simp only
    split_ifs <;> exact triv _ rfl rfl rfl rfl rfl rfl rfl rfl
  · intro y
    unfold touchmove
    split_ifs <;> exact triv _ rfl rfl rfl rfl rfl rfl rfl rfl
  · unfold canvasClick
    split_ifs <;> exact triv _ rfl rfl rfl rfl rfl rfl rfl rfl

/-- Every event keeps the scoreboard and pickup invariants. -/
theorem step_inv [FloorRing α] (m : MathLib α) (g : Game α) (e : Event α)
    (hs : ScoreInv g) (hp : PickInv g) :
    ScoreInv (step m g e) ∧ PickInv (step m g e) := by
  obtain ⟨l1, l2, l3, l4, l5⟩ := light_handlers_same g
  cases e with
  | frame now r => exact enhancedGameLoop_inv m now r g hs hp
  | timer now r id => exact fireTimer_inv m now r id g hs hp
  | keydown now r code => exact keydown_inv m now r code g hs hp
  | keyup code => exact ⟨scoreInv_of_same (l1 code).1 hs, pickInv_of_same (l1 code).2 hp⟩
  | mousemove y => exact ⟨scoreInv_of_same (l2 y).1 hs, pickInv_of_same (l2 y).2 hp⟩
  | touchstart y => exact ⟨scoreInv_of_same (l3 y).1 hs, pickInv_of_same (l3 y).2 hp⟩
  | touchmove y => exact ⟨scoreInv_of_same (l4 y).1 hs, pickInv_of_same (l4 y).2 hp⟩
  | touchend now r => exact touchend_inv m now r g hs hp
  | canvasClick => exact ⟨scoreInv_of_same l5.1 hs, pickInv_of_same l5.2 hp⟩
  | startClick now =>
    simp only [step]
    split_ifs
    · exact ⟨scoreInv_of_same (startGame_same now g).1 hs,
        pickInv_of_same (startGame_same now g).2 hp⟩
    · exact ⟨hs, hp⟩
  | pauseClick now r =>
    simp only [step]
    split_ifs
    · exact ⟨scoreInv_of_same (togglePauseGame_sameScore m now r g) hs,
        togglePauseGame_pickInv m now r g hp⟩
    · exact ⟨hs, hp⟩
  | restartClick now =>
    simp only [step]
    split_ifs
    · exact restartGame_inv now g hs hp
    · exact ⟨hs, hp⟩
  | resize w h r =>
    exact ⟨scoreInv_of_same (resizeCanvas_same w h r g).1 hs,
      pickInv_of_same (resizeCanvas_same w h r g).2 hp⟩

theorem initialState_inv (page : Page α) :
    ScoreInv (initialState page) ∧ PickInv (initialState page) := by
  have h0 : ScoreInv (declaredState page) ∧ PickInv (declaredState page) := by
    refine ⟨⟨by simp [declaredState], by simp [declaredState],
      fun _ => ⟨by simp [declaredState], by simp [declaredState]⟩⟩, ?_⟩
    refine ⟨by simp [declaredState], by simp [declaredState], by simp [declaredState],
      by simp [declaredState], ?_⟩
    left
    rfl
  unfold initialState
  have h1 := resizeCanvas_same page.innerWidth page.innerHeight ⟨0, 0⟩ (declaredState page)
  exact ⟨updateScore_scoreInv _ (scoreInv_of_same h1.1 h0.1),
    pickInv_of_same (updateScore_samePick _) (pickInv_of_same h1.2 h0.2)⟩

/-- The scoreboard and pickup invariants hold in every reachable state. -/
theorem reachable_inv [FloorRing α] (m : MathLib α) (page : Page α) (g : Game α)
    (h : Reachable m page g) : ScoreInv g ∧ PickInv g := by
  induction h with
  | init => exact initialState_inv page
  | step g e _ ih => exact step_inv m g e ih.1 ih.2


/-! ### C4: game over is absorbing -/

theorem runCountdownCallback_board [FloorRing α] (m : MathLib α) (now : α) (r : HandlerRand α)
    (cb : CountdownCallback) (g : Game α) (hgo : g.gameOver = true) :
    (runCountdownCallback m now r cb g).playerScore = g.playerScore ∧
    (runCountdownCallback m now r cb g).computerScore = g.computerScore ∧
    (runCountdownCallback m now r cb g).gameOver = g.gameOver := by
  cases cb with
  | afterScore toPlayer => exact ⟨rfl, rfl, rfl⟩
  | afterStart =>
    have h := sameScore_trans (resetBall_same r.reset true true g).1
      (startPickupSpawner_sameScore m now r.spawn false _)
    exact ⟨h.playerScore, h.computerScore, h.gameOver⟩
  | afterRestart =>
    have h := sameScore_trans (resetBall_same r.reset true true g).1
      (startPickupSpawner_sameScore m now r.spawn false _)
    have hu := updateScore_of_gameOver _ (h.gameOver.trans hgo)
    simp only [runCountdownCallback]
    rw [hu]
    exact ⟨h.playerScore, h.computerScore, h.gameOver⟩

theorem fireTimer_board [FloorRing α] (m : MathLib α) (now : α) (r : HandlerRand α) (id : Nat)
    (g : Game α) (hgo : g.gameOver = true) :
    (fireTimer m now r id g).playerScore = g.playerScore ∧
    (fireTimer m now r id g).computerScore = g.computerScore ∧
    (fireTimer m now r id g).gameOver = g.gameOver := by
  have hact : ∀ (a : TimerAction) (G : Game α), G.gameOver = true →
      (match a with
        | .spawnPickup => spawnPickup m r.spawn G
        | .countdownTick callback => countdownTick m now r id callback G
        | .deactivatePickup uid type => deactivatePickup uid type G).playerScore = G.playerScore ∧
      (match a with
        | .spawnPickup => spawnPickup m r.spawn G
        | .countdownTick callback => countdownTick m now r id callback G
        | .deactivatePickup uid type => deactivatePickup uid type G).computerScore
          = G.computerScore ∧
      (match a with
        | .spawnPickup => spawnPickup m r.spawn G
        | .countdownTick callback => countdownTick m now r id callback G
        | .deactivatePickup uid type => deactivatePickup uid type G).gameOver = G.gameOver := by
    intro a G hG
    cases a with
    | spawnPickup =>
      have h := spawnPickup_sameScore m r.spawn G
      exact ⟨h.playerScore, h.computerScore, h.gameOver⟩
    | countdownTick cb =>
      simp only [countdownTick]
      split_ifs
      · exact ⟨rfl, rfl, rfl⟩
      · exact runCountdownCallback_board m now r cb _ hG
    | deactivatePickup u ty =>
      have h := deactivatePickup_sameScore u ty G
      exact ⟨h.playerScore, h.computerScore, h.gameOver⟩
  unfold fireTimer
  split
  · exact ⟨rfl, rfl, rfl⟩
  · rename_i t ht
    by_cases hdue : t.due ≤ now
    · rw [if_pos hdue]
      simp only
      split_ifs
      · exact hact t.action _ hgo
      · exact hact t.action _ hgo
    · rw [if_neg hdue]; exact ⟨rfl, rfl, rfl⟩

theorem step_board [FloorRing α] (m : MathLib α) (g : Game α) (e : Event α)
    (hgo : g.gameOver = true) (hr : e.restarts = false) :
    (step m g e).playerScore = g.playerScore ∧
    (step m g e).computerScore = g.computerScore ∧
    (step m g e).gameOver = true := by
  have of_same : ∀ G : Game α, SameScore g G →
      G.playerScore = g.playerScore ∧ G.computerScore = g.computerScore ∧ G.gameOver = true :=
    fun G h => ⟨h.playerScore, h.computerScore, h.gameOver.trans hgo⟩
  obtain ⟨l1, l2, l3, l4, l5⟩ := light_handlers_same g
  cases e with
  | frame now r =>
    have : step m g (.frame now r) = g := by simp [step, enhancedGameLoop, hgo]
    rw [this]; exact ⟨rfl, rfl, hgo⟩
  | timer now r id =>
    obtain ⟨a, b, c⟩ := fireTimer_board m now r id g hgo
    exact ⟨a, b, c.trans hgo⟩
  | keydown now r code =>
    have htog : ∀ G : Game α, SameScore g G →
        SameScore g (if G.gameStartedOnce then togglePauseGame m now r G else G) := by
      intro G hG
      split_ifs
      · exact sameScore_trans hG (togglePauseGame_sameScore m now r G)
      · exact hG
    have h0 : SameScore g { g with keys := g.keys.set code true } :=
      ⟨rfl, rfl, rfl, fun h => h⟩
    cases code <;> first
      | exact of_same _ h0
      | exact of_same _ (htog _ h0)
      | exact absurd hr (by simp [Event.restarts])
  | keyup code => exact of_same _ (l1 code).1
  | mousemove y => exact of_same _ (l2 y).1
  | touchstart y => exact of_same _ (l3 y).1
  | touchmove y => exact of_same _ (l4 y).1
  | touchend now r =>
    apply of_same
    simp only [step, touchend]
    have key : ∀ G : Game α, SameScore g G → SameScore g { G with lastTapTime := now } :=
      fun G h => ⟨h.playerScore, h.computerScore, h.gameOver, h.countdown⟩
    apply key
    split_ifs
    · exact togglePauseGame_sameScore m now r g
    · exact sameScore_refl g
    · exact sameScore_refl g
  | canvasClick => exact of_same _ l5.1
  | startClick now =>
    apply of_same
    simp only [step]
    split_ifs
    · exact (startGame_same now g).1
    · exact sameScore_refl g
  | pauseClick now r =>
    apply of_same
    simp only [step]
    split_ifs
    · exact togglePauseGame_sameScore m now r g
    · exact sameScore_refl g
  | restartClick now => exact absurd hr (by simp [Event.restarts])
  | resize w h r => exact of_same _ (resizeCanvas_same w h r g).1

theorem run_board [FloorRing α] (m : MathLib α) (g : Game α) (es : List (Event α))
    (hgo : g.gameOver = true) (hr : ∀ e ∈ es, e.restarts = false) :
    (run m g es).playerScore = g.playerScore ∧
    (run m g es).computerScore = g.computerScore ∧
    (run m g es).gameOver = true := by
  induction es generalizing g with
  | nil => exact ⟨rfl, rfl, hgo⟩
  | cons e es ih =>
    obtain ⟨a, b, c⟩ := step_board m g e hgo (hr e (List.mem_cons_self _ _))
    obtain ⟨a', b', c'⟩ := ih (step m g e) c (fun e' he' => hr e' (List.mem_cons_of_mem _ he'))
    exact ⟨a'.trans a, b'.trans b, c'⟩

/-- C4. Game over is absorbing for the scores.  From a state with `gameOver`
true, any sequence of events none of which invokes `restartGame` (frames,
pause toggles, timer firings, and every other input) leaves `playerScore`
and `computerScore` unchanged and `gameOver` true; an animation frame leaves
the whole state unchanged, paddle and ball positions included.  In every
state reachable from the initial state neither score exceeds 5. -/
theorem game_over_absorbing [FloorRing α] (m : MathLib α) (page : Page α) :
    (∀ (g : Game α) (es : List (Event α)), g.gameOver = true →
      (∀ e ∈ es, e.restarts = false) →
      (run m g es).playerScore = g.playerScore ∧
      (run m g es).computerScore = g.computerScore ∧
      (run m g es).gameOver = true) ∧
    (∀ (g : Game α) (now : α) (r : FrameRand α), g.gameOver = true →
      step m g (.frame now r) = g) ∧
    (∀ g : Game α, Reachable m page g → g.playerScore ≤ 5 ∧ g.computerScore ≤ 5) := by
  refine ⟨fun g es hgo hr => run_board m g es hgo hr, ?_, ?_⟩
  · intro g now r hgo
    simp [step, enhancedGameLoop, hgo]
  · intro g hg
    have := (reachable_inv m page g hg).1
    exact ⟨this.player_le, this.computer_le⟩


/-! ### C10: restart -/

theorem fireTimer_countdown [FloorRing α] (m : MathLib α) (now : α) (r : HandlerRand α) (id : Nat)
    (g : Game α) (hc : g.countdownActive = true)
    (h : (fireTimer m now r id g).countdownActive = false) :
    ∃ t cb, g.timers.find? (fun t => t.id == id) = some t ∧ t.action = .countdownTick cb ∧
      t.due ≤ now := by
  unfold fireTimer at h
  split at h
  · rw [hc] at h; cases h
  · rename_i t ht
    by_cases hdue : t.due ≤ now
    · rw [if_pos hdue] at h
      cases hta : t.action with
      | spawnPickup =>
        exfalso
        have hsp : ∀ ts : List (Timer α),
            (spawnPickup m r.spawn { g with timers := ts }).countdownActive = true :=
          fun ts => (spawnPickup_sameScore m r.spawn { g with timers := ts }).countdown hc
        simp only [hta] at h
        split_ifs at h <;> (rw [hsp] at h; cases h)
      | countdownTick cb => exact ⟨t, cb, ht, hta, hdue⟩
      | deactivatePickup u ty =>
        exfalso
        have hde : ∀ ts : List (Timer α),
            (deactivatePickup u ty { g with timers := ts }).countdownActive = true :=
          fun ts => (deactivatePickup_sameScore u ty { g with timers := ts }).countdown hc
        simp only [hta] at h
        split_ifs at h <;> (rw [hde] at h; cases h)
    · rw [if_neg hdue, hc] at h; cases h

/-- While a countdown is active, only the firing of a countdown timer can end
it. -/
theorem step_countdown [FloorRing α] (m : MathLib α) (g : Game α) (e : Event α)
    (hc : g.countdownActive = true) (h : (step m g e).countdownActive = false) :
    ∃ now r id t cb, e = .timer now r id ∧
      g.timers.find? (fun t => t.id == id) = some t ∧ t.action = .countdownTick cb ∧
      t.due ≤ now := by
  have no : ∀ G : Game α, SameScore g G → G.countdownActive = false → False := by
    intro G hG hf
    have := hG.countdown hc
    rw [hf] at this; cases this
  obtain ⟨l1, l2, l3, l4, l5⟩ := light_handlers_same g
  have htog : ∀ (now : α) (r : SpawnRand α) (G : Game α), SameScore g G →
      SameScore g (if G.gameStartedOnce then togglePauseGame m now r G else G) := by
    intro now r G hG
    split_ifs
    · exact sameScore_trans hG (togglePauseGame_sameScore m now r G)
    · exact hG
  cases e with
  | frame now r =>
    exfalso
    have : step m g (.frame now r) = g := by simp [step, enhancedGameLoop, hc]
    rw [this, hc] at h; cases h
  | timer now r id =>
    obtain ⟨t, cb, h1, h2, h3⟩ := fireTimer_countdown m now r id g hc h
    exact ⟨now, r, id, t, cb, rfl, h1, h2, h3⟩
  | keydown now r code =>
    exfalso
    have h0 : SameScore g { g with keys := g.keys.set code true } :=
      ⟨rfl, rfl, rfl, fun h => h⟩
    have hres : ∀ G : Game α, SameScore g G →
        SameScore g (if G.gameStartedOnce then restartGame now G else G) := by
      intro G hG
      split_ifs
      · have hGc := hG.countdown hc
        simp only [restartGame, hGc, if_true]
        exact hG
      · exact hG
    cases code <;> first
      | exact no _ h0 h
      | exact no _ (htog now r _ h0) h
      | exact no _ (hres _ h0) h
  | keyup code => exact (no _ (l1 code).1 h).elim
  | mousemove y => exact (no _ (l2 y).1 h).elim
  | touchstart y => exact (no _ (l3 y).1 h).elim
  | touchmove y => exact (no _ (l4 y).1 h).elim
  | touchend now r =>
    exfalso
    refine no _ ?_ h
    simp only [step, touchend]
    have key : ∀ G : Game α, SameScore g G → SameScore g { G with lastTapTime := now } :=
      fun G h => ⟨h.playerScore, h.computerScore, h.gameOver, h.countdown⟩
    apply key
    split_ifs
    · exact togglePauseGame_sameScore m now r g
    · exact sameScore_refl g
    · exact sameScore_refl g
  | canvasClick => exact (no _ l5.1 h).elim
  | startClick now =>
    exfalso
    refine no _ ?_ h
    simp only [step]
    split_ifs
    · exact (startGame_same now g).1
    · exact sameScore_refl g
  | pauseClick now r =>
    exfalso
    refine no _ ?_ h
    simp only [step]
    split_ifs
    · exact togglePauseGame_sameScore m now r g
    · exact sameScore_refl g
  | restartClick now =>
    exfalso
    refine no _ ?_ h
    simp only [step, restartGame, hc, if_true]
    split_ifs <;> exact sameScore_refl g
  | resize w h' r => exact (no _ (resizeCanvas_same w h' r g).1 h).elim

theorem updateScore_flags (g : Game α) :
    (updateScore g).countdownActive = g.countdownActive ∧
    (updateScore g).gamePaused = g.gamePaused := by
  obtain ⟨go, w, ts, pb, sb, hu, -⟩ := updateScore_frame g
  rw [hu]
  exact ⟨rfl, rfl⟩

theorem startPickupSpawner_flags [FloorRing α] (m : MathLib α) (now : α) (r : SpawnRand α)
    (b : Bool) (g : Game α) :
    (startPickupSpawner m now r b g).countdownActive = g.countdownActive ∧
    (startPickupSpawner m now r b g).gamePaused = g.gamePaused := by
  obtain ⟨extra, k, -, hsp⟩ := startPickupSpawner_frame m now r b g
  rw [hsp]
  exact ⟨rfl, rfl⟩

/-- When the countdown of `restartGame` completes, the game is running. -/
theorem countdownTick_afterRestart_running [FloorRing α] (m : MathLib α) (now : α)
    (r : HandlerRand α) (id : Nat) (g : Game α) (ht : g.countdownTime = 1) :
    (countdownTick m now r id .afterRestart g).countdownActive = false ∧
    (countdownTick m now r id .afterRestart g).gamePaused = false := by
  have h0 : ¬ (g.countdownTime - 1 > 0) := by rw [ht]; decide
  simp only [countdownTick, if_neg h0, runCountdownCallback]
  rw [(updateScore_flags _).1, (updateScore_flags _).2, (startPickupSpawner_flags _ _ _ _ _).1,
    (startPickupSpawner_flags _ _ _ _ _).2]
  exact ⟨rfl, rfl⟩

/-- C10. Restart resets the match.  For every reachable state and every time
`now`: if no countdown is active (game over or not), `restartGame` yields
both scores 0, `gameOver` false, no winner, an empty pickup list, the player
paddle at its base height, both paddles vertically centred at their resting
`x` with no shake, and the counting-down phase (`countdownActive` and
`gamePaused` true, `countdownTime` 1, the 1000 ms countdown interval
pending); the completion of that countdown enters the running phase, and no
event other than the firing of a due countdown timer ends the countdown.  If
a countdown is active, `restartGame` changes nothing. -/
theorem restart_resets [FloorRing α] (m : MathLib α) (page : Page α) (g : Game α) (now : α)
    (hreach : Reachable m page g) :
    (g.countdownActive = false →
      (restartGame now g).playerScore = 0 ∧ (restartGame now g).computerScore = 0 ∧
      (restartGame now g).gameOver = false ∧ (restartGame now g).winner = none ∧
      (restartGame now g).activePickups = [] ∧
      (restartGame now g).player.height = originalPaddleHeight ∧
      (restartGame now g).player.y + (restartGame now g).player.height / 2 =
        (restartGame now g).canvasHeight / 2 ∧
      (restartGame now g).computer.y + (restartGame now g).computer.height / 2 =
        (restartGame now g).canvasHeight / 2 ∧
      (restartGame now g).player.x = PADDLE_WIDTH * 2 ∧
      (restartGame now g).computer.x = (restartGame now g).canvasWidth - PADDLE_WIDTH * 3 ∧
      (restartGame now g).player.shakeDuration = 0 ∧
      (restartGame now g).player.shakeIntensity = 0 ∧
      (restartGame now g).computer.shakeDuration = 0 ∧
      (restartGame now g).computer.shakeIntensity = 0 ∧
      (restartGame now g).countdownActive = true ∧ (restartGame now g).gamePaused = true ∧
      (restartGame now g).countdownTime = 1 ∧
      (⟨g.nextTimerId, now + 1000, 1000, true, .countdownTick .afterRestart⟩ : Timer α) ∈
        (restartGame now g).timers ∧
      (∀ (now' : α) (r : HandlerRand α),
        (countdownTick m now' r g.nextTimerId .afterRestart (restartGame now g)).countdownActive
          = false ∧
        (countdownTick m now' r g.nextTimerId .afterRestart (restartGame now g)).gamePaused
          = false) ∧
      (∀ e : Event α, (step m (restartGame now g) e).countdownActive = false →
        ∃ now' r id t cb, e = .timer now' r id ∧
          (restartGame now g).timers.find? (fun t => t.id == id) = some t ∧
          t.action = .countdownTick cb ∧ t.due ≤ now')) ∧
    (g.countdownActive = true → restartGame now g = g) := by
  have hinv := (reachable_inv m page g hreach).2
  constructor
  · intro hc
    obtain ⟨ts, -, h⟩ := restartGame_frame now g hc
    have hheight : (if ∃ q ∈ g.activePickups, q.type = .PADDLE_SIZE_INCREASE then
        originalPaddleHeight else g.player.height) = (originalPaddleHeight : α) := by
      split_ifs with hex
      · rfl
      · rcases hinv.height with hh | hh
        · exact hh
        · exact absurd hh hex
    have hca : (restartGame now g).countdownActive = true := by rw [h]
    have hct : (restartGame now g).countdownTime = 1 := by rw [h]
    refine ⟨by rw [h], by rw [h], by rw [h], by rw [h], by rw [h], by rw [h]; exact hheight,
      by rw [h]; simp, by rw [h]; simp, by rw [h], by rw [h], by rw [h], by rw [h], by rw [h],
      by rw [h], hca, by rw [h], hct, by rw [h]; simp, ?_, ?_⟩
    · intro now' r
      exact countdownTick_afterRestart_running m now' r _ _ hct
    · intro e he
      exact step_countdown m _ e hca he
  · intro hc
    simp [restartGame, hc]


theorem reachable_run [FloorRing α] (m : MathLib α) (page : Page α) (g : Game α)
    (es : List (Event α)) (h : Reachable m page g) : Reachable m page (run m g es) := by
  induction es generalizing g with
  | nil => exact h
  | cons e es ih => exact ih _ (Reachable.step g e h)

/-- The sample state `runningGame` is the state of the script after a click
on the start button and the end of the countdown. -/
theorem run_startEvents :
    run ⟨Real.cos, Real.sin, Real.sqrt, Real.pi⟩ (initialState (fullPage : Page ℝ)) startEvents
      = runningGame := by
  simp only [run, startEvents, List.foldl, step]
  norm_num [initialState, fullPage, resizeCanvas, declaredState, updateScore, PADDLE_HEIGHT,
    PADDLE_WIDTH, BALL_RADIUS, startGame, startCountdown, setInterval, Button.clickable,
    fireTimer, countdownTick, clearTimer, runCountdownCallback, resetBall, startPickupSpawner,
    spawnPickup, midHandler, midSpawn, collidesWithAnyPaddle, collides, distance, PICKUP_RADIUS,
    PICKUP_SPAWN_INTERVAL, PICKUP_KEYS, runningGame]

theorem reachable_runningGame :
    Reachable ⟨Real.cos, Real.sin, Real.sqrt, Real.pi⟩ (fullPage : Page ℝ) runningGame := by
  rw [← run_startEvents]
  exact reachable_run _ _ _ _ Reachable.init


/-- On `runningGame` (reachable, no countdown) a restart at time 5000 gives
the reset state in its counting-down phase. -/
theorem restart_resets_witness :
    (restartGame 5000 (runningGame : Game ℝ)).playerScore = 0 ∧
    (restartGame 5000 (runningGame : Game ℝ)).activePickups = [] ∧
    (restartGame 5000 (runningGame : Game ℝ)).player.height = originalPaddleHeight ∧
    (restartGame 5000 (runningGame : Game ℝ)).countdownActive = true ∧
    (restartGame 5000 (runningGame : Game ℝ)).gamePaused = true := by
  have h := (restart_resets ⟨Real.cos, Real.sin, Real.sqrt, Real.pi⟩ fullPage runningGame 5000
    reachable_runningGame).1 rfl
  exact ⟨h.1, h.2.2.2.2.1, h.2.2.2.2.2.1, h.2.2.2.2.2.2.2.2.2.2.2.2.2.2.1,
    h.2.2.2.2.2.2.2.2.2.2.2.2.2.2.2.1⟩


/-! ### C1: the paddle bounds -/

theorem run_append {α : Type} [LinearOrderedField α] [FloorRing α] (m : MathLib α) (g : Game α)
    (es es' : List (Event α)) : run m g (es ++ es') = run m (run m g es) es' := by
  simp [run, List.foldl_append]

set_option maxRecDepth 100000 in
set_option maxHeartbeats 4000000 in
/-- Holding `W` for 23 frames from `runningGame` moves the player paddle from
`y = 225` to `y = -5`. -/
theorem run_holdUpEvents :
    (run ⟨Real.cos, Real.sin, Real.sqrt, Real.pi⟩ (runningGame : Game ℝ) holdUpEvents).player.y
      = -5 := by
  simp only [run, holdUpEvents, List.replicate, List.foldl, step]
  norm_num [runningGame, keydown, Keys.set, enhancedGameLoop, update, updatePlayerPaddle,
    updatePlayerPaddleVertical, moveComputerPaddle, moveBall, moveBallBeforeScore, moveBallMotion,
    moveBallWalls, moveBallPaddles, moveBallScore, moveBallHistory, updatePickups,
    updatePickupsLoop, getCurrentBallRadius, collides, Ball.toCircle, midFrame,
    PADDLE_SPEED, PADDLE_WIDTH, COMPUTER_PADDLE_SPEED, MAX_TRAIL_LENGTH]

/-- C1 (the code departs from the claim).  On the full-size arena (height
600, paddle height 150) the script reaches, from its initial state, by a
click on the start button, the end of the countdown and 23 frames with `W`
held, a state whose player paddle is at `y = -5 < 0`; the run starts its
frames from `runningGame`, where both paddles are within bounds.  And one
`moveComputerPaddle` tick takes the computer paddle from `y = 449`, within
`0 <= y <= 450`, to `y = 456 > 450`. -/
theorem paddle_leaves_arena :
    Reachable ⟨Real.cos, Real.sin, Real.sqrt, Real.pi⟩ (fullPage : Page ℝ)
      (run ⟨Real.cos, Real.sin, Real.sqrt, Real.pi⟩ (initialState (fullPage : Page ℝ))
        (startEvents ++ holdUpEvents)) ∧
    (0 ≤ (runningGame : Game ℝ).player.y ∧ (runningGame : Game ℝ).player.y ≤
      (runningGame : Game ℝ).canvasHeight - (runningGame : Game ℝ).player.height) ∧
    (run ⟨Real.cos, Real.sin, Real.sqrt, Real.pi⟩ (initialState (fullPage : Page ℝ))
      (startEvents ++ holdUpEvents)).player.y = -5 ∧
    (0 ≤ (computerLowGame : Game ℝ).computer.y ∧ (computerLowGame : Game ℝ).computer.y ≤
      (computerLowGame : Game ℝ).canvasHeight - (computerLowGame : Game ℝ).computer.height) ∧
    (moveComputerPaddle (1 / 2) (updatePlayerPaddle (1 / 2) (computerLowGame : Game ℝ))).computer.y
      = 456 ∧
    (computerLowGame : Game ℝ).canvasHeight - (computerLowGame : Game ℝ).computer.height
      = 450 := by
  refine ⟨reachable_run _ _ _ _ Reachable.init, ?_, ?_, ?_, ?_, ?_⟩
  · norm_num [runningGame]
  · rw [run_append, run_startEvents]
    exact run_holdUpEvents
  · norm_num [computerLowGame, runningGame]
  · norm_num [computerLowGame, runningGame, moveComputerPaddle, updatePlayerPaddle,
      updatePlayerPaddleVertical, PADDLE_WIDTH, COMPUTER_PADDLE_SPEED]
  · norm_num [computerLowGame, runningGame]



/-! ### C6: the pending expiry timers -/

set_option maxRecDepth 100000 in
set_option maxHeartbeats 8000000 in
/-- The state after the run `duplicateTimerEvents` on the 400 x 600 arena: a
speed boost is collected in the eighth frame, the game is paused at 1130 and
resumed at 1200, the ball leaves on the left in the thirtieth later frame, and
`Space` is pressed at 1700 during the countdown that follows the point. -/
theorem run_duplicateTimerEvents :
    run ⟨Real.cos, Real.sin, Real.sqrt, Real.pi⟩ (initialState (narrowPage : Page ℝ))
      duplicateTimerEvents =
      ({
        canvasWidth := 400, canvasHeight := 600, playerScore := 0, computerScore := 1,
        gameOver := false, winner := none,
        player := ⟨50, 225, 25, 150, 0, 0, 0, 50⟩,
        computer := ⟨325, 379, 25, 150, 0, 0, 0, 0⟩,
        ball := ⟨10, 490, 15, 7, -5, 5,
          [⟨155, 345, Real.sqrt 50⟩, ⟨150, 350, Real.sqrt 50⟩, ⟨145, 355, Real.sqrt 50⟩,
           ⟨140, 360, Real.sqrt 50⟩, ⟨135, 365, Real.sqrt 50⟩, ⟨130, 370, Real.sqrt 50⟩,
           ⟨125, 375, Real.sqrt 50⟩, ⟨120, 380, Real.sqrt 50⟩, ⟨115, 385, Real.sqrt 50⟩,
           ⟨110, 390, Real.sqrt 50⟩, ⟨105, 395, Real.sqrt 50⟩, ⟨100, 400, Real.sqrt 50⟩,
           ⟨95, 405, Real.sqrt 50⟩, ⟨90, 410, Real.sqrt 50⟩, ⟨85, 415, Real.sqrt 50⟩,
           ⟨80, 420, Real.sqrt 50⟩, ⟨75, 425, Real.sqrt 50⟩, ⟨70, 430, Real.sqrt 50⟩,
           ⟨65, 435, Real.sqrt 50⟩, ⟨60, 440, Real.sqrt 50⟩, ⟨55, 445, Real.sqrt 50⟩,
           ⟨50, 450, Real.sqrt 50⟩, ⟨45, 455, Real.sqrt 50⟩, ⟨40, 460, Real.sqrt 50⟩,
           ⟨35, 465, Real.sqrt 50⟩, ⟨30, 470, Real.sqrt 50⟩, ⟨25, 475, Real.sqrt 50⟩,
           ⟨20, 480, Real.sqrt 50⟩, ⟨15, 485, Real.sqrt 50⟩, ⟨10, 490, Real.sqrt 50⟩]⟩,
        mouseControlActive := false, touchControlActive := false, gamePaused := false,
        gameStartedOnce := true,
        activePickups :=
          [⟨0, 130, 370, 30, .SPEED_BOOST, true, false, some 8, some 6698, some 4998, none⟩],
        pickupSpawnTimer := some 7, countdownActive := true, countdownTime := 1,
        keys := ⟨false, false, false, false⟩, lastMouseY := 75, lastTapTime := 0,
        startButton := ⟨false, false⟩, pauseButton := ⟨true, false⟩,
        restartButton := ⟨true, false⟩,
        timers :=
          [⟨5, 6198, 4998, false, .deactivatePickup 0 .SPEED_BOOST⟩,
           ⟨6, 2680, 1000, true, .countdownTick (.afterScore false)⟩,
           ⟨7, 21700, 20000, true, .spawnPickup⟩,
           ⟨8, 6698, 4998, false, .deactivatePickup 0 .SPEED_BOOST⟩],
        nextTimerId := 9, nextUid := 1 } : Game ℝ) := by
  simp only [run, duplicateTimerEvents, framesFrom, List.foldl, step, List.cons_append,
    List.nil_append, List.append_assoc]
  norm_num [initialState, narrowPage, fullPage, resizeCanvas, declaredState, updateScore,
    PADDLE_HEIGHT, PADDLE_WIDTH, BALL_RADIUS, startGame, startCountdown, setInterval, setTimeout,
    Button.clickable, fireTimer, countdownTick, clearTimer, runCountdownCallback, resetBall,
    startPickupSpawner, spawnPickup, boostSpawn, midSpawn, midHandler, collidesWithAnyPaddle,
    collides, distance, PICKUP_RADIUS, PICKUP_SPAWN_INTERVAL, PICKUP_DURATION, PICKUP_KEYS,
    keydown, Keys.set, enhancedGameLoop, update, updatePlayerPaddle,
    updatePlayerPaddleVertical, moveComputerPaddle, moveBall, moveBallBeforeScore, moveBallMotion,
    moveBallWalls, moveBallPaddles, moveBallScore, moveBallHistory, updatePickups,
    updatePickupsLoop, getCurrentBallRadius, Ball.toCircle, midFrame,
    PADDLE_SPEED, COMPUTER_PADDLE_SPEED, MAX_TRAIL_LENGTH,
    activatePickup, applyPickupEffect, setPickup, togglePauseGame, pausePickupTimers,
    resumePickupTimers,
    Real.sqrt_lt' (show (0:ℝ) < 45 by norm_num), Real.sqrt_lt' (show (0:ℝ) < 95 by norm_num),
    (by decide : PickupType.SPEED_BOOST ≠ PickupType.BALL_SIZE_INCREASE),
    (by decide : PickupType.SPEED_BOOST ≠ PickupType.DRUNKEN_BALL)]

/-- C6 (the code departs from the claim).  On the 400 x 600 arena the script
reaches, from its initial state, a state in which the one active pickup (the
speed boost, object 0) has two pending expiry timers, with ids 5 and 8 and
deadlines 6198 and 6698.  The run `duplicateTimerEvents` collects the boost,
pauses at 1130 and resumes at 1200 (the resume schedules timer 5 from the
remaining 4998 ms), lets the ball leave on the left, and presses `Space` at
1700 while the countdown after the point is active: `togglePauseGame` has no
countdown guard, finds `gamePaused` set by `startCountdown`, runs its resume
branch again and schedules timer 8 from the stale `remainingTime` while timer
5 is still pending. -/
theorem duplicate_expiry_timers :
    Reachable ⟨Real.cos, Real.sin, Real.sqrt, Real.pi⟩ (narrowPage : Page ℝ)
      (run ⟨Real.cos, Real.sin, Real.sqrt, Real.pi⟩ (initialState (narrowPage : Page ℝ))
        duplicateTimerEvents) ∧
    (run ⟨Real.cos, Real.sin, Real.sqrt, Real.pi⟩ (initialState (narrowPage : Page ℝ))
      duplicateTimerEvents).countdownActive = true ∧
    (run ⟨Real.cos, Real.sin, Real.sqrt, Real.pi⟩ (initialState (narrowPage : Page ℝ))
      duplicateTimerEvents).activePickups.map (fun p => (p.uid, p.type, p.isActive)) =
      [(0, PickupType.SPEED_BOOST, true)] ∧
    (expiryTimersOf 0 (run ⟨Real.cos, Real.sin, Real.sqrt, Real.pi⟩
      (initialState (narrowPage : Page ℝ)) duplicateTimerEvents).timers).map
        (fun t => (t.id, t.due)) = [(5, 6198), (8, 6698)] := by
  refine ⟨reachable_run _ _ _ _ Reachable.init, ?_, ?_, ?_⟩
  · rw [run_duplicateTimerEvents]
  · rw [run_duplicateTimerEvents]; rfl
  · rw [run_duplicateTimerEvents]; simp [expiryTimersOf, Timer.expires]

/-! ### C7: a stray expiry timer survives the pause -/

theorem run_singleton {α : Type} [LinearOrderedField α] [FloorRing α] (m : MathLib α)
    (g : Game α) (e : Event α) : run m g [e] = step m g e := rfl

/-- C7 (the code departs from the claim).  On the 400 x 600 arena the run
`strayTimerEvents` reaches, from the initial state, a running state (started,
not paused, no countdown, not over) whose one pickup, the speed boost
(object 0), is active with expiry deadline `D = 6698`.  Pausing it at
`t1 = 2700 < D` and resuming at `t2 = 2800` leaves the pickup with two pending
expiry timers: the new timer 10, with delay `D - t1 = 3998` and due at
`t2 + (D - t1) = 6798`, and timer 5, due at 6198, which the unguarded resume
branch of `togglePauseGame` scheduled during an earlier countdown and which the
pause does not cancel because it is not the one in `timeoutId`. -/
theorem stray_timer_survives_pause :
    Reachable ⟨Real.cos, Real.sin, Real.sqrt, Real.pi⟩ (narrowPage : Page ℝ)
      (run ⟨Real.cos, Real.sin, Real.sqrt, Real.pi⟩ (initialState (narrowPage : Page ℝ))
        strayTimerEvents) ∧
    ((run ⟨Real.cos, Real.sin, Real.sqrt, Real.pi⟩ (initialState (narrowPage : Page ℝ))
        strayTimerEvents).gameStartedOnce = true ∧
      (run ⟨Real.cos, Real.sin, Real.sqrt, Real.pi⟩ (initialState (narrowPage : Page ℝ))
        strayTimerEvents).gamePaused = false ∧
      (run ⟨Real.cos, Real.sin, Real.sqrt, Real.pi⟩ (initialState (narrowPage : Page ℝ))
        strayTimerEvents).countdownActive = false ∧
      (run ⟨Real.cos, Real.sin, Real.sqrt, Real.pi⟩ (initialState (narrowPage : Page ℝ))
        strayTimerEvents).gameOver = false) ∧
    (run ⟨Real.cos, Real.sin, Real.sqrt, Real.pi⟩ (initialState (narrowPage : Page ℝ))
      strayTimerEvents).activePickups =
      [⟨0, 130, 370, 30, .SPEED_BOOST, true, false, some 8, some 6698, some 4998, none⟩] ∧
    (expiryTimersOf 0 (togglePauseGame ⟨Real.cos, Real.sin, Real.sqrt, Real.pi⟩ 2800 midSpawn
      (togglePauseGame ⟨Real.cos, Real.sin, Real.sqrt, Real.pi⟩ 2700 midSpawn
        (run ⟨Real.cos, Real.sin, Real.sqrt, Real.pi⟩ (initialState (narrowPage : Page ℝ))
          strayTimerEvents))).timers).map (fun t => (t.id, t.delay, t.due)) =
      [(5, 4998, 6198), (10, 3998, 6798)] := by
  have h : run ⟨Real.cos, Real.sin, Real.sqrt, Real.pi⟩ (initialState (narrowPage : Page ℝ))
      strayTimerEvents = step ⟨Real.cos, Real.sin, Real.sqrt, Real.pi⟩
        (run ⟨Real.cos, Real.sin, Real.sqrt, Real.pi⟩ (initialState (narrowPage : Page ℝ))
          duplicateTimerEvents) (.timer 2680 midHandler 6) := by
    rw [strayTimerEvents, run_append, run_singleton]
  refine ⟨reachable_run _ _ _ _ Reachable.init, ?_, ?_, ?_⟩ <;>
    rw [h, run_duplicateTimerEvents] <;>
    norm_num [step, fireTimer, countdownTick, clearTimer, runCountdownCallback, resetBall,
      midHandler, midSpawn, togglePauseGame, pausePickupTimers, resumePickupTimers,
      startPickupSpawner, setInterval, setTimeout, PICKUP_SPAWN_INTERVAL, expiryTimersOf,
      Timer.expires]


/-! ### C14: the overlap test -/

/-- C14. `collides(b, p)` is true iff the bounding box of the circle strictly
overlaps the rectangle on both axes: `b.x + b.radius > p.x` and
`b.x - b.radius < p.x + p.width` and `b.y + b.radius > p.y` and
`b.y - b.radius < p.y + p.height`.  It is a function of its two arguments
alone and returns a boolean: no state is read or written. -/
theorem collides_overlap (b : Circle α) (p : Paddle α) :
    collides b p = true ↔
      (b.x + b.radius > p.x ∧ b.x - b.radius < p.x + p.width ∧
        b.y + b.radius > p.y ∧ b.y - b.radius < p.y + p.height) := by
  simp only [collides, Bool.and_eq_true, decide_eq_true_eq, and_assoc]

/-! ### C11: the trajectory change -/

/-- C11. For every ball velocity (zero included) and all draws in `[0, 1)`,
after `applyPickupEffect` on a `TRAJECTORY_CHANGE` pickup both velocity
components have magnitude at least 2.  Each offset `(draw - 0.5) * 10` lies
in `[-5, 5]`; a component whose shifted value has magnitude at least 2 is
exactly the old value plus its offset, and otherwise it was raised to
magnitude exactly 2.  Nothing but the two velocity components changes. -/
theorem trajectory_change_min_motion (r : TrajRand α) (pickup : Pickup α) (g : Game α)
    (hty : pickup.type = .TRAJECTORY_CHANGE)
    (hx : 0 ≤ r.dx ∧ r.dx < 1) (hy : 0 ≤ r.dy ∧ r.dy < 1) :
    let g' := applyPickupEffect r pickup g
    let ox := (r.dx - 0.5) * 10
    let oy := (r.dy - 0.5) * 10
    (2 ≤ |g'.ball.dx| ∧ 2 ≤ |g'.ball.dy|) ∧
    (-5 ≤ ox ∧ ox ≤ 5 ∧ -5 ≤ oy ∧ oy ≤ 5) ∧
    (2 ≤ |g.ball.dx + ox| → g'.ball.dx = g.ball.dx + ox) ∧
    (|g.ball.dx + ox| < 2 → |g'.ball.dx| = 2) ∧
    (2 ≤ |g.ball.dy + oy| → g'.ball.dy = g.ball.dy + oy) ∧
    (|g.ball.dy + oy| < 2 → |g'.ball.dy| = 2) ∧
    g' = { g with ball := { g.ball with dx := g'.ball.dx, dy := g'.ball.dy } } := by
  intro g' ox oy
  have key : ∀ (v nudge : α),
      let w := if |v| < 2 ∧ v ≠ 0 then (if v > 0 then (2 : α) else -2) else v
      let w' := if w = 0 then (if nudge > 0.5 then (2 : α) else -2) else w
      2 ≤ |w'| ∧ (2 ≤ |v| → w' = v) ∧ (|v| < 2 → |w'| = 2) := by
    intro v nudge
    dsimp only
    by_cases hv : |v| < 2
    · by_cases hv0 : v = 0
      · have h1 : ¬ (|v| < 2 ∧ v ≠ 0) := fun h => h.2 hv0
        rw [if_neg h1, if_pos hv0]
        refine ⟨?_, fun h => absurd hv (not_lt.mpr h), fun _ => ?_⟩ <;> split_ifs <;> norm_num
      · have h1 : |v| < 2 ∧ v ≠ 0 := ⟨hv, hv0⟩
        rw [if_pos h1]
        by_cases hp : v > 0
        · rw [if_pos hp, if_neg (by norm_num : (2 : α) ≠ 0)]
          exact ⟨by norm_num, fun h => absurd hv (not_lt.mpr h), fun _ => by norm_num⟩
        · rw [if_neg hp, if_neg (by norm_num : (-2 : α) ≠ 0)]
          exact ⟨by norm_num, fun h => absurd hv (not_lt.mpr h), fun _ => by norm_num⟩
    · have h1 : ¬ (|v| < 2 ∧ v ≠ 0) := fun h => hv h.1
      have hv0 : v ≠ 0 := by
        intro h; subst h; simp at hv
      rw [if_neg h1, if_neg hv0]
      exact ⟨not_lt.mp hv, fun _ => rfl, fun h => absurd h hv⟩
  have hg : g' = { g with ball := { g.ball with
      dx := (let v := g.ball.dx + ox
        let w := if |v| < 2 ∧ v ≠ 0 then (if v > 0 then (2 : α) else -2) else v
        if w = 0 then (if r.nudgeX > 0.5 then (2 : α) else -2) else w)
      dy := (let v := g.ball.dy + oy
        let w := if |v| < 2 ∧ v ≠ 0 then (if v > 0 then (2 : α) else -2) else v
        if w = 0 then (if r.nudgeY > 0.5 then (2 : α) else -2) else w) } } := by
    show applyPickupEffect r pickup g = _
    simp only [applyPickupEffect, hty]
  have kx := key (g.ball.dx + ox) r.nudgeX
  have ky := key (g.ball.dy + oy) r.nudgeY
  have hox : -5 ≤ ox ∧ ox ≤ 5 := by
    constructor <;> simp only [ox] <;> norm_num <;> linarith [hx.1, hx.2]
  have hoy : -5 ≤ oy ∧ oy ≤ 5 := by
    constructor <;> simp only [oy] <;> norm_num <;> linarith [hy.1, hy.2]
  have hdx := congrArg (fun G : Game α => G.ball.dx) hg
  have hdy := congrArg (fun G : Game α => G.ball.dy) hg
  dsimp only at hdx hdy kx ky
  refine ⟨⟨?_, ?_⟩, ⟨hox.1, hox.2, hoy.1, hoy.2⟩, ?_, ?_, ?_, ?_, ?_⟩
  · rw [hdx]; exact kx.1
  · rw [hdy]; exact ky.1
  · rw [hdx]; exact kx.2.1
  · rw [hdx]; exact kx.2.2
  · rw [hdy]; exact ky.2.1
  · rw [hdy]; exact ky.2.2
  · rw [hg]

/-- A ball at rest `(0, 0)` and draws `1/2` (both offsets 0): the nudge gives
`dx = dy = -2`. -/
theorem trajectory_change_min_motion_witness :
    |(applyPickupEffect (⟨1 / 2, 1 / 2, 1 / 2, 1 / 2⟩ : TrajRand ℚ)
        { (boostPickup : Pickup ℚ) with type := .TRAJECTORY_CHANGE }
        { (runningGame : Game ℚ) with ball := ⟨500, 300, 15, 7, 0, 0, []⟩ }).ball.dx| ≥ 2 :=
  (trajectory_change_min_motion (⟨1 / 2, 1 / 2, 1 / 2, 1 / 2⟩ : TrajRand ℚ)
    { (boostPickup : Pickup ℚ) with type := .TRAJECTORY_CHANGE }
    { (runningGame : Game ℚ) with ball := ⟨500, 300, 15, 7, 0, 0, []⟩ }
    rfl (by norm_num) (by norm_num)).1.1

/-! ### C13: the ball after a point -/

/-- The firing, when due, of a pending countdown interval for a point in its
last second: the countdown completes and the ball is reset toward the side
that did not score. -/
theorem fire_score_countdown [FloorRing α] (m : MathLib α) (now' : α) (r : HandlerRand α)
    (toPlayer : Bool) (n : Nat) (due delay : α) (S : Game α)
    (hfind : S.timers.find? (fun t => t.id == n) =
      some ⟨n, due, delay, true, .countdownTick (.afterScore toPlayer)⟩)
    (hct : S.countdownTime = 1) (hdue : due ≤ now') :
    let F := fireTimer m now' r n S
    F.ball.x = S.canvasWidth / 2 ∧ F.ball.y = S.canvasHeight / 2 ∧ F.ball.speed = 7 ∧
    F.ball.dx = (if toPlayer = true then 5 else -5) ∧ |F.ball.dy| = 5 ∧
    F.countdownActive = false ∧ F.gamePaused = false := by
  intro F
  have h0 : ¬ ((1 : Int) - 1 > 0) := by decide
  have hF : F = resetBall r.reset toPlayer false
      { clearTimer (some n)
          { { S with timers := S.timers.map (fun u : Timer α =>
                if u.id = n then { u with due := u.due + u.delay } else u) } with
            countdownTime := S.countdownTime - 1 } with
        countdownActive := false, gamePaused := false } := by
    show fireTimer m now' r n S = _
    unfold fireTimer
    rw [hfind]
    simp only [if_pos hdue, if_true, countdownTick, runCountdownCallback, hct, if_neg h0]
  rw [hF]
  refine ⟨rfl, rfl, rfl, ?_, ?_, rfl, rfl⟩
  · simp [resetBall]
  · show |(if r.reset.dy > 0.5 then (1 : α) else -1) * 5| = 5
    split_ifs <;> norm_num

/-- The state of `moveBall` after a point: the countdown interval is the one
timer with the id `nextTimerId` of the state before. -/
theorem score_countdown_pending (m : MathLib α) (now : α) (cb : CountdownCallback)
    (U : Game α) (hfresh : ∀ t ∈ U.timers, t.id < U.nextTimerId) :
    let S := moveBallHistory m (startCountdown now 1 cb U)
    S.timers.find? (fun t => t.id == U.nextTimerId) =
      some ⟨U.nextTimerId, now + 1000, 1000, true, .countdownTick cb⟩ ∧
    S.countdownTime = 1 ∧ S.countdownActive = true ∧
    S.canvasWidth = U.canvasWidth ∧ S.canvasHeight = U.canvasHeight ∧
    S.playerScore = U.playerScore ∧ S.computerScore = U.computerScore := by
  intro S
  have hts : S.timers =
      U.timers ++ [⟨U.nextTimerId, now + 1000, 1000, true, .countdownTick cb⟩] := rfl
  have hnone : U.timers.find? (fun t => t.id == U.nextTimerId) = none := by
    rw [List.find?_eq_none]
    intro t ht
    have := hfresh t ht
    simp only [beq_iff_eq]
    omega
  refine ⟨?_, rfl, rfl, rfl, rfl, rfl, rfl⟩
  rw [hts, List.find?_append, hnone]
  simp

/-- What `updateScore` keeps: the arena, the scores, the timer counter; it
adds no timer. -/
theorem updateScore_keeps (g : Game α) :
    (updateScore g).canvasWidth = g.canvasWidth ∧ (updateScore g).canvasHeight = g.canvasHeight ∧
    (updateScore g).playerScore = g.playerScore ∧ (updateScore g).computerScore = g.computerScore ∧
    (updateScore g).nextTimerId = g.nextTimerId ∧
    ∀ t ∈ (updateScore g).timers, t ∈ g.timers := by
  obtain ⟨go, w, ts, pb, sb, hU, hsub⟩ := updateScore_frame g
  rw [hU]
  exact ⟨rfl, rfl, rfl, rfl, rfl, hsub⟩

/-- C13. In a running state whose pending timers were issued before
`nextTimerId`, let the ball, after the motion and collision handling of a
`moveBall` tick at time `now`, cross a side boundary.  The tick starts the
1-second countdown (interval `nextTimerId`, first due at `now + 1000`), and
when that timer fires the countdown completes with the ball at the arena
centre `(W/2, H/2)`, speed 7 and `|dy| = 5`: `dx = -5` if the ball crossed
the left boundary (the computer scored), `dx = +5` if it crossed the right
one (the player scored). -/
theorem reset_after_score [FloorRing α] (m : MathLib α) (now now' : α) (r0 : FrameRand α)
    (r : HandlerRand α) (g : Game α)
    (hp : g.gamePaused = false) (hc : g.countdownActive = false)
    (hfresh : ∀ t ∈ g.timers, t.id < g.nextTimerId) (hdue : now + 1000 ≤ now') :
    let b := (moveBallBeforeScore m r0 g).ball
    let g1 := moveBall m now r0 g
    let g2 := fireTimer m now' r g.nextTimerId g1
    (b.x - b.radius < 0 →
      (g1.computerScore = g.computerScore + 1 ∧ g1.countdownActive = true ∧
        g1.timers.find? (fun t => t.id == g.nextTimerId) =
          some ⟨g.nextTimerId, now + 1000, 1000, true, .countdownTick (.afterScore false)⟩) ∧
      g2.ball.x = g.canvasWidth / 2 ∧ g2.ball.y = g.canvasHeight / 2 ∧ g2.ball.speed = 7 ∧
      g2.ball.dx = -5 ∧ |g2.ball.dy| = 5 ∧
      g2.countdownActive = false ∧ g2.gamePaused = false) ∧
    (¬ b.x - b.radius < 0 → b.x + b.radius > g.canvasWidth →
      (g1.playerScore = g.playerScore + 1 ∧ g1.countdownActive = true ∧
        g1.timers.find? (fun t => t.id == g.nextTimerId) =
          some ⟨g.nextTimerId, now + 1000, 1000, true, .countdownTick (.afterScore true)⟩) ∧
      g2.ball.x = g.canvasWidth / 2 ∧ g2.ball.y = g.canvasHeight / 2 ∧ g2.ball.speed = 7 ∧
      g2.ball.dx = 5 ∧ |g2.ball.dy| = 5 ∧
      g2.countdownActive = false ∧ g2.gamePaused = false) := by
  intro b g1 g2
  obtain ⟨b0, p0, c0, hG⟩ := moveBallBeforeScore_frame m r0 g
  have hg1 : g1 = moveBallHistory m (moveBallScore now (moveBallBeforeScore m r0 g)) := by
    show moveBall m now r0 g = _
    simp [moveBall, hp, hc]
  have hGt : (moveBallBeforeScore m r0 g).timers = g.timers := by rw [hG]
  have hGn : (moveBallBeforeScore m r0 g).nextTimerId = g.nextTimerId := by rw [hG]
  have hGw : (moveBallBeforeScore m r0 g).canvasWidth = g.canvasWidth := by rw [hG]
  have hGh : (moveBallBeforeScore m r0 g).canvasHeight = g.canvasHeight := by rw [hG]
  have hGp : (moveBallBeforeScore m r0 g).playerScore = g.playerScore := by rw [hG]
  have hGc : (moveBallBeforeScore m r0 g).computerScore = g.computerScore := by rw [hG]
  have main : ∀ (cb : CountdownCallback) (G1 : Game α),
      G1.timers = g.timers → G1.nextTimerId = g.nextTimerId →
      G1.canvasWidth = g.canvasWidth → G1.canvasHeight = g.canvasHeight →
      g1 = moveBallHistory m (startCountdown now 1 cb (updateScore G1)) →
      g1.timers.find? (fun t => t.id == g.nextTimerId) =
        some ⟨g.nextTimerId, now + 1000, 1000, true, .countdownTick cb⟩ ∧
      g1.countdownTime = 1 ∧ g1.countdownActive = true ∧
      g1.canvasWidth = g.canvasWidth ∧ g1.canvasHeight = g.canvasHeight ∧
      g1.playerScore = G1.playerScore ∧ g1.computerScore = G1.computerScore := by
    intro cb G1 h1 h2 h3 h4 h5
    obtain ⟨u1, u2, u3, u4, u5, u6⟩ := updateScore_keeps G1
    have hf : ∀ t ∈ (updateScore G1).timers, t.id < (updateScore G1).nextTimerId := by
      intro t ht
      rw [u5, h2]
      exact hfresh t (h1 ▸ u6 t ht)
    have k := score_countdown_pending m now cb (updateScore G1) hf
    dsimp only at k
    rw [← h5, u5, h2, u1, u2, u3, u4, h3, h4] at k
    exact k
  constructor
  · intro hleft
    have hms : g1 = moveBallHistory m (startCountdown now 1 (.afterScore false) (updateScore
          { moveBallBeforeScore m r0 g with
            computerScore := (moveBallBeforeScore m r0 g).computerScore + 1 })) := by
      rw [hg1]
      simp only [moveBallScore]
      rw [if_pos hleft]
    obtain ⟨k1, k2, k3, k4, k5, k6, k7⟩ := main (.afterScore false)
      { moveBallBeforeScore m r0 g with
        computerScore := (moveBallBeforeScore m r0 g).computerScore + 1 } hGt hGn hGw hGh hms
    obtain ⟨f1, f2, f3, f4, f5, f6, f7⟩ :=
      fire_score_countdown m now' r false g.nextTimerId _ _ g1 k1 k2 hdue
    refine ⟨⟨?_, k3, k1⟩, ?_, ?_, f3, ?_, f5, f6, f7⟩
    · rw [k7]; show (moveBallBeforeScore m r0 g).computerScore + 1 = _; rw [hGc]
    · rw [← k4]; exact f1
    · rw [← k5]; exact f2
    · rw [f4]; simp
  · intro hnl hright
    have hms : g1 = moveBallHistory m (startCountdown now 1 (.afterScore true) (updateScore
          { moveBallBeforeScore m r0 g with
            playerScore := (moveBallBeforeScore m r0 g).playerScore + 1 })) := by
      rw [hg1]
      simp only [moveBallScore]
      rw [if_neg hnl, if_pos (by rw [hGw]; exact hright)]
    obtain ⟨k1, k2, k3, k4, k5, k6, k7⟩ := main (.afterScore true)
      { moveBallBeforeScore m r0 g with
        playerScore := (moveBallBeforeScore m r0 g).playerScore + 1 } hGt hGn hGw hGh hms
    obtain ⟨f1, f2, f3, f4, f5, f6, f7⟩ :=
      fire_score_countdown m now' r true g.nextTimerId _ _ g1 k1 k2 hdue
    refine ⟨⟨?_, k3, k1⟩, ?_, ?_, f3, ?_, f5, f6, f7⟩
    · rw [k6]; show (moveBallBeforeScore m r0 g).playerScore + 1 = _; rw [hGp]
    · rw [← k4]; exact f1
    · rw [← k5]; exact f2
    · rw [f4]; simp

/-- On `leftExitGame` (ball one tick from the left boundary, computer leading
4 : 0): the tick at time 5000 gives the computer its fifth point, and the
countdown timer 3 fired at 6000 puts the ball at the centre heading left. -/
theorem reset_after_score_witness :
    (fireTimer ⟨Real.cos, Real.sin, Real.sqrt, Real.pi⟩ 6000 midHandler 3
      (moveBall ⟨Real.cos, Real.sin, Real.sqrt, Real.pi⟩ 5000 midFrame
        (leftExitGame : Game ℝ))).ball.dx = -5 ∧
    (fireTimer ⟨Real.cos, Real.sin, Real.sqrt, Real.pi⟩ 6000 midHandler 3
      (moveBall ⟨Real.cos, Real.sin, Real.sqrt, Real.pi⟩ 5000 midFrame
        (leftExitGame : Game ℝ))).ball.x = 500 := by
  have h := (reset_after_score ⟨Real.cos, Real.sin, Real.sqrt, Real.pi⟩ 5000 6000 midFrame
    midHandler (leftExitGame : Game ℝ) rfl rfl
    (by intro t ht; simp [leftExitGame, runningGame] at ht; subst ht; decide)
    (by norm_num)).1
    (by norm_num [moveBallBeforeScore, moveBallPaddles, moveBallWalls, moveBallMotion,
      leftExitGame, runningGame, midFrame, collides, Ball.toCircle, getCurrentBallRadius])
  refine ⟨h.2.2.2.2.1, ?_⟩
  have := h.2.1
  simp only [leftExitGame, runningGame] at this ⊢
  rw [this]
  norm_num

/-! ### C17: the paddle enlargement -/

/-- C17. In an arena at least 1.5 x the base paddle height high, with the
player paddle within `0 <= y <= H - height`, `applyPickupEffect` on a
`PADDLE_SIZE_INCREASE` pickup, no other pickup of that type being active,
sets `player.height` to 1.5 x the base height, which is 225; the computer
paddle is unchanged; the player paddle keeps `0 <= y <= H - height` (its `y`
is unchanged unless the new height would pass the bottom, in which case it is
`H - 225`); nothing but the player's `height` and `y` changes. -/
theorem paddle_enlarge (r : TrajRand α) (pickup : Pickup α) (g : Game α)
    (hty : pickup.type = .PADDLE_SIZE_INCREASE)
    (hno : ∀ q ∈ g.activePickups, q.type = .PADDLE_SIZE_INCREASE → q.isActive = true →
      q.uid = pickup.uid)
    (hH : originalPaddleHeight * 1.5 ≤ g.canvasHeight)
    (hy0 : 0 ≤ g.player.y) (hy1 : g.player.y ≤ g.canvasHeight - g.player.height) :
    let g' := applyPickupEffect r pickup g
    g'.player.height = originalPaddleHeight * 1.5 ∧ (originalPaddleHeight * 1.5 : α) = 225 ∧
    g'.computer = g.computer ∧
    (0 ≤ g'.player.y ∧ g'.player.y ≤ g'.canvasHeight - g'.player.height) ∧
    (g'.player.y = if g.player.y + 225 > g.canvasHeight then g.canvasHeight - 225
      else g.player.y) ∧
    g' = { g with player := { g.player with height := 225, y := g'.player.y } } := by
  intro g'
  have h225 : (originalPaddleHeight * 1.5 : α) = 225 := by
    norm_num [originalPaddleHeight, PADDLE_HEIGHT]
  have hfind : (g.activePickups.find? (fun p =>
      p.type == .PADDLE_SIZE_INCREASE && p.isActive && p.uid != pickup.uid)).isSome = false := by
    rw [Bool.eq_false_iff]
    intro hs
    rw [List.find?_isSome] at hs
    obtain ⟨q, hq, hc⟩ := hs
    simp only [Bool.and_eq_true, beq_iff_eq, bne_iff_ne, ne_eq] at hc
    exact hc.2 (hno q hq hc.1.1 hc.1.2)
  have hg : g' = { g with player :=
      (if g.player.y + originalPaddleHeight * 1.5 > g.canvasHeight then
        { g.player with height := originalPaddleHeight * 1.5,
                        y := g.canvasHeight - originalPaddleHeight * 1.5 }
      else { g.player with height := originalPaddleHeight * 1.5 }) } := by
    show applyPickupEffect r pickup g = _
    simp only [applyPickupEffect, hty, hfind, Bool.not_false, if_true]
  rw [h225] at hg hH
  by_cases hc : g.player.y + 225 > g.canvasHeight
  · rw [if_pos hc] at hg
    rw [if_pos hc, hg]
    refine ⟨h225.symm, h225, rfl, ⟨?_, ?_⟩, rfl, rfl⟩
    · show (0 : α) ≤ g.canvasHeight - 225
      linarith
    · show g.canvasHeight - 225 ≤ g.canvasHeight - 225
      exact le_refl _
  · rw [if_neg hc] at hg
    rw [if_neg hc, hg]
    refine ⟨h225.symm, h225, rfl, ⟨hy0, ?_⟩, rfl, rfl⟩
    show g.player.y ≤ g.canvasHeight - 225
    linarith [not_lt.mp hc]

/-- On `runningGame` (arena height 600, player at `y = 225`) with the player
paddle moved to `y = 440`: the enlarged paddle is put at `y = 375`. -/
theorem paddle_enlarge_witness :
    (applyPickupEffect (⟨1 / 2, 1 / 2, 1 / 2, 1 / 2⟩ : TrajRand ℚ)
        { (boostPickup : Pickup ℚ) with type := .PADDLE_SIZE_INCREASE }
        { (runningGame : Game ℚ) with player := ⟨50, 440, 25, 150, 0, 0, 0, 0⟩ }).player.height
      = originalPaddleHeight * 1.5 :=
  (paddle_enlarge (⟨1 / 2, 1 / 2, 1 / 2, 1 / 2⟩ : TrajRand ℚ)
    { (boostPickup : Pickup ℚ) with type := .PADDLE_SIZE_INCREASE }
    { (runningGame : Game ℚ) with player := ⟨50, 440, 25, 150, 0, 0, 0, 0⟩ }
    rfl (by intro q hq; simp [runningGame] at hq)
    (by norm_num [originalPaddleHeight, PADDLE_HEIGHT, runningGame])
    (by norm_num) (by norm_num [runningGame])).1

/-! ### C18: the expiry of a pickup -/

theorem filter_setPickup (u : Nat) (f : Pickup α → Pickup α) (ps : List (Pickup α))
    (hf : ∀ q, (f q).uid = q.uid) :
    (setPickup u f ps).filter (fun q => q.uid != u) = ps.filter (fun q => q.uid != u) := by
  induction ps with
  | nil => rfl
  | cons a l ih =>
    simp only [setPickup, List.map_cons] at ih ⊢
    by_cases ha : a.uid = u
    · rw [if_pos ha]
      have h1 : ((f a).uid != u) = false := by rw [hf a, ha]; simp
      have h2 : (a.uid != u) = false := by rw [ha]; simp
      simp only [List.filter_cons, h1, h2, Bool.false_eq_true, if_false]
      exact ih
    · rw [if_neg ha]
      have h2 : (a.uid != u) = true := by simp [ha]
      simp only [List.filter_cons, h2, if_true]
      rw [ih]

/-- C18. For an active pickup `p` of the list (pickup objects pairwise
distinct, every active pickup carrying a timer id), `deactivatePickup(p)`
removes `p` from the list and keeps every other pickup.  If no other active
pickup of `p`'s type remains: for `PADDLE_SIZE_INCREASE` the player height is
the base height again and, in an arena at least that high, the player paddle
has `0 <= y <= H - height`, the ball and the computer paddle being unchanged;
for every other type the ball and both paddles are unchanged.  If another
active pickup of the type remains, the player paddle (its height included),
the computer paddle and the ball are unchanged. -/
theorem expiry_reverts (p : Pickup α) (g : Game α)
    (hmem : p ∈ g.activePickups) (hact : p.isActive = true)
    (hnodup : (g.activePickups.map Pickup.uid).Nodup)
    (htid : ∀ q ∈ g.activePickups, q.isActive = true → q.timeoutId.isSome = true) :
    let g' := deactivatePickup p.uid p.type g
    let other : Prop := ∃ q ∈ g.activePickups, q.type = p.type ∧ q.isActive = true ∧ q.uid ≠ p.uid
    (g'.activePickups = g.activePickups.filter (fun q => q.uid != p.uid) ∧
      p ∉ g'.activePickups ∧ (∀ q ∈ g'.activePickups, q.uid ≠ p.uid) ∧
      ∀ q ∈ g.activePickups, q ≠ p → q ∈ g'.activePickups) ∧
    (¬ other → p.type = .PADDLE_SIZE_INCREASE →
      g'.player.height = originalPaddleHeight ∧
      (originalPaddleHeight ≤ g.canvasHeight →
        0 ≤ g'.player.y ∧ g'.player.y ≤ g'.canvasHeight - g'.player.height) ∧
      g'.ball = g.ball ∧ g'.computer = g.computer) ∧
    (¬ other → p.type ≠ .PADDLE_SIZE_INCREASE →
      g'.ball = g.ball ∧ g'.player = g.player ∧ g'.computer = g.computer) ∧
    (other → g'.ball = g.ball ∧ g'.player = g.player ∧ g'.computer = g.computer) := by
  intro g' other
  obtain ⟨pl, hfr⟩ := deactivatePickup_frame p.uid p.type g
  have hg' : g' = _ := hfr
  have hlist : g'.activePickups = g.activePickups.filter (fun q => q.uid != p.uid) := by
    rw [hg']
    exact filter_setPickup _ _ _ (fun _ => rfl)
  have hball : g'.ball = g.ball := by rw [hg']
  have hcomp : g'.computer = g.computer := by rw [hg']
  have hH : g'.canvasHeight = g.canvasHeight := by rw [hg']
  have hfind : (g.activePickups.find? (fun q =>
      q.type == p.type && q.isActive && q.uid != p.uid && q.timeoutId.isSome)).isSome = true
      ↔ other := by
    rw [List.find?_isSome]
    constructor
    · rintro ⟨q, hq, hc⟩
      simp only [Bool.and_eq_true, beq_iff_eq, bne_iff_ne, ne_eq] at hc
      exact ⟨q, hq, hc.1.1.1, hc.1.1.2, hc.1.2⟩
    · rintro ⟨q, hq, h1, h2, h3⟩
      refine ⟨q, hq, ?_⟩
      simp only [Bool.and_eq_true, beq_iff_eq, bne_iff_ne, ne_eq]
      exact ⟨⟨⟨h1, h2⟩, h3⟩, htid q hq h2⟩
  refine ⟨⟨hlist, ?_, ?_, ?_⟩, ?_, ?_, ?_⟩
  · rw [hlist, List.mem_filter]
    rintro ⟨-, h⟩
    simp at h
  · intro q hq
    rw [hlist, List.mem_filter] at hq
    simpa using hq.2
  · intro q hq hne
    rw [hlist, List.mem_filter]
    refine ⟨hq, ?_⟩
    simp only [bne_iff_ne, ne_eq]
    intro hu
    exact hne (List.inj_on_of_nodup_map hnodup hq hmem hu)
  · intro hno hty
    have hf : (g.activePickups.find? (fun q =>
        q.type == p.type && q.isActive && q.uid != p.uid && q.timeoutId.isSome)).isSome = false := by
      rw [Bool.eq_false_iff]; exact fun h => hno (hfind.mp h)
    have hpl : g'.player = (let p1 : Paddle α := { g.player with height := originalPaddleHeight }
        let p2 : Paddle α :=
          if p1.y + p1.height > g.canvasHeight then { p1 with y := g.canvasHeight - p1.height }
          else p1
        if p2.y < 0 then { p2 with y := 0 } else p2) := by
      show (deactivatePickup p.uid p.type g).player = _
      unfold deactivatePickup
      rw [hty] at hf ⊢
      simp only [hf, Bool.not_false, if_true]
    dsimp only at hpl
    refine ⟨?_, ?_, hball, hcomp⟩
    · rw [hpl]; split_ifs <;> rfl
    · intro hbase
      rw [hH, hpl]
      split_ifs with h1 h2 h2
      · exact ⟨le_refl _, by show (0 : α) ≤ g.canvasHeight - originalPaddleHeight; linarith⟩
      · refine ⟨?_, le_refl _⟩
        exact not_lt.mp h2
      · exact ⟨le_refl _, by show (0 : α) ≤ g.canvasHeight - originalPaddleHeight; linarith⟩
      · refine ⟨not_lt.mp h2, ?_⟩
        show g.player.y ≤ g.canvasHeight - originalPaddleHeight
        have := not_lt.mp h1
        show g.player.y ≤ g.canvasHeight - originalPaddleHeight
        linarith [show g.player.y + originalPaddleHeight ≤ g.canvasHeight from this]
  · intro hno hty
    have hf : (g.activePickups.find? (fun q =>
        q.type == p.type && q.isActive && q.uid != p.uid && q.timeoutId.isSome)).isSome = false := by
      rw [Bool.eq_false_iff]; exact fun h => hno (hfind.mp h)
    have hpl : g'.player = g.player := by
      show (deactivatePickup p.uid p.type g).player = _
      simp only [deactivatePickup, hf, Bool.not_false, if_true]
    exact ⟨hball, hpl, hcomp⟩
  · intro ho
    have hf := hfind.mpr ho
    have hpl : g'.player = g.player := by
      show (deactivatePickup p.uid p.type g).player = _
      simp only [deactivatePickup, hf, Bool.not_true, Bool.false_eq_true, if_false]
    exact ⟨hball, hpl, hcomp⟩

/-- On `boostedGame` (one active speed boost): its expiry empties the list
and leaves the ball and both paddles unchanged. -/
theorem expiry_reverts_witness :
    (deactivatePickup 0 .SPEED_BOOST (boostedGame : Game ℚ)).activePickups = [] ∧
    (deactivatePickup 0 .SPEED_BOOST (boostedGame : Game ℚ)).player =
      (boostedGame : Game ℚ).player := by
  have h := expiry_reverts (boostPickup : Pickup ℚ) boostedGame
    (by simp [boostedGame]) rfl (by simp [boostedGame])
    (by intro q hq; simp [boostedGame] at hq; subst hq; intro _; rfl)
  have hno : ¬ ∃ q ∈ (boostedGame : Game ℚ).activePickups,
      q.type = (boostPickup : Pickup ℚ).type ∧ q.isActive = true ∧
        q.uid ≠ (boostPickup : Pickup ℚ).uid := by
    rintro ⟨q, hq, -, -, hne⟩
    simp [boostedGame] at hq
    exact hne (by rw [hq])
  refine ⟨?_, (h.2.2.1 hno (by simp [boostPickup])).2.1⟩
  have h1 := h.1.1
  simp only [boostPickup] at h1
  rw [h1]
  simp [boostedGame, boostPickup]


/-! ### C15: a spawn attempt -/

/-- C15 (counterexample).  On the 120 x 600 arena (a window 150 wide) the
spawn attempt with all draws 0, made when the countdown of `startGame`
completes, appends a pickup at `x = 60`, which is not below
`0.75 * 120 - 30 = 60`: the spawn zone of an arena exactly 120 wide is the
single abscissa 60.  The same pickup is in the list of the state reached from
the initial state by `cornerSpawnEvents`. -/
theorem spawn_on_zone_edge :
    (120 ≤ (slimGame : Game ℝ).canvasWidth ∧ 120 ≤ (slimGame : Game ℝ).canvasHeight) ∧
    (spawnPickup ⟨Real.cos, Real.sin, Real.sqrt, Real.pi⟩ cornerSpawn
      (slimGame : Game ℝ)).activePickups =
      [⟨0, 60, 180, 30, .SPEED_BOOST, false, true, none, none, none, none⟩] ∧
    (∀ p ∈ (spawnPickup ⟨Real.cos, Real.sin, Real.sqrt, Real.pi⟩ cornerSpawn
        (slimGame : Game ℝ)).activePickups,
      p.isSpawned = true ∧ ¬ (p.x < (slimGame : Game ℝ).canvasWidth * 0.75 - 30)) ∧
    (run ⟨Real.cos, Real.sin, Real.sqrt, Real.pi⟩ (initialState (slimPage : Page ℝ))
      cornerSpawnEvents).activePickups =
      [⟨0, 60, 180, 30, .SPEED_BOOST, false, true, none, none, none, none⟩] ∧
    (run ⟨Real.cos, Real.sin, Real.sqrt, Real.pi⟩ (initialState (slimPage : Page ℝ))
      cornerSpawnEvents).canvasWidth = 120 := by
  have hl : (spawnPickup ⟨Real.cos, Real.sin, Real.sqrt, Real.pi⟩ cornerSpawn
      (slimGame : Game ℝ)).activePickups =
      [⟨0, 60, 180, 30, .SPEED_BOOST, false, true, none, none, none, none⟩] := by
    norm_num [spawnPickup, slimGame, runningGame, cornerSpawn, collidesWithAnyPaddle, collides,
      distance, PICKUP_RADIUS, PICKUP_KEYS, Real.sqrt_lt' (show (0:ℝ) < 95 by norm_num)]
  refine ⟨⟨?_, ?_⟩, hl, ?_, ?_, ?_⟩
  · norm_num [slimGame, runningGame]
  · norm_num [slimGame, runningGame]
  · intro p hp
    rw [hl, List.mem_singleton] at hp
    subst hp
    norm_num [slimGame, runningGame]
  · simp only [run, cornerSpawnEvents, List.foldl, step]
    norm_num [initialState, slimPage, fullPage, resizeCanvas, declaredState, updateScore,
      PADDLE_HEIGHT, PADDLE_WIDTH, BALL_RADIUS, startGame, startCountdown, setInterval,
      Button.clickable, fireTimer, countdownTick, clearTimer, runCountdownCallback, resetBall,
      startPickupSpawner, spawnPickup, cornerSpawn, collidesWithAnyPaddle, collides, distance,
      PICKUP_RADIUS, PICKUP_SPAWN_INTERVAL, PICKUP_KEYS,
      Real.sqrt_lt' (show (0:ℝ) < 95 by norm_num)]
  · simp only [run, cornerSpawnEvents, List.foldl, step]
    norm_num [initialState, slimPage, fullPage, resizeCanvas, declaredState, updateScore,
      PADDLE_HEIGHT, PADDLE_WIDTH, BALL_RADIUS, startGame, startCountdown, setInterval,
      Button.clickable, fireTimer, countdownTick, clearTimer, runCountdownCallback, resetBall,
      startPickupSpawner, spawnPickup, cornerSpawn, collidesWithAnyPaddle, collides, distance,
      PICKUP_RADIUS, PICKUP_SPAWN_INTERVAL, PICKUP_KEYS,
      Real.sqrt_lt' (show (0:ℝ) < 95 by norm_num)]

/-- C15 (amended).  In an arena at least 120 wide and high, with draws in
`[0, 1)`, `spawnPickup` leaves the whole state unchanged when the game is
paused, or the candidate collides with either paddle, or its distance to the
ball is less than `ball.radius + 30 + 50`; otherwise it appends exactly one
pickup, spawned and not active, of radius 30, at the candidate position.  The
pickup list is unchanged exactly in the first case.  The candidate position
satisfies `0.25 W + 30 <= x <= 0.75 W - 30` and
`0.25 H + 30 <= y <= 0.75 H - 30`, both upper bounds included. -/
theorem spawn_postcondition [FloorRing α] (m : MathLib α) (r : SpawnRand α) (g : Game α)
    (hW : 120 ≤ g.canvasWidth) (hH : 120 ≤ g.canvasHeight)
    (hx : 0 ≤ r.x ∧ r.x < 1) (hy : 0 ≤ r.y ∧ r.y < 1) :
    let x := r.x * (g.canvasWidth * 0.5 - PICKUP_RADIUS * 2) + g.canvasWidth * 0.25 + PICKUP_RADIUS
    let y := r.y * (g.canvasHeight * 0.5 - PICKUP_RADIUS * 2) + g.canvasHeight * 0.25 + PICKUP_RADIUS
    let dropped : Prop := g.gamePaused = true ∨
      collides ⟨x, y, PICKUP_RADIUS⟩ g.player = true ∨
      collides ⟨x, y, PICKUP_RADIUS⟩ g.computer = true ∨
      distance m x y g.ball.x g.ball.y < g.ball.radius + 30 + 50
    (dropped → spawnPickup m r g = g) ∧
    (¬ dropped → ∃ p : Pickup α,
      spawnPickup m r g =
        { g with activePickups := g.activePickups ++ [p], nextUid := g.nextUid + 1 } ∧
      p.isSpawned = true ∧ p.isActive = false ∧ p.radius = 30 ∧ p.x = x ∧ p.y = y) ∧
    ((spawnPickup m r g).activePickups = g.activePickups ↔ dropped) ∧
    (g.canvasWidth * 0.25 + 30 ≤ x ∧ x ≤ g.canvasWidth * 0.75 - 30) ∧
    (g.canvasHeight * 0.25 + 30 ≤ y ∧ y ≤ g.canvasHeight * 0.75 - 30) := by
  intro x y dropped
  have hdrop : dropped → spawnPickup m r g = g := by
    intro hd
    unfold spawnPickup
    by_cases hp : g.gamePaused = true
    · rw [if_pos hp]
    · rw [if_neg hp]
      have hcond : (collidesWithAnyPaddle g
            { uid := g.nextUid, x := x, y := y, radius := PICKUP_RADIUS,
              type := PICKUP_KEYS.getD (Nat.floor (r.type * (PICKUP_KEYS.length : α)))
                .SPEED_BOOST,
              isActive := false, isSpawned := true, timeoutId := none, durationEndTime := none,
              remainingTime := none, deactivateTimeout := none } ||
          decide (distance m x y g.ball.x g.ball.y < g.ball.radius + PICKUP_RADIUS + 50))
            = true := by
        rcases hd with h | h | h | h
        · exact absurd h hp
        · simp [collidesWithAnyPaddle, h]
        · simp [collidesWithAnyPaddle, h]
        · have : (30 : α) = PICKUP_RADIUS := rfl
          rw [this] at h
          simp [h]
      exact if_pos hcond
  have hkeep : ¬ dropped → ∃ p : Pickup α,
      spawnPickup m r g =
        { g with activePickups := g.activePickups ++ [p], nextUid := g.nextUid + 1 } ∧
      p.isSpawned = true ∧ p.isActive = false ∧ p.radius = 30 ∧ p.x = x ∧ p.y = y := by
    intro hd
    have hp : ¬ g.gamePaused = true := fun h => hd (Or.inl h)
    have h1 : ¬ collides ⟨x, y, PICKUP_RADIUS⟩ g.player = true := fun h => hd (Or.inr (Or.inl h))
    have h2 : ¬ collides ⟨x, y, PICKUP_RADIUS⟩ g.computer = true :=
      fun h => hd (Or.inr (Or.inr (Or.inl h)))
    have h3 : ¬ distance m x y g.ball.x g.ball.y < g.ball.radius + PICKUP_RADIUS + 50 :=
      fun h => hd (Or.inr (Or.inr (Or.inr h)))
    refine ⟨{ uid := g.nextUid, x := x, y := y, radius := PICKUP_RADIUS,
              type := PICKUP_KEYS.getD (Nat.floor (r.type * (PICKUP_KEYS.length : α)))
                .SPEED_BOOST,
              isActive := false, isSpawned := true, timeoutId := none, durationEndTime := none,
              remainingTime := none, deactivateTimeout := none }, ?_, rfl, rfl, rfl, rfl, rfl⟩
    unfold spawnPickup
    rw [if_neg hp]
    have hcond : ¬ (collidesWithAnyPaddle g
            { uid := g.nextUid, x := x, y := y, radius := PICKUP_RADIUS,
              type := PICKUP_KEYS.getD (Nat.floor (r.type * (PICKUP_KEYS.length : α)))
                .SPEED_BOOST,
              isActive := false, isSpawned := true, timeoutId := none, durationEndTime := none,
              remainingTime := none, deactivateTimeout := none } ||
          decide (distance m x y g.ball.x g.ball.y < g.ball.radius + PICKUP_RADIUS + 50))
            = true := by
      simp [collidesWithAnyPaddle, h1, h2, h3]
    exact if_neg hcond
  have hz : ∀ (t W : α), 0 ≤ t → t < 1 → 120 ≤ W →
      W * 0.25 + 30 ≤ t * (W * 0.5 - PICKUP_RADIUS * 2) + W * 0.25 + PICKUP_RADIUS ∧
      t * (W * 0.5 - PICKUP_RADIUS * 2) + W * 0.25 + PICKUP_RADIUS ≤ W * 0.75 - 30 := by
    intro t W h0 h1 hW
    have hR : (PICKUP_RADIUS : α) = 30 := rfl
    rw [hR]
    have hz0 : (0 : α) ≤ W * 0.5 - 30 * 2 := by norm_num; linarith
    have hm : t * (W * 0.5 - 30 * 2) ≤ W * 0.5 - 30 * 2 := by
      calc t * (W * 0.5 - 30 * 2) ≤ 1 * (W * 0.5 - 30 * 2) :=
            mul_le_mul_of_nonneg_right (le_of_lt h1) hz0
        _ = W * 0.5 - 30 * 2 := one_mul _
    refine ⟨?_, ?_⟩
    · have := mul_nonneg h0 hz0
      linarith
    · norm_num at hm ⊢; linarith
  refine ⟨hdrop, hkeep, ?_, hz r.x g.canvasWidth hx.1 hx.2 hW, hz r.y g.canvasHeight hy.1 hy.2 hH⟩
  constructor
  · intro hsame
    by_contra hd
    obtain ⟨p, hp, -⟩ := hkeep hd
    rw [hp] at hsame
    have := congrArg List.length hsame
    simp at this
  · intro hd
    rw [hdrop hd]

/-- On `runningGame` (arena 1000 x 600, ball at the centre) the attempt with
all draws 0 appends one pickup, at the corner (280, 180) of the spawn zone. -/
theorem spawn_postcondition_witness :
    ∃ p : Pickup ℝ,
      (spawnPickup ⟨Real.cos, Real.sin, Real.sqrt, Real.pi⟩ cornerSpawn
        (runningGame : Game ℝ)).activePickups = [p] ∧ p.x = 280 ∧ p.y = 180 := by
  obtain ⟨p, hp, -, -, -, hx, hy⟩ :=
    (spawn_postcondition ⟨Real.cos, Real.sin, Real.sqrt, Real.pi⟩ cornerSpawn
      (runningGame : Game ℝ) (by norm_num [runningGame]) (by norm_num [runningGame])
      (by norm_num [cornerSpawn]) (by norm_num [cornerSpawn])).2.1
      (by norm_num [runningGame, cornerSpawn, collides, distance, PICKUP_RADIUS,
        Real.sqrt_lt' (show (0:ℝ) < 95 by norm_num)])
  refine ⟨p, ?_, ?_, ?_⟩
  · rw [hp]; rfl
  · rw [hx]; norm_num [runningGame, cornerSpawn, PICKUP_RADIUS]
  · rw [hy]; norm_num [runningGame, cornerSpawn, PICKUP_RADIUS]

/-! ### C12: the pause toggle outside the running and paused phases -/

/-- C12 (the code departs from the claim).  `togglePauseGame` returns at once
only when the game was never started: in the idle phase it changes nothing.
It has no countdown or game-over guard.  The state reached from the initial
state by a click on the start button is counting down (`countdownActive`,
`gamePaused` set by `startCountdown`); there the `Space` key, and likewise a
click on the pause button, runs the resume branch: `gamePaused` becomes
false, the spawn interval 2 is armed and, with the draws `cornerSpawn`, a
pickup is spawned.  On `overGame` (game over) the `Space` key runs the pause
branch and sets `gamePaused`; only the pause button is disabled there. -/
theorem toggle_outside_running :
    (∀ (g : Game ℝ) (now : ℝ) (r : SpawnRand ℝ), g.gameStartedOnce = false →
      togglePauseGame ⟨Real.cos, Real.sin, Real.sqrt, Real.pi⟩ now r g = g) ∧
    Reachable ⟨Real.cos, Real.sin, Real.sqrt, Real.pi⟩ (fullPage : Page ℝ)
      (run ⟨Real.cos, Real.sin, Real.sqrt, Real.pi⟩ (initialState (fullPage : Page ℝ))
        startClickEvents) ∧
    ((run ⟨Real.cos, Real.sin, Real.sqrt, Real.pi⟩ (initialState (fullPage : Page ℝ))
        startClickEvents).countdownActive = true ∧
      (run ⟨Real.cos, Real.sin, Real.sqrt, Real.pi⟩ (initialState (fullPage : Page ℝ))
        startClickEvents).gamePaused = true ∧
      (run ⟨Real.cos, Real.sin, Real.sqrt, Real.pi⟩ (initialState (fullPage : Page ℝ))
        startClickEvents).pickupSpawnTimer = none ∧
      (run ⟨Real.cos, Real.sin, Real.sqrt, Real.pi⟩ (initialState (fullPage : Page ℝ))
        startClickEvents).activePickups = []) ∧
    ((step ⟨Real.cos, Real.sin, Real.sqrt, Real.pi⟩
        (run ⟨Real.cos, Real.sin, Real.sqrt, Real.pi⟩ (initialState (fullPage : Page ℝ))
          startClickEvents) (.keydown 500 cornerSpawn .Space)).gamePaused = false ∧
      (step ⟨Real.cos, Real.sin, Real.sqrt, Real.pi⟩
        (run ⟨Real.cos, Real.sin, Real.sqrt, Real.pi⟩ (initialState (fullPage : Page ℝ))
          startClickEvents) (.keydown 500 cornerSpawn .Space)).pickupSpawnTimer = some 2 ∧
      (step ⟨Real.cos, Real.sin, Real.sqrt, Real.pi⟩
        (run ⟨Real.cos, Real.sin, Real.sqrt, Real.pi⟩ (initialState (fullPage : Page ℝ))
          startClickEvents) (.keydown 500 cornerSpawn .Space)).activePickups =
        [⟨0, 280, 180, 30, .SPEED_BOOST, false, true, none, none, none, none⟩]) ∧
    (step ⟨Real.cos, Real.sin, Real.sqrt, Real.pi⟩
      (run ⟨Real.cos, Real.sin, Real.sqrt, Real.pi⟩ (initialState (fullPage : Page ℝ))
        startClickEvents) (.pauseClick 500 cornerSpawn)).gamePaused = false ∧
    ((overGame : Game ℝ).gameOver = true ∧ (overGame : Game ℝ).gamePaused = false ∧
      (step ⟨Real.cos, Real.sin, Real.sqrt, Real.pi⟩ (overGame : Game ℝ)
        (.keydown 7000 cornerSpawn .Space)).gamePaused = true ∧
      step ⟨Real.cos, Real.sin, Real.sqrt, Real.pi⟩ (overGame : Game ℝ)
        (.pauseClick 7000 cornerSpawn) = overGame) := by
  have hS : run ⟨Real.cos, Real.sin, Real.sqrt, Real.pi⟩ (initialState (fullPage : Page ℝ))
      startClickEvents =
      { (initialState (fullPage : Page ℝ)) with
        gameStartedOnce := true
        gamePaused := true
        countdownActive := true
        countdownTime := 1
        startButton := ⟨false, false⟩
        pauseButton := ⟨true, false⟩
        restartButton := ⟨true, false⟩
        timers := [⟨1, 1000, 1000, true, .countdownTick .afterStart⟩]
        nextTimerId := 2 } := by
    simp only [run, startClickEvents, List.foldl, step]
    norm_num [initialState, fullPage, resizeCanvas, declaredState, updateScore, PADDLE_HEIGHT,
      PADDLE_WIDTH, BALL_RADIUS, startGame, startCountdown, setInterval, Button.clickable]
  refine ⟨?_, reachable_run _ _ _ _ Reachable.init, ?_, ?_, ?_, ?_⟩
  · intro g now r h
    simp [togglePauseGame, h]
  · rw [hS]
    exact ⟨rfl, rfl, by norm_num [initialState, fullPage, resizeCanvas, declaredState, updateScore],
      by norm_num [initialState, fullPage, resizeCanvas, declaredState, updateScore]⟩
  · rw [hS]
    simp only [step]
    norm_num [initialState, fullPage, resizeCanvas, declaredState, updateScore, PADDLE_HEIGHT,
      PADDLE_WIDTH, BALL_RADIUS, keydown, Keys.set, togglePauseGame, startPickupSpawner,
      clearTimer, spawnPickup, cornerSpawn, collidesWithAnyPaddle, collides, distance,
      setInterval, resumePickupTimers, PICKUP_RADIUS, PICKUP_SPAWN_INTERVAL, PICKUP_KEYS,
      Real.sqrt_lt' (show (0:ℝ) < 95 by norm_num)]
  · rw [hS]
    simp only [step]
    norm_num [initialState, fullPage, resizeCanvas, declaredState, updateScore, PADDLE_HEIGHT,
      PADDLE_WIDTH, BALL_RADIUS, Button.clickable, togglePauseGame, startPickupSpawner,
      clearTimer, spawnPickup, cornerSpawn, collidesWithAnyPaddle, collides, distance,
      setInterval, resumePickupTimers, PICKUP_RADIUS, PICKUP_SPAWN_INTERVAL, PICKUP_KEYS,
      Real.sqrt_lt' (show (0:ℝ) < 95 by norm_num)]
  · refine ⟨rfl, rfl, ?_, ?_⟩
    · simp only [step]
      norm_num [overGame, runningGame, keydown, Keys.set, togglePauseGame, clearTimer,
        pausePickupTimers]
    · simp only [step]
      norm_num [overGame, runningGame, Button.clickable]

/-! ### C19: restart and the expiry timers -/

set_option maxRecDepth 100000 in
set_option maxHeartbeats 4000000 in
/-- The pickups, the timers and the phase after the run `collectEvents`. -/
theorem run_collectEvents :
    (run ⟨Real.cos, Real.sin, Real.sqrt, Real.pi⟩ (initialState (narrowPage : Page ℝ))
      collectEvents).activePickups =
      [⟨0, 130, 370, 30, .SPEED_BOOST, true, false, some 3, some 6128, none, none⟩] ∧
    (run ⟨Real.cos, Real.sin, Real.sqrt, Real.pi⟩ (initialState (narrowPage : Page ℝ))
      collectEvents).timers =
      [⟨2, 21000, 20000, true, .spawnPickup⟩,
       ⟨3, 6128, 5000, false, .deactivatePickup 0 .SPEED_BOOST⟩] ∧
    (run ⟨Real.cos, Real.sin, Real.sqrt, Real.pi⟩ (initialState (narrowPage : Page ℝ))
      collectEvents).pickupSpawnTimer = some 2 ∧
    (run ⟨Real.cos, Real.sin, Real.sqrt, Real.pi⟩ (initialState (narrowPage : Page ℝ))
      collectEvents).nextTimerId = 4 ∧
    (run ⟨Real.cos, Real.sin, Real.sqrt, Real.pi⟩ (initialState (narrowPage : Page ℝ))
      collectEvents).gamePaused = false ∧
    (run ⟨Real.cos, Real.sin, Real.sqrt, Real.pi⟩ (initialState (narrowPage : Page ℝ))
      collectEvents).countdownActive = false ∧
    (run ⟨Real.cos, Real.sin, Real.sqrt, Real.pi⟩ (initialState (narrowPage : Page ℝ))
      collectEvents).gameOver = false := by
  simp only [run, collectEvents, framesFrom, List.foldl, step, List.cons_append,
    List.nil_append, List.append_assoc]
  norm_num [initialState, narrowPage, fullPage, resizeCanvas, declaredState, updateScore,
    PADDLE_HEIGHT, PADDLE_WIDTH, BALL_RADIUS, startGame, startCountdown, setInterval, setTimeout,
    Button.clickable, fireTimer, countdownTick, clearTimer, runCountdownCallback, resetBall,
    startPickupSpawner, spawnPickup, boostSpawn, collidesWithAnyPaddle,
    collides, distance, PICKUP_RADIUS, PICKUP_SPAWN_INTERVAL, PICKUP_DURATION, PICKUP_KEYS,
    enhancedGameLoop, update, updatePlayerPaddle,
    updatePlayerPaddleVertical, moveComputerPaddle, moveBall, moveBallBeforeScore, moveBallMotion,
    moveBallWalls, moveBallPaddles, moveBallScore, moveBallHistory, updatePickups,
    updatePickupsLoop, getCurrentBallRadius, Ball.toCircle, midFrame,
    PADDLE_SPEED, COMPUTER_PADDLE_SPEED, MAX_TRAIL_LENGTH,
    activatePickup, applyPickupEffect, setPickup,
    Real.sqrt_lt' (show (0:ℝ) < 45 by norm_num), Real.sqrt_lt' (show (0:ℝ) < 95 by norm_num),
    (by decide : PickupType.SPEED_BOOST ≠ PickupType.BALL_SIZE_INCREASE),
    (by decide : PickupType.SPEED_BOOST ≠ PickupType.DRUNKEN_BALL)]

/-- The `forEach` of `restartGame` cancels no timer when no pickup has the
`deactivateTimeout` property. -/
theorem restartClearPickups_timers (ps : List (Pickup α)) (g : Game α)
    (hun : ∀ q ∈ ps, q.deactivateTimeout = none) :
    (restartClearPickups ps g).timers = g.timers := by
  induction ps generalizing g with
  | nil => rfl
  | cons p ps ih =>
    have hp : p.deactivateTimeout = none := hun p (List.mem_cons_self _ _)
    simp only [restartClearPickups, hp, Option.isSome_none, Bool.false_eq_true, if_false]
    rw [ih _ (fun q hq => hun q (List.mem_cons_of_mem _ hq))]
    split_ifs <;> rfl

/-- The timers pending after `restartGame`, run when no countdown is active
and no pickup has the `deactivateTimeout` property: those pending before,
without the spawn interval, and the new countdown interval. -/
theorem restartGame_timers (now : α) (g : Game α) (hc : g.countdownActive = false)
    (hun : ∀ q ∈ g.activePickups, q.deactivateTimeout = none) :
    (restartGame now g).timers =
      (clearTimer g.pickupSpawnTimer g).timers ++
        [⟨g.nextTimerId, now + 1000, 1000, true, .countdownTick .afterRestart⟩] := by
  obtain ⟨ts, -, hfr⟩ := restartClearPickups_frame g.activePickups
    { g with playerScore := 0, computerScore := 0, gameOver := false, winner := none,
             gamePaused := true, gameStartedOnce := true, mouseControlActive := false }
  have ht := restartClearPickups_timers g.activePickups
    { g with playerScore := 0, computerScore := 0, gameOver := false, winner := none,
             gamePaused := true, gameStartedOnce := true, mouseControlActive := false } hun
  rw [hfr] at ht
  have hts : ts = g.timers := ht
  subst hts
  have hc' : ¬ g.countdownActive = true := by simp [hc]
  simp only [restartGame, if_neg hc', clearTimer_guard]
  rw [hfr]
  rw [updateScore_of_lt _ (by show (0 : Nat) < 5; decide) (by show (0 : Nat) < 5; decide)]
  rfl

/-- C19 (the code departs from the claim).  On the 400 x 600 arena the run
`collectEvents` reaches, from the initial state, a running state whose one
pickup, the speed boost (object 0), is active with its expiry timer 3 pending
(due at 6128).  `restartGame` at time 1130 empties the pickup list and
cancels the spawn interval 2, but the expiry timer 3 is still pending: the
loop of `restartGame` clears `p.deactivateTimeout`, a property that is never
set, while the timer id is kept in `p.timeoutId`.  Fired at 6128, the stale
timer runs `deactivatePickup` against the restarted game. -/
theorem restart_keeps_expiry_timer :
    Reachable ⟨Real.cos, Real.sin, Real.sqrt, Real.pi⟩ (narrowPage : Page ℝ)
      (run ⟨Real.cos, Real.sin, Real.sqrt, Real.pi⟩ (initialState (narrowPage : Page ℝ))
        collectEvents) ∧
    ((run ⟨Real.cos, Real.sin, Real.sqrt, Real.pi⟩ (initialState (narrowPage : Page ℝ))
        collectEvents).gamePaused = false ∧
      (run ⟨Real.cos, Real.sin, Real.sqrt, Real.pi⟩ (initialState (narrowPage : Page ℝ))
        collectEvents).countdownActive = false ∧
      (run ⟨Real.cos, Real.sin, Real.sqrt, Real.pi⟩ (initialState (narrowPage : Page ℝ))
        collectEvents).gameOver = false) ∧
    ((run ⟨Real.cos, Real.sin, Real.sqrt, Real.pi⟩ (initialState (narrowPage : Page ℝ))
        collectEvents).activePickups.map (fun p => (p.uid, p.isActive, p.timeoutId)) =
        [(0, true, some 3)] ∧
      expiryTimersOf 0 (run ⟨Real.cos, Real.sin, Real.sqrt, Real.pi⟩
        (initialState (narrowPage : Page ℝ)) collectEvents).timers =
        [⟨3, 6128, 5000, false, .deactivatePickup 0 .SPEED_BOOST⟩]) ∧
    ((restartGame 1130 (run ⟨Real.cos, Real.sin, Real.sqrt, Real.pi⟩
        (initialState (narrowPage : Page ℝ)) collectEvents)).activePickups = [] ∧
      (restartGame 1130 (run ⟨Real.cos, Real.sin, Real.sqrt, Real.pi⟩
        (initialState (narrowPage : Page ℝ)) collectEvents)).timers =
        [⟨3, 6128, 5000, false, .deactivatePickup 0 .SPEED_BOOST⟩,
         ⟨4, 2130, 1000, true, .countdownTick .afterRestart⟩]) := by
  obtain ⟨hp, ht, hs, hn, h1, h2, h3⟩ := run_collectEvents
  refine ⟨reachable_run _ _ _ _ Reachable.init, ⟨h1, h2, h3⟩, ⟨?_, ?_⟩, ?_⟩
  · rw [hp]; rfl
  · rw [ht]; simp [expiryTimersOf, Timer.expires]
  · obtain ⟨ts, -, hfr⟩ := restartGame_frame (1130 : ℝ) _ h2
    constructor
    · rw [hfr]
    · rw [restartGame_timers _ _ h2 (by rw [hp]; intro q hq; simp at hq; subst hq; rfl)]
      have hn : (run ⟨Real.cos, Real.sin, Real.sqrt, Real.pi⟩
          (initialState (narrowPage : Page ℝ)) collectEvents).nextTimerId = 4 := hn
      simp only [clearTimer, hs, ht, hn]
      norm_num

/-! ### C20: the spawner on resume -/

/-- The `forEach` of the resume branch cancels no timer. -/
theorem resumePickupTimers_keeps (now : α) (ps : List (Pickup α)) (ts : List (Timer α))
    (n : Nat) : ∀ t ∈ ts, t ∈ (resumePickupTimers now ps ts n).2.1 := by
  induction ps generalizing ts n with
  | nil => intro t ht; exact ht
  | cons p ps ih =>
    intro t ht
    unfold resumePickupTimers
    split
    · split_ifs
      · exact ih _ _ t (List.mem_append_left _ ht)
      · exact ih _ _ t ht
    · exact ih _ _ t ht

/-- `startPickupSpawner(true)` with the spawn timer variable set: the old
interval is cleared and a new one armed; `spawnPickup` is not called. -/
theorem startPickupSpawner_resume_set [FloorRing α] (m : MathLib α) (now : α) (r : SpawnRand α)
    (G : Game α) (i : Nat) (h : G.pickupSpawnTimer = some i) :
    startPickupSpawner m now r true G =
      { (setInterval now PICKUP_SPAWN_INTERVAL .spawnPickup (clearTimer (some i) G)).1 with
        pickupSpawnTimer := some G.nextTimerId } := by
  simp [startPickupSpawner, h, clearTimer, setInterval]

/-- `startPickupSpawner(true)` with the spawn timer variable never set is
`startPickupSpawner(false)`. -/
theorem startPickupSpawner_resume_unset [FloorRing α] (m : MathLib α) (now : α)
    (r : SpawnRand α) (G : Game α) (h : G.pickupSpawnTimer = none) :
    startPickupSpawner m now r true G = startPickupSpawner m now r false G := by
  simp [startPickupSpawner, h, clearTimer]

/-- C20 (counterexample).  `runningGame` is reachable; paused at time 2000
and resumed at 3000 with the draws `cornerSpawn`, it has an empty pickup list
and the new spawn interval 3 (first due at 23000): no spawn attempt was made.
An attempt with these draws, as `startPickupSpawner` makes at a normal start,
appends a pickup at (280, 180). -/
theorem resume_without_spawn :
    Reachable ⟨Real.cos, Real.sin, Real.sqrt, Real.pi⟩ (fullPage : Page ℝ) runningGame ∧
    (togglePauseGame ⟨Real.cos, Real.sin, Real.sqrt, Real.pi⟩ 2000 midSpawn
      (runningGame : Game ℝ)).gamePaused = true ∧
    (togglePauseGame ⟨Real.cos, Real.sin, Real.sqrt, Real.pi⟩ 3000 cornerSpawn
      (togglePauseGame ⟨Real.cos, Real.sin, Real.sqrt, Real.pi⟩ 2000 midSpawn
        (runningGame : Game ℝ))).activePickups = [] ∧
    (togglePauseGame ⟨Real.cos, Real.sin, Real.sqrt, Real.pi⟩ 3000 cornerSpawn
      (togglePauseGame ⟨Real.cos, Real.sin, Real.sqrt, Real.pi⟩ 2000 midSpawn
        (runningGame : Game ℝ))).timers = [⟨3, 23000, 20000, true, .spawnPickup⟩] ∧
    (startPickupSpawner ⟨Real.cos, Real.sin, Real.sqrt, Real.pi⟩ 3000 cornerSpawn false
      { togglePauseGame ⟨Real.cos, Real.sin, Real.sqrt, Real.pi⟩ 2000 midSpawn
          (runningGame : Game ℝ) with gamePaused := false }).activePickups =
      [⟨0, 280, 180, 30, .SPEED_BOOST, false, true, none, none, none, none⟩] := by
  refine ⟨reachable_runningGame, ?_, ?_, ?_, ?_⟩
  · norm_num [togglePauseGame, runningGame, clearTimer, pausePickupTimers]
  · norm_num [togglePauseGame, runningGame, clearTimer, pausePickupTimers, startPickupSpawner,
      setInterval, resumePickupTimers, PICKUP_SPAWN_INTERVAL]
  · norm_num [togglePauseGame, runningGame, clearTimer, pausePickupTimers, startPickupSpawner,
      setInterval, resumePickupTimers, PICKUP_SPAWN_INTERVAL]
  · norm_num [togglePauseGame, runningGame, clearTimer, pausePickupTimers, startPickupSpawner,
      setInterval, PICKUP_SPAWN_INTERVAL, spawnPickup, cornerSpawn, collidesWithAnyPaddle,
      collides, distance, PICKUP_RADIUS, PICKUP_KEYS,
      Real.sqrt_lt' (show (0:ℝ) < 95 by norm_num)]

/-- C20 (amended).  Let a started game that is not paused be paused at `t1`
and resumed at `t2`.  The resumed game is not paused, its spawn timer
variable holds the new interval, which is pending with period 20000 and first
due at `t2 + 20000`.  If the spawn timer variable was set before the pause (as
it is once a start countdown has completed), no spawn attempt is made: the
pickup list holds the same objects, `nextUid` is unchanged and the resumed
state does not depend on the spawn draws.  Only if the variable was never set
does the resume make the one immediate attempt of a normal start. -/
theorem resume_spawner [FloorRing α] (m : MathLib α) (t1 t2 : α) (r1 r2 : SpawnRand α)
    (g : Game α) (hs : g.gameStartedOnce = true) (hr : g.gamePaused = false) :
    let g1 := togglePauseGame m t1 r1 g
    let g2 := togglePauseGame m t2 r2 g1
    (g1.gamePaused = true ∧ g2.gamePaused = false ∧
      g2.pickupSpawnTimer = some g.nextTimerId ∧
      (⟨g.nextTimerId, t2 + 20000, 20000, true, .spawnPickup⟩ : Timer α) ∈ g2.timers) ∧
    (g.pickupSpawnTimer ≠ none →
      signature g2.activePickups = signature g.activePickups ∧ g2.nextUid = g.nextUid ∧
      ∀ r' : SpawnRand α, togglePauseGame m t2 r' g1 = g2) ∧
    (g.pickupSpawnTimer = none →
      startPickupSpawner m t2 r2 true { g1 with gamePaused := false } =
        startPickupSpawner m t2 r2 false { g1 with gamePaused := false }) := by
  intro g1 g2
  obtain ⟨pl, co, h1⟩ := togglePauseGame_pause m t1 r1 g hs hr
  have hg1 : g1 = _ := h1
  have hp1 : g1.gamePaused = true := by rw [hg1]
  have hs1 : g1.gameStartedOnce = true := by rw [hg1]; exact hs
  have hn1 : g1.nextTimerId = g.nextTimerId := by rw [hg1]
  have hu1 : g1.nextUid = g.nextUid := by rw [hg1]
  have hv1 : g1.pickupSpawnTimer = g.pickupSpawnTimer := by rw [hg1]
  have hl1 : g1.activePickups = g.activePickups.map (pauseOne t1) := by rw [hg1]
  have hres : ∀ r : SpawnRand α, togglePauseGame m t2 r g1 = _ :=
    fun r => togglePauseGame_resume m t2 r g1 hs1 hp1
  have hg2 : g2 = _ := hres r2
  obtain ⟨extra, k, hex, hsp⟩ := startPickupSpawner_frame m t2 r2 true { g1 with gamePaused := false }
  have hsig1 : signature g1.activePickups = signature g.activePickups := by
    rw [hl1]
    simp only [signature, List.map_map]
    apply List.map_congr_left
    intro q _
    simp only [Function.comp, (pauseOne_fields t1 q).1, (pauseOne_fields t1 q).2.1]
  refine ⟨⟨hp1, ?_, ?_, ?_⟩, ?_, ?_⟩
  · rw [hg2, hsp]
  · rw [hg2, hsp]
    show some g1.nextTimerId = _
    rw [hn1]
  · rw [hg2]
    apply resumePickupTimers_keeps
    rw [hsp]
    show _ ∈ _ ++ [_]
    rw [hn1]
    have : (PICKUP_SPAWN_INTERVAL : α) = 20000 := rfl
    rw [this]
    simp
  · intro hne
    obtain ⟨i, hi⟩ := Option.ne_none_iff_exists'.mp hne
    have hstart : ∀ r : SpawnRand α,
        startPickupSpawner m t2 r true { g1 with gamePaused := false } =
          { (setInterval t2 PICKUP_SPAWN_INTERVAL .spawnPickup
              (clearTimer (some i) { g1 with gamePaused := false })).1 with
            pickupSpawnTimer := some g1.nextTimerId } :=
      fun r => startPickupSpawner_resume_set m t2 r _ i
        (by show g1.pickupSpawnTimer = _; rw [hv1, hi])
    refine ⟨?_, ?_, ?_⟩
    · rw [hg2, hstart r2]
      rw [(resumePickupTimers_signature _ _ _ _).1]
      exact hsig1
    · rw [hg2, hstart r2]
      exact hu1
    · intro r'
      rw [hg2, hres r', hstart r', hstart r2]
  · intro hnone
    exact startPickupSpawner_resume_unset m t2 r2 _
      (by show g1.pickupSpawnTimer = _; rw [hv1, hnone])

/-- On `boostedGame` (spawn interval 2 pending): paused at 3000 and resumed
at 10000, it still holds the one pickup object 0, whatever the draws. -/
theorem resume_spawner_witness :
    signature (togglePauseGame ⟨Real.cos, Real.sin, Real.sqrt, Real.pi⟩ 10000 cornerSpawn
      (togglePauseGame ⟨Real.cos, Real.sin, Real.sqrt, Real.pi⟩ 3000 midSpawn
        (boostedGame : Game ℝ))).activePickups = [(0, PickupType.SPEED_BOOST)] :=
  ((resume_spawner ⟨Real.cos, Real.sin, Real.sqrt, Real.pi⟩ 3000 10000 midSpawn cornerSpawn
    (boostedGame : Game ℝ) rfl rfl).2.1 (by simp [boostedGame, runningGame])).1


/-! ### C16: the collection of pickups -/

/-- `applyPickupEffect` moves neither the ball nor any pickup. -/
theorem applyPickupEffect_keeps (r : TrajRand α) (pickup : Pickup α) (g : Game α) :
    (applyPickupEffect r pickup g).ball.x = g.ball.x ∧
    (applyPickupEffect r pickup g).ball.y = g.ball.y ∧
    (applyPickupEffect r pickup g).activePickups = g.activePickups := by
  unfold applyPickupEffect
  cases pickup.type <;> exact ⟨rfl, rfl, rfl⟩

/-- What `activatePickup(p)` does to the pickup list: every pickup is mapped
by a function `f` that keeps identity, place and size, touches the flags
`isSpawned` and `isActive` of `p` alone, and leaves alone every inactive
pickup other than `p`; then `p` is removed (stacking) or kept, active.  The
ball is not moved. -/
theorem activatePickup_list (now : α) (r : TrajRand α) (p : Pickup α) (g : Game α)
    (hnodup : (g.activePickups.map Pickup.uid).Nodup) :
    ∃ (f : Pickup α → Pickup α) (rm : Bool),
      (activatePickup now r p g).activePickups =
        (if rm = true then (g.activePickups.map f).filter (fun q => q.uid != p.uid)
          else g.activePickups.map f) ∧
      (∀ q, (f q).uid = q.uid ∧ (f q).x = q.x ∧ (f q).y = q.y ∧ (f q).radius = q.radius) ∧
      (∀ q, q.uid ≠ p.uid → (f q).isSpawned = q.isSpawned ∧ (f q).isActive = q.isActive) ∧
      (∀ q ∈ g.activePickups, q.uid ≠ p.uid → q.isActive = false → f q = q) ∧
      (∀ q, q.uid = p.uid → (f q).isActive = true) ∧
      (activatePickup now r p g).ball.x = g.ball.x ∧
      (activatePickup now r p g).ball.y = g.ball.y := by
  unfold activatePickup
  simp only
  split
  · rename_i e he
    have hein := List.mem_of_find?_eq_some he
    have hep := List.find?_some he
    simp only [Bool.and_eq_true, beq_iff_eq, bne_iff_ne, ne_eq] at hep
    obtain ⟨⟨-, heact⟩, heu⟩ := hep
    simp only [setPickup, List.mem_map] at hein
    obtain ⟨e0, he0, hee⟩ := hein
    have he0u : e0.uid ≠ p.uid := by
      intro h
      rw [if_pos h] at hee
      apply heu
      rw [← hee]
      exact h
    rw [if_neg he0u] at hee
    subst hee
    refine ⟨fun q =>
      (fun q1 : Pickup α => if q1.uid = e0.uid then
          { q1 with
            durationEndTime := some (now + PICKUP_DURATION)
            timeoutId := some g.nextTimerId }
        else q1)
      (if q.uid = p.uid then { q with isActive := true, isSpawned := false } else q),
      true, ?_, ?_, ?_, ?_, ?_, rfl, rfl⟩
    · rw [if_pos rfl]
      show List.filter _ (setPickup e0.uid _ (setPickup p.uid _ g.activePickups)) = _
      simp only [setPickup, List.map_map]
      rfl
    · intro q
      dsimp only
      split_ifs <;> exact ⟨rfl, rfl, rfl, rfl⟩
    · intro q hq
      dsimp only
      rw [if_neg hq]
      split_ifs <;> exact ⟨rfl, rfl⟩
    · intro q hq hqu hqa
      dsimp only
      rw [if_neg hqu]
      have hne : q.uid ≠ e0.uid := by
        intro h
        have := List.inj_on_of_nodup_map hnodup hq he0 h
        subst this
        rw [heact] at hqa
        cases hqa
      rw [if_neg hne]
    · intro q hq
      dsimp only
      rw [if_pos hq]
      split_ifs <;> rfl
  · obtain ⟨k1, k2, -⟩ := applyPickupEffect_keeps r p
      { g with activePickups := (setPickup p.uid
          (fun p => { p with isActive := true, isSpawned := false }) g.activePickups) }
    obtain ⟨b, pl, hb, -⟩ := applyPickupEffect_frame r p
      { g with activePickups := (setPickup p.uid
          (fun p => { p with isActive := true, isSpawned := false }) g.activePickups) }
    rw [hb] at k1 k2 ⊢
    refine ⟨fun q =>
      (fun q1 : Pickup α => if q1.uid = p.uid then
          { q1 with
            durationEndTime := some (now + PICKUP_DURATION)
            timeoutId := some g.nextTimerId }
        else q1)
      (if q.uid = p.uid then { q with isActive := true, isSpawned := false } else q),
      false, ?_, ?_, ?_, ?_, ?_, k1, k2⟩
    · rw [if_neg (by simp)]
      show setPickup p.uid _ (setPickup p.uid _ g.activePickups) = _
      simp only [setPickup, List.map_map]
      rfl
    · intro q
      dsimp only
      split_ifs <;> exact ⟨rfl, rfl, rfl, rfl⟩
    · intro q hq
      dsimp only
      rw [if_neg hq, if_neg hq]
      exact ⟨rfl, rfl⟩
    · intro q _ hqu _
      dsimp only
      rw [if_neg hqu, if_neg hqu]
    · intro q hq
      dsimp only
      rw [if_pos hq]
      split_ifs <;> rfl

theorem getElem?_split {β : Type} (L : List β) (i : Nat) (p : β) (h : L[i]? = some p) :
    ∃ A B, L = A ++ p :: B ∧ A.length = i := by
  induction L generalizing i with
  | nil => simp at h
  | cons a l ih =>
    cases i with
    | zero =>
      simp only [List.getElem?_cons_zero, Option.some.injEq] at h
      subst h
      exact ⟨[], l, rfl, rfl⟩
    | succ j =>
      simp only [List.getElem?_cons_succ] at h
      obtain ⟨A, B, hl, hA⟩ := ih j h
      exact ⟨a :: A, B, by rw [hl]; rfl, by simp [hA]⟩

/-- One turn of the loop of `updatePickups` at index `i`, where the list is
`A ++ p :: B` with `A` of length `i` and every pickup of `B` already dealt
with: afterwards every pickup from index `i` on is dealt with, the ball has
not moved, the pickups are still distinct, and every pickup that is spawned,
not active and not near the ball is still in the list. -/
theorem updatePickups_turn (m : MathLib α) (now : α) (r : TrajRand α) (rad : α) (G : Game α)
    (p : Pickup α) (A B : List (Pickup α)) (hL : G.activePickups = A ++ p :: B)
    (hnodup : (G.activePickups.map Pickup.uid).Nodup)
    (hB : ∀ q ∈ B, ¬ (q.isSpawned = true ∧ q.isActive = false ∧
      distance m G.ball.x G.ball.y q.x q.y < rad + q.radius)) :
    let G1 := if (p.isSpawned && !p.isActive) = true then
        (if distance m G.ball.x G.ball.y p.x p.y < rad + p.radius then activatePickup now r p G
          else G)
      else G
    A.length ≤ G1.activePickups.length ∧
    G1.ball.x = G.ball.x ∧ G1.ball.y = G.ball.y ∧
    (G1.activePickups.map Pickup.uid).Nodup ∧
    (∀ q ∈ G1.activePickups.drop A.length, ¬ (q.isSpawned = true ∧ q.isActive = false ∧
      distance m G.ball.x G.ball.y q.x q.y < rad + q.radius)) ∧
    (∀ q ∈ G.activePickups, q.isSpawned = true → q.isActive = false →
      ¬ distance m G.ball.x G.ball.y q.x q.y < rad + q.radius → q ∈ G1.activePickups) := by
  intro G1
  have hdrop : G.activePickups.drop A.length = p :: B := by
    rw [hL]; exact List.drop_left' rfl
  have hstay : ¬ (p.isSpawned = true ∧ p.isActive = false ∧
      distance m G.ball.x G.ball.y p.x p.y < rad + p.radius) →
      A.length ≤ G.activePickups.length ∧
      G.ball.x = G.ball.x ∧ G.ball.y = G.ball.y ∧
      (G.activePickups.map Pickup.uid).Nodup ∧
      (∀ q ∈ G.activePickups.drop A.length, ¬ (q.isSpawned = true ∧ q.isActive = false ∧
        distance m G.ball.x G.ball.y q.x q.y < rad + q.radius)) ∧
      (∀ q ∈ G.activePickups, q.isSpawned = true → q.isActive = false →
        ¬ distance m G.ball.x G.ball.y q.x q.y < rad + q.radius → q ∈ G.activePickups) := by
    intro hp
    refine ⟨by rw [hL]; simp, rfl, rfl, hnodup, ?_, fun q hq _ _ _ => hq⟩
    intro q hq
    rw [hdrop] at hq
    rcases List.mem_cons.1 hq with rfl | hq
    · exact hp
    · exact hB q hq
  by_cases hc : (p.isSpawned && !p.isActive) = true
  · by_cases hd : distance m G.ball.x G.ball.y p.x p.y < rad + p.radius
    · have hG1 : G1 = activatePickup now r p G := by
        show (if _ then _ else _) = _
        rw [if_pos hc, if_pos hd]
      rw [hG1]
      obtain ⟨f, rm, hl, hf1, hf2, hf3, hf4, hbx, hby⟩ := activatePickup_list now r p G hnodup
      -- the identities of `A` and `B` differ from that of `p`
      have hnd : (A.map Pickup.uid ++ p.uid :: B.map Pickup.uid).Nodup := by
        have := hnodup
        rw [hL] at this
        simpa using this
      have hnd' := List.nodup_middle.1 hnd
      have hpnot : p.uid ∉ A.map Pickup.uid ++ B.map Pickup.uid := (List.nodup_cons.1 hnd').1
      have hA : ∀ q ∈ A, q.uid ≠ p.uid := by
        intro q hq h
        exact hpnot (List.mem_append_left _ (h ▸ List.mem_map_of_mem _ hq))
      have hBu : ∀ q ∈ B, q.uid ≠ p.uid := by
        intro q hq h
        exact hpnot (List.mem_append_right _ (h ▸ List.mem_map_of_mem _ hq))
      have hmapuid : (G.activePickups.map f).map Pickup.uid = G.activePickups.map Pickup.uid := by
        rw [List.map_map]
        apply List.map_congr_left
        intro q _
        exact (hf1 q).1
      have hPf : ∀ q ∈ B, ¬ ((f q).isSpawned = true ∧ (f q).isActive = false ∧
          distance m G.ball.x G.ball.y (f q).x (f q).y < rad + (f q).radius) := by
        intro q hq
        rw [(hf2 q (hBu q hq)).1, (hf2 q (hBu q hq)).2, (hf1 q).2.1, (hf1 q).2.2.1,
          (hf1 q).2.2.2]
        exact hB q hq
      have hkeepA : (A.map f).filter (fun q => q.uid != p.uid) = A.map f := by
        rw [List.filter_eq_self]
        intro q hq
        obtain ⟨q0, hq0, rfl⟩ := List.mem_map.1 hq
        simp only [bne_iff_ne, ne_eq, (hf1 q0).1]
        exact hA q0 hq0
      have hkeepB : (B.map f).filter (fun q => q.uid != p.uid) = B.map f := by
        rw [List.filter_eq_self]
        intro q hq
        obtain ⟨q0, hq0, rfl⟩ := List.mem_map.1 hq
        simp only [bne_iff_ne, ne_eq, (hf1 q0).1]
        exact hBu q0 hq0
      have hfilt : (G.activePickups.map f).filter (fun q => q.uid != p.uid) =
          A.map f ++ B.map f := by
        rw [hL, List.map_append, List.map_cons, List.filter_append, hkeepA, List.filter_cons]
        have : ((f p).uid != p.uid) = false := by simp [(hf1 p).1]
        simp only [this, Bool.false_eq_true, if_false, hkeepB]
      have htrack : ∀ q ∈ G.activePickups, q.isSpawned = true → q.isActive = false →
          ¬ distance m G.ball.x G.ball.y q.x q.y < rad + q.radius → f q = q ∧ q.uid ≠ p.uid := by
        intro q hq _ h2 h3
        have hne : q.uid ≠ p.uid := by
          intro h
          have hpm : p ∈ G.activePickups := by rw [hL]; simp
          have := List.inj_on_of_nodup_map hnodup hq hpm h
          subst this
          exact h3 hd
        exact ⟨hf3 q hq hne h2, hne⟩
      cases rm with
      | true =>
        rw [if_pos rfl, hfilt] at hl
        refine ⟨by rw [hl]; simp, hbx, hby, ?_, ?_, ?_⟩
        · rw [hl, ← hfilt]
          have hsub : ((G.activePickups.map f).filter (fun q => q.uid != p.uid)).map Pickup.uid
              |>.Sublist ((G.activePickups.map f).map Pickup.uid) :=
            List.Sublist.map _ (List.filter_sublist _)
          rw [hmapuid] at hsub
          exact hsub.nodup hnodup
        · intro q hq
          rw [hl] at hq
          have hlen : (A.map f).length = A.length := List.length_map _ _
          rw [List.drop_left' hlen] at hq
          obtain ⟨q0, hq0, rfl⟩ := List.mem_map.1 hq
          exact hPf q0 hq0
        · intro q hq h1 h2 h3
          obtain ⟨hfq, hne⟩ := htrack q hq h1 h2 h3
          rw [hl, ← hfilt, List.mem_filter]
          refine ⟨?_, by simpa using hne⟩
          rw [← hfq]
          exact List.mem_map_of_mem _ hq
      | false =>
        rw [if_neg (by simp)] at hl
        refine ⟨by rw [hl, hL]; simp, hbx, hby, by rw [hl, hmapuid]; exact hnodup, ?_, ?_⟩
        · intro q hq
          rw [hl, hL, List.map_append, List.map_cons] at hq
          have hlen : (A.map f).length = A.length := List.length_map _ _
          rw [List.drop_left' hlen] at hq
          rcases List.mem_cons.1 hq with rfl | hq
          · intro h
            rw [hf4 p rfl] at h
            exact Bool.noConfusion h.2.1
          · obtain ⟨q0, hq0, rfl⟩ := List.mem_map.1 hq
            exact hPf q0 hq0
        · intro q hq h1 h2 h3
          obtain ⟨hfq, -⟩ := htrack q hq h1 h2 h3
          rw [hl, ← hfq]
          exact List.mem_map_of_mem _ hq
    · have hG1 : G1 = G := by
        show (if _ then _ else _) = _
        rw [if_pos hc, if_neg hd]
      rw [hG1]
      exact hstay (fun h => hd h.2.2)
  · have hG1 : G1 = G := by
      show (if _ then _ else _) = _
      rw [if_neg hc]
    rw [hG1]
    refine hstay (fun h => hc ?_)
    simp [h.1, h.2.1]

/-- The loop of `updatePickups` from index `n - 1` down to 0, when every
pickup from index `n` on is already dealt with. -/
theorem updatePickupsLoop_spec (m : MathLib α) (now : α) (traj : Nat → TrajRand α)
    (rad bx bY : α) (n : Nat) (G : Game α) (hn : n ≤ G.activePickups.length)
    (hx : G.ball.x = bx) (hy : G.ball.y = bY)
    (hnodup : (G.activePickups.map Pickup.uid).Nodup)
    (hdone : ∀ q ∈ G.activePickups.drop n, ¬ (q.isSpawned = true ∧ q.isActive = false ∧
      distance m bx bY q.x q.y < rad + q.radius)) :
    (∀ q ∈ (updatePickupsLoop m now traj rad n G).activePickups,
      ¬ (q.isSpawned = true ∧ q.isActive = false ∧ distance m bx bY q.x q.y < rad + q.radius)) ∧
    (∀ q ∈ G.activePickups, q.isSpawned = true → q.isActive = false →
      ¬ distance m bx bY q.x q.y < rad + q.radius →
      q ∈ (updatePickupsLoop m now traj rad n G).activePickups) ∧
    (updatePickupsLoop m now traj rad n G).ball.x = bx ∧
    (updatePickupsLoop m now traj rad n G).ball.y = bY := by
  induction n generalizing G with
  | zero =>
    refine ⟨?_, fun q hq _ _ _ => hq, hx, hy⟩
    intro q hq
    exact hdone q (by simpa using hq)
  | succ i ih =>
    subst hx hy
    have hi : i < G.activePickups.length := hn
    have hp : G.activePickups[i]? = some (G.activePickups[i]) := List.getElem?_eq_getElem hi
    obtain ⟨A, B, hL, hA⟩ := getElem?_split _ _ _ hp
    have hB : ∀ q ∈ B, ¬ (q.isSpawned = true ∧ q.isActive = false ∧
        distance m G.ball.x G.ball.y q.x q.y < rad + q.radius) := by
      intro q hq
      apply hdone
      have : G.activePickups.drop (i + 1) = B := by
        have hlen : (A ++ [G.activePickups[i]]).length = i + 1 := by simp [hA]
        have hL' : G.activePickups = (A ++ [G.activePickups[i]]) ++ B := by
          rw [List.append_assoc]; exact hL
        rw [hL']
        exact List.drop_left' hlen
      rw [this]
      exact hq
    obtain ⟨t1, t2, t3, t4, t5, t6⟩ :=
      updatePickups_turn m now (traj i) rad G (G.activePickups[i]) A B hL hnodup hB
    rw [hA] at t5 t1
    have hloop : updatePickupsLoop m now traj rad (i + 1) G =
        updatePickupsLoop m now traj rad i
          (if (G.activePickups[i].isSpawned && !G.activePickups[i].isActive) = true then
            (if distance m G.ball.x G.ball.y G.activePickups[i].x G.activePickups[i].y
                < rad + G.activePickups[i].radius then
              activatePickup now (traj i) G.activePickups[i] G
            else G)
          else G) := by
      conv_lhs => unfold updatePickupsLoop
      simp only [hp]
    rw [hloop]
    obtain ⟨k1, k2, k3, k4⟩ := ih _ t1 t2 t3 t4 t5
    exact ⟨k1, fun q hq h1 h2 h3 => k2 q (t6 q hq h1 h2 h3) h1 h2 h3, k3, k4⟩

/-- C16. In a state that is not paused, with pairwise distinct pickup objects,
let `R` be the effective ball radius at the start of the tick.  After
`updatePickups` no pickup of the list is spawned, not active and at a distance
from the ball strictly less than `R` plus its radius; every pickup that was
spawned, not active and at a distance at least that sum is still in the list,
unchanged; the ball has not moved.  When the game is paused `updatePickups`
changes nothing. -/
theorem collection_complete (m : MathLib α) (now : α) (traj : Nat → TrajRand α) (g : Game α)
    (hnodup : (g.activePickups.map Pickup.uid).Nodup) :
    (g.gamePaused = false →
      (∀ q ∈ (updatePickups m now traj g).activePickups,
        ¬ (q.isSpawned = true ∧ q.isActive = false ∧
          distance m (updatePickups m now traj g).ball.x (updatePickups m now traj g).ball.y
            q.x q.y < getCurrentBallRadius g + q.radius)) ∧
      (∀ q ∈ g.activePickups, q.isSpawned = true → q.isActive = false →
        ¬ distance m g.ball.x g.ball.y q.x q.y < getCurrentBallRadius g + q.radius →
        q ∈ (updatePickups m now traj g).activePickups) ∧
      (updatePickups m now traj g).ball.x = g.ball.x ∧
      (updatePickups m now traj g).ball.y = g.ball.y) ∧
    (g.gamePaused = true → updatePickups m now traj g = g) := by
  constructor
  · intro hp
    have hu : updatePickups m now traj g =
        updatePickupsLoop m now traj (getCurrentBallRadius g) g.activePickups.length g := by
      simp [updatePickups, hp]
    obtain ⟨k1, k2, k3, k4⟩ := updatePickupsLoop_spec m now traj (getCurrentBallRadius g)
      g.ball.x g.ball.y g.activePickups.length g (le_refl _) rfl rfl hnodup
      (by intro q hq; simp at hq)
    rw [hu, k3, k4]
    exact ⟨k1, k2, rfl, rfl⟩
  · intro hp
    simp [updatePickups, hp]

/-- On `spawnedGame` (a spawned boost 20 units from the ball, radii 15 and
30): after `updatePickups` at time 2000 no pickup is left to collect, and the
boost is active with its expiry timer 3. -/
theorem collection_complete_witness :
    (∀ q ∈ (updatePickups ⟨Real.cos, Real.sin, Real.sqrt, Real.pi⟩ 2000 midFrame.traj
        (spawnedGame : Game ℝ)).activePickups,
      ¬ (q.isSpawned = true ∧ q.isActive = false ∧
        distance ⟨Real.cos, Real.sin, Real.sqrt, Real.pi⟩
          (updatePickups ⟨Real.cos, Real.sin, Real.sqrt, Real.pi⟩ 2000 midFrame.traj
            (spawnedGame : Game ℝ)).ball.x
          (updatePickups ⟨Real.cos, Real.sin, Real.sqrt, Real.pi⟩ 2000 midFrame.traj
            (spawnedGame : Game ℝ)).ball.y q.x q.y
          < getCurrentBallRadius (spawnedGame : Game ℝ) + q.radius)) ∧
    (updatePickups ⟨Real.cos, Real.sin, Real.sqrt, Real.pi⟩ 2000 midFrame.traj
      (spawnedGame : Game ℝ)).activePickups =
      [⟨0, 500, 320, 30, .SPEED_BOOST, true, false, some 3, some 7000, none, none⟩] := by
  refine ⟨((collection_complete ⟨Real.cos, Real.sin, Real.sqrt, Real.pi⟩ 2000 midFrame.traj
    (spawnedGame : Game ℝ) (by simp [spawnedGame])).1 rfl).1, ?_⟩
  norm_num [updatePickups, updatePickupsLoop, spawnedGame, runningGame, getCurrentBallRadius,
    distance, activatePickup, applyPickupEffect, setPickup, setTimeout, clearTimer,
    PICKUP_DURATION, midFrame, Real.sqrt_lt' (show (0:ℝ) < 45 by norm_num)]


/-! ### The timer ids and the timers of the active pickups -/

/-- `TimerInv` passes to a state whose timers are old ones or issued below
the new counter, and whose active pickups are old ones or carry a timer id. -/
theorem timerInv_of {g g' : Game α} (hi : TimerInv g)
    (hn : g.nextTimerId ≤ g'.nextTimerId)
    (ht : ∀ t ∈ g'.timers, t ∈ g.timers ∨ t.id < g'.nextTimerId)
    (hp : ∀ q ∈ g'.activePickups, q.isActive = true →
      q ∈ g.activePickups ∨ q.timeoutId.isSome = true) :
    TimerInv g' := by
  refine ⟨?_, ?_⟩
  · intro t h
    rcases ht t h with h1 | h1
    · exact lt_of_lt_of_le (hi.ids t h1) hn
    · exact h1
  · intro q hq ha
    rcases hp q hq ha with h1 | h1
    · exact hi.ticking q h1 ha
    · exact h1

/-- A state with the timers, counter and pickups of `g`. -/
theorem timerInv_same {g g' : Game α} (hi : TimerInv g) (h1 : g'.timers = g.timers)
    (h2 : g'.nextTimerId = g.nextTimerId) (h3 : g'.activePickups = g.activePickups) :
    TimerInv g' :=
  timerInv_of hi (le_of_eq h2.symm) (fun t ht => Or.inl (h1 ▸ ht))
    (fun q hq _ => Or.inl (h3 ▸ hq))

theorem clearTimer_timerInv (o : Option Nat) (g : Game α) (hi : TimerInv g) :
    TimerInv (clearTimer o g) :=
  timerInv_of hi (le_refl _) (fun t ht => Or.inl (mem_clearTimer_sub o g t ht))
    (fun q hq _ => Or.inl hq)

theorem setInterval_timerInv (now d : α) (a : TimerAction) (g : Game α) (hi : TimerInv g) :
    TimerInv (setInterval now d a g).1 := by
  refine timerInv_of hi (Nat.le_succ _) ?_ (fun q hq _ => Or.inl hq)
  intro t ht
  rcases List.mem_append.1 ht with h | h
  · exact Or.inl h
  · rw [List.mem_singleton] at h
    subst h
    exact Or.inr (Nat.lt_succ_self _)

theorem setTimeout_timerInv (now d : α) (a : TimerAction) (g : Game α) (hi : TimerInv g) :
    TimerInv (setTimeout now d a g).1 := by
  refine timerInv_of hi (Nat.le_succ _) ?_ (fun q hq _ => Or.inl hq)
  intro t ht
  rcases List.mem_append.1 ht with h | h
  · exact Or.inl h
  · rw [List.mem_singleton] at h
    subst h
    exact Or.inr (Nat.lt_succ_self _)

theorem updateScore_timerInv (g : Game α) (hi : TimerInv g) : TimerInv (updateScore g) := by
  obtain ⟨go, w, ts, pb, sb, h, hts⟩ := updateScore_frame g
  rw [h]
  exact timerInv_of hi (le_refl _) (fun t ht => Or.inl (hts t ht)) (fun q hq _ => Or.inl hq)

theorem startCountdown_timerInv (now : α) (s : Int) (cb : CountdownCallback) (g : Game α)
    (hi : TimerInv g) : TimerInv (startCountdown now s cb g) :=
  setInterval_timerInv now 1000 (.countdownTick cb) _
    (timerInv_same hi rfl rfl rfl)

theorem moveBall_timerInv (m : MathLib α) (now : α) (r : FrameRand α) (g : Game α)
    (hi : TimerInv g) : TimerInv (moveBall m now r g) := by
  unfold moveBall
  split_ifs
  · exact hi
  · obtain ⟨b, p, c, hG⟩ := moveBallBeforeScore_frame m r g
    have h1 : TimerInv (moveBallBeforeScore m r g) := by
      rw [hG]; exact timerInv_same hi rfl rfl rfl
    have h2 : TimerInv (moveBallScore now (moveBallBeforeScore m r g)) := by
      unfold moveBallScore
      simp only
      split_ifs
      · exact startCountdown_timerInv _ _ _ _
          (updateScore_timerInv _ (timerInv_same h1 rfl rfl rfl))
      · exact startCountdown_timerInv _ _ _ _
          (updateScore_timerInv _ (timerInv_same h1 rfl rfl rfl))
      · exact h1
    exact timerInv_same h2 rfl rfl rfl

theorem spawnPickup_timerInv [FloorRing α] (m : MathLib α) (r : SpawnRand α) (g : Game α)
    (hi : TimerInv g) : TimerInv (spawnPickup m r g) := by
  obtain ⟨extra, k, hex, h⟩ := spawnPickup_frame m r g
  rw [h]
  refine timerInv_of hi (le_refl _) (fun t ht => Or.inl ht) ?_
  intro q hq ha
  rcases List.mem_append.1 hq with h1 | h1
  · exact Or.inl h1
  · rw [(hex q h1).1] at ha
    cases ha

theorem startPickupSpawner_timerInv [FloorRing α] (m : MathLib α) (now : α) (r : SpawnRand α)
    (b : Bool) (g : Game α) (hi : TimerInv g) : TimerInv (startPickupSpawner m now r b g) := by
  obtain ⟨extra, k, hex, h⟩ := startPickupSpawner_frame m now r b g
  rw [h]
  refine timerInv_of hi (Nat.le_succ _) ?_ ?_
  · intro t ht
    rcases List.mem_append.1 ht with h1 | h1
    · exact Or.inl (mem_clearTimer_sub _ g t h1)
    · rw [List.mem_singleton] at h1
      subst h1
      exact Or.inr (Nat.lt_succ_self _)
  · intro q hq ha
    rcases List.mem_append.1 hq with h1 | h1
    · exact Or.inl h1
    · rw [(hex q h1).1] at ha
      cases ha

theorem mem_setPickup_inv {u : Nat} {f : Pickup α → Pickup α} {ps : List (Pickup α)}
    {q : Pickup α} (hq : q ∈ setPickup u f ps) :
    ∃ q0 ∈ ps, q = if q0.uid = u then f q0 else q0 := by
  simp only [setPickup, List.mem_map] at hq
  obtain ⟨q0, h0, h1⟩ := hq
  exact ⟨q0, h0, h1.symm⟩

theorem activatePickup_timerInv (now : α) (r : TrajRand α) (p : Pickup α) (g : Game α)
    (hi : TimerInv g) : TimerInv (activatePickup now r p g) := by
  unfold activatePickup
  simp only
  split
  · rename_i e he
    refine timerInv_of hi (Nat.le_succ _) ?_ ?_
    · intro t ht
      rcases List.mem_append.1 ht with h1 | h1
      · exact Or.inl (mem_clearTimer_sub _ _ t h1)
      · rw [List.mem_singleton] at h1
        subst h1
        exact Or.inr (Nat.lt_succ_self _)
    · intro q hq ha
      have hq' : q ∈ List.filter (fun x => x.uid != p.uid)
          (setPickup e.uid (fun x => { x with
              durationEndTime := some (now + PICKUP_DURATION)
              timeoutId := some g.nextTimerId })
            (setPickup p.uid (fun x => { x with isActive := true, isSpawned := false })
              g.activePickups)) := hq
      rw [List.mem_filter] at hq'
      obtain ⟨hm, hne⟩ := hq'
      simp only [bne_iff_ne, ne_eq] at hne
      obtain ⟨q1, hq1, e1⟩ := mem_setPickup_inv hm
      obtain ⟨q0, hq0, e0⟩ := mem_setPickup_inv hq1
      by_cases h0 : q0.uid = p.uid
      · exfalso
        rw [if_pos h0] at e0
        have hu1 : q1.uid = p.uid := by rw [e0]; exact h0
        apply hne
        rw [e1]
        split_ifs
        · exact hu1
        · exact hu1
      · rw [if_neg h0] at e0
        subst e0
        by_cases h1 : q1.uid = e.uid
        · rw [if_pos h1] at e1
          right
          rw [e1]
          rfl
        · rw [if_neg h1] at e1
          subst e1
          exact Or.inl hq0
  · obtain ⟨b, pl, hb, -⟩ := applyPickupEffect_frame r p
      { g with activePickups := (setPickup p.uid
          (fun p => { p with isActive := true, isSpawned := false }) g.activePickups) }
    rw [hb]
    refine timerInv_of hi (Nat.le_succ _) ?_ ?_
    · intro t ht
      rcases List.mem_append.1 ht with h1 | h1
      · exact Or.inl h1
      · rw [List.mem_singleton] at h1
        subst h1
        exact Or.inr (Nat.lt_succ_self _)
    · intro q hq ha
      have hq' : q ∈ setPickup p.uid (fun x => { x with
              durationEndTime := some (now + PICKUP_DURATION)
              timeoutId := some g.nextTimerId })
            (setPickup p.uid (fun x => { x with isActive := true, isSpawned := false })
              g.activePickups) := hq
      obtain ⟨q1, hq1, e1⟩ := mem_setPickup_inv hq'
      obtain ⟨q0, hq0, e0⟩ := mem_setPickup_inv hq1
      by_cases h0 : q0.uid = p.uid
      · rw [if_pos h0] at e0
        have hu1 : q1.uid = p.uid := by rw [e0]; exact h0
        rw [if_pos hu1] at e1
        right
        rw [e1]
        rfl
      · rw [if_neg h0] at e0
        subst e0
        rw [if_neg h0] at e1
        subst e1
        exact Or.inl hq0

theorem updatePickupsLoop_timerInv (m : MathLib α) (now : α) (traj : Nat → TrajRand α)
    (rad : α) (n : Nat) (g : Game α) (hi : TimerInv g) :
    TimerInv (updatePickupsLoop m now traj rad n g) := by
  induction n generalizing g with
  | zero => exact hi
  | succ i ih =>
    unfold updatePickupsLoop
    simp only
    apply ih
    split
    · exact hi
    · split_ifs
      · exact activatePickup_timerInv _ _ _ _ hi
      · exact hi
      · exact hi

theorem updatePickups_timerInv (m : MathLib α) (now : α) (traj : Nat → TrajRand α)
    (g : Game α) (hi : TimerInv g) : TimerInv (updatePickups m now traj g) := by
  unfold updatePickups
  split_ifs
  · exact hi
  · exact updatePickupsLoop_timerInv _ _ _ _ _ _ hi

theorem deactivatePickup_timerInv (uid : Nat) (ty : PickupType) (g : Game α)
    (hi : TimerInv g) : TimerInv (deactivatePickup uid ty g) := by
  obtain ⟨pl, h⟩ := deactivatePickup_frame uid ty g
  rw [h]
  refine timerInv_of hi (le_refl _) (fun t ht => Or.inl ht) ?_
  intro q hq ha
  have hq' : q ∈ List.filter (fun x => x.uid != uid)
      (setPickup uid (fun x => { x with isActive := false }) g.activePickups) := hq
  rw [List.mem_filter] at hq'
  obtain ⟨q0, hq0, e0⟩ := mem_setPickup_inv hq'.1
  by_cases h0 : q0.uid = uid
  · rw [if_pos h0] at e0
    rw [e0] at ha
    cases ha
  · rw [if_neg h0] at e0
    subst e0
    exact Or.inl hq0

theorem pauseOne_ticking (now : α) (q : Pickup α) :
    (pauseOne now q).isActive = q.isActive ∧ (pauseOne now q).timeoutId = q.timeoutId := by
  unfold pauseOne
  split <;> exact ⟨rfl, rfl⟩

theorem resumePickupTimers_timerInv (now : α) (ps : List (Pickup α)) (ts : List (Timer α))
    (n : Nat) (hts : ∀ t ∈ ts, t.id < n)
    (hps : ∀ q ∈ ps, q.isActive = true → q.timeoutId.isSome = true) :
    n ≤ (resumePickupTimers now ps ts n).2.2 ∧
    (∀ t ∈ (resumePickupTimers now ps ts n).2.1, t.id < (resumePickupTimers now ps ts n).2.2) ∧
    (∀ q ∈ (resumePickupTimers now ps ts n).1, q.isActive = true →
      q.timeoutId.isSome = true) := by
  induction ps generalizing ts n with
  | nil => exact ⟨le_refl _, hts, fun q hq => by simp [resumePickupTimers] at hq⟩
  | cons p ps ih =>
    have hps' : ∀ q ∈ ps, q.isActive = true → q.timeoutId.isSome = true :=
      fun q hq => hps q (List.mem_cons_of_mem _ hq)
    unfold resumePickupTimers
    split
    · rename_i rem _ _
      split_ifs
      · have hts' : ∀ t ∈ ts ++ [(⟨n, now + rem, rem, false,
            .deactivatePickup p.uid p.type⟩ : Timer α)], t.id < n + 1 := by
          intro t ht
          rcases List.mem_append.1 ht with h | h
          · exact Nat.lt_succ_of_lt (hts t h)
          · rw [List.mem_singleton] at h
            subst h
            exact Nat.lt_succ_self _
        obtain ⟨k1, k2, k3⟩ := ih _ (n + 1) hts' hps'
        refine ⟨le_trans (Nat.le_succ _) k1, k2, ?_⟩
        intro q hq ha
        rcases List.mem_cons.1 hq with h | h
        · rw [h]; rfl
        · exact k3 q h ha
      · obtain ⟨k1, k2, k3⟩ := ih ts n hts hps'
        refine ⟨k1, k2, ?_⟩
        intro q hq ha
        rcases List.mem_cons.1 hq with h | h
        · rw [h] at ha ⊢
          exact hps p (List.mem_cons_self _ _) ha
        · exact k3 q h ha
    · obtain ⟨k1, k2, k3⟩ := ih ts n hts hps'
      refine ⟨k1, k2, ?_⟩
      intro q hq ha
      rcases List.mem_cons.1 hq with h | h
      · rw [h] at ha ⊢
        exact hps p (List.mem_cons_self _ _) ha
      · exact k3 q h ha

theorem togglePauseGame_timerInv [FloorRing α] (m : MathLib α) (now : α) (r : SpawnRand α)
    (g : Game α) (hi : TimerInv g) : TimerInv (togglePauseGame m now r g) := by
  by_cases hs : g.gameStartedOnce = true
  · by_cases hp : g.gamePaused = true
    · rw [togglePauseGame_resume m now r g hs hp]
      have hS : TimerInv (startPickupSpawner m now r true { g with gamePaused := false }) :=
        startPickupSpawner_timerInv m now r true _ (timerInv_same hi rfl rfl rfl)
      obtain ⟨k1, k2, k3⟩ := resumePickupTimers_timerInv now _ _ _ hS.ids hS.ticking
      exact ⟨k2, k3⟩
    · have hp' : g.gamePaused = false := by simpa using hp
      obtain ⟨pl, co, h⟩ := togglePauseGame_pause m now r g hs hp'
      rw [h]
      refine timerInv_of hi (le_refl _) ?_ ?_
      · intro t ht
        left
        have ht' : t ∈ (pausePickupTimers now g.activePickups
            (clearTimer g.pickupSpawnTimer g).timers).2 := ht
        rw [pausePickupTimers_snd] at ht'
        exact mem_clearTimer_sub _ g t (List.mem_of_mem_filter ht')
      · intro q hq ha
        right
        have hq' : q ∈ g.activePickups.map (pauseOne now) := hq
        obtain ⟨q0, hq0, rfl⟩ := List.mem_map.1 hq'
        rw [(pauseOne_ticking now q0).1] at ha
        rw [(pauseOne_ticking now q0).2]
        exact hi.ticking q0 hq0 ha
  · have hs' : g.gameStartedOnce = false := by simpa using hs
    have : togglePauseGame m now r g = g := by simp [togglePauseGame, hs']
    rw [this]
    exact hi

theorem restartGame_timerInv (now : α) (g : Game α) (hi : TimerInv g) :
    TimerInv (restartGame now g) := by
  by_cases hc : g.countdownActive = true
  · have : restartGame now g = g := by simp [restartGame, hc]
    rw [this]
    exact hi
  · have hc' : g.countdownActive = false := by simpa using hc
    obtain ⟨ts, hts, h⟩ := restartGame_frame now g hc'
    rw [h]
    refine timerInv_of hi (Nat.le_succ _) ?_ ?_
    · intro t ht
      rcases List.mem_append.1 ht with h1 | h1
      · exact Or.inl (hts t h1)
      · rw [List.mem_singleton] at h1
        subst h1
        exact Or.inr (Nat.lt_succ_self _)
    · intro q hq
      cases hq

theorem startGame_timerInv (now : α) (g : Game α) (hi : TimerInv g) :
    TimerInv (startGame now g) := by
  unfold startGame
  simp only
  apply startCountdown_timerInv
  split_ifs <;> exact timerInv_same hi rfl rfl rfl

theorem runCountdownCallback_timerInv [FloorRing α] (m : MathLib α) (now : α)
    (r : HandlerRand α) (cb : CountdownCallback) (g : Game α) (hi : TimerInv g) :
    TimerInv (runCountdownCallback m now r cb g) := by
  cases cb with
  | afterScore toPlayer => exact timerInv_same hi rfl rfl rfl
  | afterStart =>
    exact startPickupSpawner_timerInv m now r.spawn false _ (timerInv_same hi rfl rfl rfl)
  | afterRestart =>
    have h1 := updateScore_timerInv _
      (startPickupSpawner_timerInv m now r.spawn false _
        (show TimerInv (resetBall r.reset true true g) from timerInv_same hi rfl rfl rfl))
    exact timerInv_same h1 rfl rfl rfl

theorem countdownTick_timerInv [FloorRing α] (m : MathLib α) (now : α) (r : HandlerRand α)
    (id : Nat) (cb : CountdownCallback) (g : Game α) (hi : TimerInv g) :
    TimerInv (countdownTick m now r id cb g) := by
  unfold countdownTick
  simp only
  split_ifs
  · exact timerInv_same hi rfl rfl rfl
  · apply runCountdownCallback_timerInv
    have h1 : TimerInv (clearTimer (some id) { g with countdownTime := g.countdownTime - 1 }) :=
      clearTimer_timerInv _ _ (timerInv_same hi rfl rfl rfl)
    exact timerInv_same h1 rfl rfl rfl

theorem fireTimer_timerInv [FloorRing α] (m : MathLib α) (now : α) (r : HandlerRand α)
    (id : Nat) (g : Game α) (hi : TimerInv g) : TimerInv (fireTimer m now r id g) := by
  unfold fireTimer
  split
  · exact hi
  · rename_i t ht
    by_cases hdue : t.due ≤ now
    · rw [if_pos hdue]
      have key : ∀ ts : List (Timer α), (∀ t' ∈ ts, t'.id < g.nextTimerId) →
          TimerInv { g with timers := ts } := fun ts h => ⟨h, hi.ticking⟩
      have hmap : ∀ t' ∈ g.timers.map
          (fun u => if u.id = id then { u with due := u.due + u.delay } else u),
          t'.id < g.nextTimerId := by
        intro t' ht'
        obtain ⟨t0, ht0, rfl⟩ := List.mem_map.1 ht'
        have := hi.ids t0 ht0
        split_ifs <;> exact this
      have hfil : ∀ t' ∈ g.timers.filter (fun u => u.id != id), t'.id < g.nextTimerId :=
        fun t' ht' => hi.ids t' (List.mem_of_mem_filter ht')
      have hact : ∀ G : Game α, TimerInv G →
          TimerInv (match t.action with
            | .spawnPickup => spawnPickup m r.spawn G
            | .countdownTick callback => countdownTick m now r id callback G
            | .deactivatePickup uid type => deactivatePickup uid type G) := by
        intro G hG
        cases t.action with
        | spawnPickup => exact spawnPickup_timerInv m r.spawn G hG
        | countdownTick cb => exact countdownTick_timerInv m now r id cb G hG
        | deactivatePickup u ty => exact deactivatePickup_timerInv u ty G hG
      simp only
      split_ifs
      · exact hact _ (key _ hmap)
      · exact hact _ (key _ hfil)
    · rw [if_neg hdue]
      exact hi

theorem enhancedGameLoop_timerInv (m : MathLib α) (now : α) (r : FrameRand α) (g : Game α)
    (hi : TimerInv g) : TimerInv (enhancedGameLoop m now r g) := by
  unfold enhancedGameLoop
  split_ifs
  · exact hi
  · exact hi
  · unfold update
    obtain ⟨p, hp, -⟩ := updatePlayerPaddle_frame r.shakePlayer g
    obtain ⟨c, hc⟩ := moveComputerPaddle_frame r.shakeComputer (updatePlayerPaddle r.shakePlayer g)
    have h1 : TimerInv (updatePlayerPaddle r.shakePlayer g) := by
      rw [hp]; exact timerInv_same hi rfl rfl rfl
    have h2 : TimerInv (moveComputerPaddle r.shakeComputer
        (updatePlayerPaddle r.shakePlayer g)) := by
      rw [hc]; exact timerInv_same h1 rfl rfl rfl
    exact updatePickups_timerInv _ _ _ _ (moveBall_timerInv _ _ _ _ h2)

/-- Every event keeps the timer ids below the counter and a timer id on every
active pickup. -/
theorem step_timerInv [FloorRing α] (m : MathLib α) (g : Game α) (e : Event α)
    (hi : TimerInv g) : TimerInv (step m g e) := by
  cases e with
  | frame now r => exact enhancedGameLoop_timerInv m now r g hi
  | timer now r id => exact fireTimer_timerInv m now r id g hi
  | keydown now r code =>
    have h0 : TimerInv { g with keys := g.keys.set code true } := timerInv_same hi rfl rfl rfl
    show TimerInv (keydown m now r code g)
    unfold keydown
    cases code <;> simp only
    · exact h0
    · exact h0
    · exact h0
    · exact h0
    · split_ifs
      · exact togglePauseGame_timerInv m now r _ h0
      · exact h0
    · split_ifs
      · exact restartGame_timerInv now _ h0
      · exact h0
    · exact h0
  | keyup code => exact timerInv_same hi rfl rfl rfl
  | mousemove y =>
    show TimerInv (mousemove y g)
    unfold mousemove
    split_ifs <;> exact timerInv_same hi rfl rfl rfl
  | touchstart y =>
    show TimerInv (touchstart y g)
    unfold touchstart
    simp only
    split_ifs <;> exact timerInv_same hi rfl rfl rfl
  | touchmove y =>
    show TimerInv (touchmove y g)
    unfold touchmove
    split_ifs <;> exact timerInv_same hi rfl rfl rfl
  | touchend now r =>
    show TimerInv (touchend m now r g)
    unfold touchend
    simp only
    have key : ∀ G : Game α, TimerInv G → TimerInv { G with lastTapTime := now } :=
      fun G hG => timerInv_same hG rfl rfl rfl
    apply key
    split_ifs
    · exact togglePauseGame_timerInv m now r g hi
    · exact hi
    · exact hi
  | canvasClick =>
    show TimerInv (canvasClick g)
    unfold canvasClick
    split_ifs <;> exact timerInv_same hi rfl rfl rfl
  | startClick now =>
    simp only [step]
    split_ifs
    · exact startGame_timerInv now g hi
    · exact hi
  | pauseClick now r =>
    simp only [step]
    split_ifs
    · exact togglePauseGame_timerInv m now r g hi
    · exact hi
  | restartClick now =>
    simp only [step]
    split_ifs
    · exact restartGame_timerInv now g hi
    · exact hi
  | resize w h r =>
    show TimerInv (resizeCanvas w h r g)
    unfold resizeCanvas
    simp only
    split_ifs <;> exact timerInv_same hi rfl rfl rfl

theorem initialState_timerInv (page : Page α) : TimerInv (initialState page) := by
  have h0 : TimerInv (declaredState page) :=
    ⟨fun t ht => by simp [declaredState] at ht, fun q hq => by simp [declaredState] at hq⟩
  unfold initialState
  apply updateScore_timerInv
  unfold resizeCanvas
  simp only
  split_ifs <;> exact timerInv_same h0 rfl rfl rfl

/-- In every reachable state the pending timers were issued before
`nextTimerId` and every active pickup of the list carries a timer id. -/
theorem reachable_timerInv [FloorRing α] (m : MathLib α) (page : Page α) (g : Game α)
    (h : Reachable m page g) : TimerInv g := by
  induction h with
  | init => exact initialState_timerInv page
  | step g e _ ih => exact step_timerInv m g e ih


/-! ### C21: the range of the hit offset -/

/-- C21 (counterexample).  On `edgeHitGame` the ball (centre at `y = 385`,
radius 15) collides with the player paddle (from `y = 225` to `y = 375`), and
the normalized offset computed by `handlePaddleCollision` is
`(385 - 300) / 75 = 17/15 > 1`: with the draw `1/2` (no perturbation) the
velocity set has `dy = 7 * sin (17/15 * pi/3)`, an angle of 68 degrees. -/
theorem hit_offset_above_one :
    collides (edgeHitGame : Game ℝ).ball.toCircle (edgeHitGame : Game ℝ).player = true ∧
    ((edgeHitGame : Game ℝ).ball.y -
        ((edgeHitGame : Game ℝ).player.y + (edgeHitGame : Game ℝ).player.height / 2)) /
      ((edgeHitGame : Game ℝ).player.height / 2) = 17 / 15 ∧
    ¬ (((edgeHitGame : Game ℝ).ball.y -
        ((edgeHitGame : Game ℝ).player.y + (edgeHitGame : Game ℝ).player.height / 2)) /
      ((edgeHitGame : Game ℝ).player.height / 2) ≤ 1) ∧
    (handlePaddleCollision ⟨Real.cos, Real.sin, Real.sqrt, Real.pi⟩ (1 / 2) .player
      (edgeHitGame : Game ℝ)).ball.dy = 7 * Real.sin (17 / 15 * (Real.pi / 3)) := by
  refine ⟨?_, ?_, ?_, ?_⟩
  · norm_num [collides, edgeHitGame, runningGame, Ball.toCircle]
  · norm_num [edgeHitGame, runningGame]
  · norm_num [edgeHitGame, runningGame]
  · rw [handlePaddleCollision_dy]
    norm_num [edgeHitGame, runningGame, Game.paddle, speedBoostActive]

/-- C21 (amended).  Over the reals, for a paddle of positive height hit by the
ball (`collides(ball, paddle)`): the velocity set by `handlePaddleCollision`
has `dy = s * sin (offset * pi/3 + perturbation)` with
`offset = (ball.y - (paddle.y + height/2)) / (height/2)` and `s` the
effective speed; the offset lies strictly between `-(1 + 2 r / height)` and
`1 + 2 r / height`, `r` being the ball radius; for the base radius 15 and a
paddle at least 150 high it lies strictly between -1.2 and 1.2, and the angle
`offset * pi/3` strictly between -72 and +72 degrees (`2 pi / 5`); the offset
lies in `[-1, 1]` exactly when the centre of the ball is within the vertical
extent of the paddle. -/
theorem hit_offset_range (g : Game ℝ) (rnd : ℝ) (side : Side)
    (hh : 0 < (g.paddle side).height)
    (hc : collides g.ball.toCircle (g.paddle side) = true) :
    let offset := (g.ball.y - ((g.paddle side).y + (g.paddle side).height / 2)) /
      ((g.paddle side).height / 2)
    (handlePaddleCollision ⟨Real.cos, Real.sin, Real.sqrt, Real.pi⟩ rnd side g).ball.dy =
      (if speedBoostActive g then g.ball.speed * 1.5 else g.ball.speed) *
        Real.sin (offset * (Real.pi / 3) + (rnd - 0.5) * 0.1) ∧
    |offset| < 1 + 2 * g.ball.radius / (g.paddle side).height ∧
    (g.ball.radius = BALL_RADIUS → PADDLE_HEIGHT ≤ (g.paddle side).height →
      |offset| < 1.2 ∧ |offset * (Real.pi / 3)| < 2 * Real.pi / 5) ∧
    (|offset| ≤ 1 ↔
      ((g.paddle side).y ≤ g.ball.y ∧ g.ball.y ≤ (g.paddle side).y + (g.paddle side).height)) := by
  intro offset
  have hc' := (collides_iff _ _).1 hc
  simp only [Ball.toCircle] at hc'
  obtain ⟨-, -, c3, c4⟩ := hc'
  have hh2 : 0 < (g.paddle side).height / 2 := by linarith
  have hoff : offset * ((g.paddle side).height / 2) =
      g.ball.y - ((g.paddle side).y + (g.paddle side).height / 2) :=
    div_mul_cancel₀ _ (ne_of_gt hh2)
  have hbound : |offset| < 1 + 2 * g.ball.radius / (g.paddle side).height := by
    have e : 1 + 2 * g.ball.radius / (g.paddle side).height =
        ((g.paddle side).height / 2 + g.ball.radius) / ((g.paddle side).height / 2) := by
      field_simp
      ring
    rw [e, abs_lt]
    constructor
    · rw [lt_div_iff₀ hh2, neg_mul, div_mul_cancel₀ _ (ne_of_gt hh2)]
      linarith
    · rw [div_lt_div_iff_of_pos_right hh2]
      linarith
  refine ⟨handlePaddleCollision_dy g rnd side, hbound, ?_, ?_⟩
  · intro hr hph
    simp only [BALL_RADIUS, PADDLE_HEIGHT] at hr hph
    have h12 : |offset| < 1.2 := by
      refine lt_of_lt_of_le hbound ?_
      rw [hr]
      have : 2 * (15 : ℝ) / (g.paddle side).height ≤ 2 * 15 / 150 :=
        div_le_div_of_nonneg_left (by norm_num) (by norm_num) hph
      norm_num at this ⊢
      linarith
    refine ⟨h12, ?_⟩
    rw [abs_mul, abs_of_pos (by positivity : (0 : ℝ) < Real.pi / 3)]
    have hpi := Real.pi_pos
    nlinarith
  · rw [abs_le]
    constructor
    · rintro ⟨h1, h2⟩
      have a1 := mul_le_mul_of_nonneg_right h1 (le_of_lt hh2)
      have a2 := mul_le_mul_of_nonneg_right h2 (le_of_lt hh2)
      rw [hoff] at a1 a2
      constructor <;> linarith
    · rintro ⟨h1, h2⟩
      constructor
      · rw [le_div_iff₀ hh2]; linarith
      · rw [div_le_iff₀ hh2]; linarith

/-- On `playerHitGame` (ball centre level with the centre of the player
paddle) the offset is within the bound 1.2. -/
theorem hit_offset_range_witness :
    |((playerHitGame : Game ℝ).ball.y -
        ((playerHitGame : Game ℝ).player.y + (playerHitGame : Game ℝ).player.height / 2)) /
      ((playerHitGame : Game ℝ).player.height / 2)| < 1.2 :=
  ((hit_offset_range (playerHitGame : Game ℝ) (1 / 2) .player
    (by norm_num [playerHitGame, runningGame, Game.paddle])
    (by norm_num [collides, playerHitGame, runningGame, Ball.toCircle, Game.paddle])).2.2.1
    rfl (by norm_num [playerHitGame, runningGame, Game.paddle, PADDLE_HEIGHT])).1

/-! ### C22: the radius used by the collision tests -/

/-- C22.  With a ball-enlarge pickup active the effective radius is
`1.5 * 15 = 22.5`, and the wall test and the pickup test use it, but the
paddle test uses the base radius 15.  On `megaBallGame` one `moveBall` tick
moves the ball to (95, 580); the wall test bounces it (`580 + 22.5 > 600`,
whereas `580 + 15 <= 600`) to `y = 577.5`; there the ball of radius 22.5
overlaps the player paddle (`95 - 22.5 < 75`), yet `collides(ball, player)`
is false (`95 - 15 >= 75`): no paddle branch is taken and the ball keeps
`dx = -5`.  On `megaPickupGame` the spawned boost, 50 units from the ball
(`45 <= 50 < 52.5`), is collected by `updatePickups`. -/
theorem paddle_test_base_radius :
    getCurrentBallRadius (megaBallGame : Game ℝ) = 22.5 ∧
    (moveBallWalls (moveBallMotion midFrame.drunkX midFrame.drunkY
      (megaBallGame : Game ℝ))).ball = ⟨95, 577.5, 15, 7, -5, -5, []⟩ ∧
    collides ⟨95, 577.5, getCurrentBallRadius (megaBallGame : Game ℝ)⟩
      (megaBallGame : Game ℝ).player = true ∧
    collides (moveBallWalls (moveBallMotion midFrame.drunkX midFrame.drunkY
      (megaBallGame : Game ℝ))).ball.toCircle (megaBallGame : Game ℝ).player = false ∧
    moveBallBeforeScore ⟨Real.cos, Real.sin, Real.sqrt, Real.pi⟩ midFrame
        (megaBallGame : Game ℝ) =
      moveBallWalls (moveBallMotion midFrame.drunkX midFrame.drunkY (megaBallGame : Game ℝ)) ∧
    (moveBall ⟨Real.cos, Real.sin, Real.sqrt, Real.pi⟩ 2000 midFrame
      (megaBallGame : Game ℝ)).ball.dx = -5 ∧
    (moveBall ⟨Real.cos, Real.sin, Real.sqrt, Real.pi⟩ 2000 midFrame
      (megaBallGame : Game ℝ)).ball.dy = -5 ∧
    distance ⟨Real.cos, Real.sin, Real.sqrt, Real.pi⟩ (megaPickupGame : Game ℝ).ball.x
      (megaPickupGame : Game ℝ).ball.y 540 330 = 50 ∧
    (updatePickups ⟨Real.cos, Real.sin, Real.sqrt, Real.pi⟩ 2000 midFrame.traj
      (megaPickupGame : Game ℝ)).activePickups =
      [⟨0, 400, 300, 30, .BALL_SIZE_INCREASE, true, false, some 3, some 7000, none, none⟩,
       ⟨1, 540, 330, 30, .SPEED_BOOST, true, false, some 4, some 7000, none, none⟩] := by
  have hsq : Real.sqrt 2500 = 50 := by
    rw [show (2500 : ℝ) = 50 * 50 by norm_num]
    exact Real.sqrt_mul_self (by norm_num)
  refine ⟨?_, ?_, ?_, ?_, ?_, ?_, ?_, ?_, ?_⟩
  · norm_num [getCurrentBallRadius, megaBallGame, runningGame]
  · norm_num [moveBallWalls, moveBallMotion, getCurrentBallRadius, megaBallGame, runningGame,
      midFrame]
  · norm_num [collides, getCurrentBallRadius, megaBallGame, runningGame]
  · norm_num [collides, Ball.toCircle, moveBallWalls, moveBallMotion, getCurrentBallRadius,
      megaBallGame, runningGame, midFrame]
  · norm_num [moveBallBeforeScore, moveBallPaddles, collides, Ball.toCircle, moveBallWalls,
      moveBallMotion, getCurrentBallRadius, megaBallGame, runningGame, midFrame]
  · norm_num [moveBall, moveBallHistory, moveBallScore, moveBallBeforeScore, moveBallPaddles,
      collides, Ball.toCircle, moveBallWalls, moveBallMotion, getCurrentBallRadius,
      megaBallGame, runningGame, midFrame]
  · norm_num [moveBall, moveBallHistory, moveBallScore, moveBallBeforeScore, moveBallPaddles,
      collides, Ball.toCircle, moveBallWalls, moveBallMotion, getCurrentBallRadius,
      megaBallGame, runningGame, midFrame]
  · norm_num [distance, megaPickupGame, runningGame, hsq]
  · norm_num [updatePickups, updatePickupsLoop, megaPickupGame, runningGame,
      getCurrentBallRadius, distance, activatePickup, applyPickupEffect, setPickup, setTimeout,
      clearTimer, PICKUP_DURATION, midFrame, hsq,
      (by decide : PickupType.SPEED_BOOST ≠ PickupType.BALL_SIZE_INCREASE),
      (by decide : PickupType.BALL_SIZE_INCREASE ≠ PickupType.SPEED_BOOST)]

/-! ### C23: a paddle hit excludes a score in the same tick -/

/-- The state of `moveBall` at the paddle test keeps the paddles, the arena
and the radius of the ball. -/
theorem moveBallWalls_motion_keeps (rx ry : α) (g : Game α) :
    (moveBallWalls (moveBallMotion rx ry g)).player = g.player ∧
    (moveBallWalls (moveBallMotion rx ry g)).computer = g.computer ∧
    (moveBallWalls (moveBallMotion rx ry g)).canvasWidth = g.canvasWidth ∧
    (moveBallWalls (moveBallMotion rx ry g)).ball.radius = g.ball.radius := by
  obtain ⟨b, hb⟩ := moveBallWalls_frame (moveBallMotion rx ry g)
  refine ⟨?_, ?_, ?_, ?_⟩
  · rw [hb]; rfl
  · rw [hb]; rfl
  · rw [hb]; rfl
  · have hw : ∀ G : Game α, (moveBallWalls G).ball.radius = G.ball.radius := by
      intro G; unfold moveBallWalls; split_ifs <;> rfl
    rw [hw]
    unfold moveBallMotion
    dsimp only
    split_ifs <;> rfl

/-- A ball of the base radius overlapping a paddle of the declared width whose
`x` is within 6 of a resting position at least 50 from the left wall and at
least 75 from the right wall meets neither scoring condition. -/
theorem collides_no_score (b : Circle α) (p : Paddle α) (W rest : α)
    (hr : b.radius = BALL_RADIUS) (hw : p.width = PADDLE_WIDTH)
    (h1 : PADDLE_WIDTH * 2 ≤ rest) (h2 : rest ≤ W - PADDLE_WIDTH * 3)
    (hx : |p.x - rest| ≤ 6) (hc : collides b p = true) :
    ¬ (b.x - b.radius < 0) ∧ ¬ (b.x + b.radius > W) := by
  obtain ⟨c1, c2, -, -⟩ := (collides_iff b p).1 hc
  rw [hr] at c1 c2 ⊢
  rw [hw] at c2
  simp only [BALL_RADIUS, PADDLE_WIDTH] at *
  obtain ⟨x1, x2⟩ := abs_le.1 hx
  constructor
  · intro h; linarith
  · intro h; linarith

/-- C23.  In a running state whose arena is at least 300 wide, whose ball
has the base radius 15, and whose paddles have the declared width 25 and an
`x` within 6 units of the resting `x` (50 for the player, arena width - 75 for
the computer): if the `moveBall` tick takes a paddle-collision branch, that
is `collides(ball, player)` or `collides(ball, computer)` holds at the paddle
test (after the motion and the walls), then at the scoring test neither
`ball.x - radius < 0` nor `ball.x + radius > arenaWidth` holds, the scoring
block changes nothing, and both scores are unchanged by the tick.  (The
radius and the two widths are those of every reachable state:
`reachable_shapeInv`.) -/
theorem hit_excludes_score (m : MathLib α) (now : α) (r : FrameRand α) (g : Game α)
    (hp : g.gamePaused = false) (hcd : g.countdownActive = false)
    (hW : 300 ≤ g.canvasWidth) (hr : g.ball.radius = BALL_RADIUS)
    (hpw : g.player.width = PADDLE_WIDTH) (hcw : g.computer.width = PADDLE_WIDTH)
    (hpx : |g.player.x - PADDLE_WIDTH * 2| ≤ 6)
    (hcx : |g.computer.x - (g.canvasWidth - PADDLE_WIDTH * 3)| ≤ 6)
    (hhit :
      collides (moveBallWalls (moveBallMotion r.drunkX r.drunkY g)).ball.toCircle
        (moveBallWalls (moveBallMotion r.drunkX r.drunkY g)).player = true ∨
      collides (moveBallWalls (moveBallMotion r.drunkX r.drunkY g)).ball.toCircle
        (moveBallWalls (moveBallMotion r.drunkX r.drunkY g)).computer = true) :
    (moveBallBeforeScore m r g =
        handlePaddleCollision m r.hit .player
          (moveBallWalls (moveBallMotion r.drunkX r.drunkY g)) ∨
      moveBallBeforeScore m r g =
        handlePaddleCollision m r.hit .computer
          (moveBallWalls (moveBallMotion r.drunkX r.drunkY g))) ∧
    ¬ ((moveBallBeforeScore m r g).ball.x - (moveBallBeforeScore m r g).ball.radius < 0) ∧
    ¬ ((moveBallBeforeScore m r g).ball.x + (moveBallBeforeScore m r g).ball.radius >
      (moveBallBeforeScore m r g).canvasWidth) ∧
    moveBallScore now (moveBallBeforeScore m r g) = moveBallBeforeScore m r g ∧
    (moveBall m now r g).playerScore = g.playerScore ∧
    (moveBall m now r g).computerScore = g.computerScore := by
  obtain ⟨kp, kc, kw, kr⟩ := moveBallWalls_motion_keeps r.drunkX r.drunkY g
  have hbranch : moveBallBeforeScore m r g =
        handlePaddleCollision m r.hit .player
          (moveBallWalls (moveBallMotion r.drunkX r.drunkY g)) ∨
      moveBallBeforeScore m r g =
        handlePaddleCollision m r.hit .computer
          (moveBallWalls (moveBallMotion r.drunkX r.drunkY g)) := by
    unfold moveBallBeforeScore moveBallPaddles
    split_ifs with a b
    · exact Or.inl rfl
    · exact Or.inr rfl
    · rcases hhit with h | h
      · exact absurd h a
      · exact absurd h b
  have hwide : PADDLE_WIDTH * 2 ≤ g.canvasWidth - PADDLE_WIDTH * 3 := by
    simp only [PADDLE_WIDTH]; linarith
  have hns : ¬ ((moveBallWalls (moveBallMotion r.drunkX r.drunkY g)).ball.x -
        (moveBallWalls (moveBallMotion r.drunkX r.drunkY g)).ball.radius < 0) ∧
      ¬ ((moveBallWalls (moveBallMotion r.drunkX r.drunkY g)).ball.x +
        (moveBallWalls (moveBallMotion r.drunkX r.drunkY g)).ball.radius > g.canvasWidth) := by
    rcases hhit with h | h
    · rw [kp] at h
      exact collides_no_score _ g.player g.canvasWidth (PADDLE_WIDTH * 2) (kr.trans hr) hpw (le_refl _)
        hwide hpx h
    · rw [kc] at h
      exact collides_no_score _ g.computer g.canvasWidth (g.canvasWidth - PADDLE_WIDTH * 3)
        (kr.trans hr)
        hcw hwide (le_refl _) hcx h
  have hx : (moveBallBeforeScore m r g).ball.x =
        (moveBallWalls (moveBallMotion r.drunkX r.drunkY g)).ball.x ∧
      (moveBallBeforeScore m r g).ball.radius =
        (moveBallWalls (moveBallMotion r.drunkX r.drunkY g)).ball.radius := by
    rcases hbranch with h | h <;> rw [h] <;> exact handlePaddleCollision_ball_x m _ _ _
  have hcw' : (moveBallBeforeScore m r g).canvasWidth = g.canvasWidth := by
    obtain ⟨b, p, c, h⟩ := moveBallBeforeScore_frame m r g
    rw [h]
  have hps : (moveBallBeforeScore m r g).playerScore = g.playerScore ∧
      (moveBallBeforeScore m r g).computerScore = g.computerScore := by
    obtain ⟨b, p, c, h⟩ := moveBallBeforeScore_frame m r g
    rw [h]; exact ⟨rfl, rfl⟩
  have n1 : ¬ ((moveBallBeforeScore m r g).ball.x -
      (moveBallBeforeScore m r g).ball.radius < 0) := by
    rw [hx.1, hx.2]; exact hns.1
  have n2 : ¬ ((moveBallBeforeScore m r g).ball.x + (moveBallBeforeScore m r g).ball.radius >
      (moveBallBeforeScore m r g).canvasWidth) := by
    rw [hx.1, hx.2, hcw']; exact hns.2
  have hsame := (moveBallScore_scores now (moveBallBeforeScore m r g)).2.2 n1 n2
  have hmb : moveBall m now r g = moveBallHistory m (moveBallBeforeScore m r g) := by
    simp only [moveBall, hp, hcd, Bool.or_self, Bool.false_eq_true, if_false, hsame]
  refine ⟨hbranch, n1, n2, hsame, ?_, ?_⟩
  · rw [hmb]; exact hps.1
  · rw [hmb]; exact hps.2

/-- On `playerHitGame` the tick moves the ball to (80, 305), where it overlaps
the player paddle; both scores stay 0. -/
theorem hit_excludes_score_witness :
    (moveBall ⟨Real.cos, Real.sin, Real.sqrt, Real.pi⟩ 2000 midFrame
      (playerHitGame : Game ℝ)).playerScore = 0 ∧
    (moveBall ⟨Real.cos, Real.sin, Real.sqrt, Real.pi⟩ 2000 midFrame
      (playerHitGame : Game ℝ)).computerScore = 0 :=
  (hit_excludes_score ⟨Real.cos, Real.sin, Real.sqrt, Real.pi⟩ 2000 midFrame
    (playerHitGame : Game ℝ) rfl rfl
    (by norm_num [playerHitGame, runningGame])
    (by norm_num [playerHitGame, runningGame, BALL_RADIUS])
    (by norm_num [playerHitGame, runningGame, PADDLE_WIDTH])
    (by norm_num [playerHitGame, runningGame, PADDLE_WIDTH])
    (by norm_num [playerHitGame, runningGame, PADDLE_WIDTH])
    (by norm_num [playerHitGame, runningGame, PADDLE_WIDTH])
    (Or.inl (by norm_num [collides, Ball.toCircle, moveBallWalls, moveBallMotion,
      getCurrentBallRadius, playerHitGame, runningGame, midFrame]))).2.2.2.2

/-! ### The widths of the paddles and the radius of the ball -/

theorem sameShape_refl (g : Game α) : SameShape g g := ⟨rfl, rfl, rfl⟩

theorem sameShape_trans {g1 g2 g3 : Game α} (h : SameShape g1 g2) (h' : SameShape g2 g3) :
    SameShape g1 g3 :=
  ⟨h'.playerWidth.trans h.playerWidth, h'.computerWidth.trans h.computerWidth,
    h'.radius.trans h.radius⟩

theorem shapeInv_of_same {g g' : Game α} (h : SameShape g g') (hi : ShapeInv g) :
    ShapeInv g' :=
  ⟨h.playerWidth.trans hi.playerWidth, h.computerWidth.trans hi.computerWidth,
    h.radius.trans hi.radius⟩

theorem clearTimer_sameShape (o : Option Nat) (g : Game α) : SameShape g (clearTimer o g) := by
  cases o <;> exact ⟨rfl, rfl, rfl⟩

theorem updateScore_sameShape (g : Game α) : SameShape g (updateScore g) := by
  obtain ⟨go, w, ts, pb, sb, h, -⟩ := updateScore_frame g
  rw [h]
  exact ⟨rfl, rfl, rfl⟩

theorem startCountdown_sameShape (now : α) (s : Int) (cb : CountdownCallback) (g : Game α) :
    SameShape g (startCountdown now s cb g) := ⟨rfl, rfl, rfl⟩

theorem resetBall_sameShape (r : ResetRand α) (a b : Bool) (g : Game α) :
    SameShape g (resetBall r a b g) := ⟨rfl, rfl, rfl⟩

theorem updatePlayerPaddleVertical_width (g : Game α) :
    (updatePlayerPaddleVertical g).width = g.player.width := by
  unfold updatePlayerPaddleVertical
  simp only
  split_ifs <;> rfl

theorem updatePlayerPaddle_sameShape (rnd : α) (g : Game α) :
    SameShape g (updatePlayerPaddle rnd g) := by
  have hv := updatePlayerPaddleVertical_width g
  unfold updatePlayerPaddle
  simp only
  split_ifs
  · exact ⟨rfl, rfl, rfl⟩
  · exact ⟨rfl, rfl, rfl⟩
  · exact ⟨hv, rfl, rfl⟩
  · exact ⟨hv, rfl, rfl⟩
  · exact ⟨hv, rfl, rfl⟩

theorem moveComputerPaddle_sameShape (rnd : α) (g : Game α) :
    SameShape g (moveComputerPaddle rnd g) := by
  unfold moveComputerPaddle
  simp only
  split_ifs <;> exact ⟨rfl, rfl, rfl⟩

theorem handlePaddleCollision_sameShape (m : MathLib α) (rnd : α) (s : Side) (g : Game α) :
    SameShape g (handlePaddleCollision m rnd s g) := by
  have hr := (handlePaddleCollision_ball_x m rnd s g).2
  refine ⟨?_, ?_, hr⟩
  · cases s <;> rfl
  · cases s <;> rfl

theorem moveBallBeforeScore_sameShape (m : MathLib α) (r : FrameRand α) (g : Game α) :
    SameShape g (moveBallBeforeScore m r g) := by
  obtain ⟨kp, kc, -, kr⟩ := moveBallWalls_motion_keeps r.drunkX r.drunkY g
  have h1 : SameShape g (moveBallWalls (moveBallMotion r.drunkX r.drunkY g)) :=
    ⟨by rw [kp], by rw [kc], kr⟩
  refine sameShape_trans h1 ?_
  unfold moveBallBeforeScore moveBallPaddles
  split_ifs
  · exact handlePaddleCollision_sameShape m _ _ _
  · exact handlePaddleCollision_sameShape m _ _ _
  · exact sameShape_refl _

theorem moveBallScore_sameShape (now : α) (g : Game α) : SameShape g (moveBallScore now g) := by
  unfold moveBallScore
  simp only
  split_ifs
  · exact sameShape_trans (show SameShape g { g with computerScore := g.computerScore + 1 } from
      ⟨rfl, rfl, rfl⟩) (sameShape_trans (updateScore_sameShape _)
        (startCountdown_sameShape _ _ _ _))
  · exact sameShape_trans (show SameShape g { g with playerScore := g.playerScore + 1 } from
      ⟨rfl, rfl, rfl⟩) (sameShape_trans (updateScore_sameShape _)
        (startCountdown_sameShape _ _ _ _))
  · exact sameShape_refl g

theorem moveBallHistory_sameShape (m : MathLib α) (g : Game α) :
    SameShape g (moveBallHistory m g) := ⟨rfl, rfl, rfl⟩

theorem moveBall_sameShape (m : MathLib α) (now : α) (r : FrameRand α) (g : Game α) :
    SameShape g (moveBall m now r g) := by
  unfold moveBall
  split_ifs
  · exact sameShape_refl g
  · exact sameShape_trans (moveBallBeforeScore_sameShape m r g)
      (sameShape_trans (moveBallScore_sameShape now _) (moveBallHistory_sameShape m _))

theorem applyPickupEffect_sameShape (r : TrajRand α) (pickup : Pickup α) (g : Game α) :
    SameShape g (applyPickupEffect r pickup g) := by
  unfold applyPickupEffect
  split
  · exact ⟨rfl, rfl, rfl⟩
  · exact ⟨rfl, rfl, rfl⟩
  · exact ⟨rfl, rfl, rfl⟩
  · exact ⟨rfl, rfl, rfl⟩
  · simp only
    split_ifs <;> exact ⟨rfl, rfl, rfl⟩

theorem activatePickup_sameShape (now : α) (r : TrajRand α) (pickup : Pickup α) (g : Game α) :
    SameShape g (activatePickup now r pickup g) := by
  unfold activatePickup
  simp only
  split
  · exact ⟨rfl, rfl, rfl⟩
  · have h := applyPickupEffect_sameShape r pickup
      { g with activePickups := (setPickup pickup.uid
        (fun p => { p with isActive := true, isSpawned := false }) g.activePickups) }
    exact ⟨h.playerWidth, h.computerWidth, h.radius⟩

theorem updatePickupsLoop_sameShape (m : MathLib α) (now : α) (traj : Nat → TrajRand α)
    (rad : α) (n : Nat) (g : Game α) :
    SameShape g (updatePickupsLoop m now traj rad n g) := by
  induction n generalizing g with
  | zero => exact sameShape_refl g
  | succ i ih =>
    unfold updatePickupsLoop
    simp only
    refine sameShape_trans ?_ (ih _)
    split
    · exact sameShape_refl g
    · split_ifs
      · exact activatePickup_sameShape now _ _ g
      · exact sameShape_refl g
      · exact sameShape_refl g

theorem updatePickups_sameShape (m : MathLib α) (now : α) (traj : Nat → TrajRand α)
    (g : Game α) : SameShape g (updatePickups m now traj g) := by
  unfold updatePickups
  split_ifs
  · exact sameShape_refl g
  · exact updatePickupsLoop_sameShape m now traj _ _ g

theorem deactivatePickup_sameShape (uid : Nat) (ty : PickupType) (g : Game α) :
    SameShape g (deactivatePickup uid ty g) := by
  unfold deactivatePickup
  cases ty <;> simp only <;> split_ifs <;> exact ⟨rfl, rfl, rfl⟩

theorem spawnPickup_sameShape [FloorRing α] (m : MathLib α) (r : SpawnRand α) (g : Game α) :
    SameShape g (spawnPickup m r g) := by
  obtain ⟨extra, k, -, h⟩ := spawnPickup_frame m r g
  rw [h]
  exact ⟨rfl, rfl, rfl⟩

theorem startPickupSpawner_sameShape [FloorRing α] (m : MathLib α) (now : α) (r : SpawnRand α)
    (isResuming : Bool) (g : Game α) : SameShape g (startPickupSpawner m now r isResuming g) := by
  obtain ⟨extra, k, -, h⟩ := startPickupSpawner_frame m now r isResuming g
  rw [h]
  exact ⟨rfl, rfl, rfl⟩

theorem togglePauseGame_sameShape [FloorRing α] (m : MathLib α) (now : α) (r : SpawnRand α)
    (g : Game α) : SameShape g (togglePauseGame m now r g) := by
  by_cases hs : g.gameStartedOnce = true
  · by_cases hp : g.gamePaused = true
    · rw [togglePauseGame_resume m now r g hs hp]
      have h := startPickupSpawner_sameShape m now r true { g with gamePaused := false }
      exact ⟨h.playerWidth, h.computerWidth, h.radius⟩
    · have hp' : g.gamePaused = false := by simpa using hp
      simp only [togglePauseGame, hs, hp', clearTimer_guard, Bool.not_true, Bool.not_false,
        Bool.false_eq_true, if_false, if_true, pausePickupTimers_fst]
      simp only [clearTimer]
      split_ifs <;> exact ⟨rfl, rfl, rfl⟩
  · have hs' : g.gameStartedOnce = false := by simpa using hs
    have : togglePauseGame m now r g = g := by simp [togglePauseGame, hs']
    rw [this]
    exact sameShape_refl g

theorem restartGame_sameShape (now : α) (g : Game α) : SameShape g (restartGame now g) := by
  by_cases hc : g.countdownActive = true
  · have : restartGame now g = g := by simp [restartGame, hc]
    rw [this]
    exact sameShape_refl g
  · have hc' : g.countdownActive = false := by simpa using hc
    obtain ⟨ts, -, h⟩ := restartGame_frame now g hc'
    rw [h]
    exact ⟨rfl, rfl, rfl⟩

theorem startGame_sameShape (now : α) (g : Game α) : SameShape g (startGame now g) := by
  unfold startGame
  simp only
  refine sameShape_trans ?_ (startCountdown_sameShape _ _ _ _)
  split_ifs <;> exact ⟨rfl, rfl, rfl⟩

theorem runCountdownCallback_sameShape [FloorRing α] (m : MathLib α) (now : α)
    (r : HandlerRand α) (cb : CountdownCallback) (g : Game α) :
    SameShape g (runCountdownCallback m now r cb g) := by
  cases cb with
  | afterScore toPlayer => exact resetBall_sameShape r.reset toPlayer false g
  | afterStart =>
    exact sameShape_trans (resetBall_sameShape r.reset true true g)
      (startPickupSpawner_sameShape m now r.spawn false _)
  | afterRestart =>
    have h := sameShape_trans (sameShape_trans (resetBall_sameShape r.reset true true g)
      (startPickupSpawner_sameShape m now r.spawn false _)) (updateScore_sameShape _)
    exact ⟨h.playerWidth, h.computerWidth, h.radius⟩

theorem countdownTick_sameShape [FloorRing α] (m : MathLib α) (now : α) (r : HandlerRand α)
    (id : Nat) (cb : CountdownCallback) (g : Game α) :
    SameShape g (countdownTick m now r id cb g) := by
  unfold countdownTick
  simp only
  split_ifs
  · exact ⟨rfl, rfl, rfl⟩
  · refine sameShape_trans ?_ (runCountdownCallback_sameShape m now r cb _)
    exact ⟨rfl, rfl, rfl⟩

theorem fireTimer_sameShape [FloorRing α] (m : MathLib α) (now : α) (r : HandlerRand α)
    (id : Nat) (g : Game α) : SameShape g (fireTimer m now r id g) := by
  unfold fireTimer
  split
  · exact sameShape_refl g
  · rename_i t ht
    by_cases hdue : t.due ≤ now
    · rw [if_pos hdue]
      have hact : ∀ G : Game α, SameShape g G →
          SameShape g (match t.action with
            | .spawnPickup => spawnPickup m r.spawn G
            | .countdownTick callback => countdownTick m now r id callback G
            | .deactivatePickup uid type => deactivatePickup uid type G) := by
        intro G hG
        cases t.action with
        | spawnPickup => exact sameShape_trans hG (spawnPickup_sameShape m r.spawn G)
        | countdownTick cb => exact sameShape_trans hG (countdownTick_sameShape m now r id cb G)
        | deactivatePickup u ty => exact sameShape_trans hG (deactivatePickup_sameShape u ty G)
      simp only
      split_ifs
      · exact hact _ ⟨rfl, rfl, rfl⟩
      · exact hact _ ⟨rfl, rfl, rfl⟩
    · rw [if_neg hdue]
      exact sameShape_refl g

theorem enhancedGameLoop_sameShape (m : MathLib α) (now : α) (r : FrameRand α) (g : Game α) :
    SameShape g (enhancedGameLoop m now r g) := by
  unfold enhancedGameLoop
  split_ifs
  · exact sameShape_refl g
  · exact sameShape_refl g
  · unfold update
    exact sameShape_trans (updatePlayerPaddle_sameShape r.shakePlayer g)
      (sameShape_trans (moveComputerPaddle_sameShape r.shakeComputer _)
        (sameShape_trans (moveBall_sameShape m now r _) (updatePickups_sameShape m now r.traj _)))

theorem resizeCanvas_sameShape (w h : α) (r : ResetRand α) (g : Game α) :
    SameShape g (resizeCanvas w h r g) := by
  unfold resizeCanvas
  simp only
  split_ifs <;> exact ⟨rfl, rfl, rfl⟩

/-- No event changes the width of a paddle or the radius of the ball. -/
theorem step_sameShape [FloorRing α] (m : MathLib α) (g : Game α) (e : Event α) :
    SameShape g (step m g e) := by
  cases e with
  | frame now r => exact enhancedGameLoop_sameShape m now r g
  | timer now r id => exact fireTimer_sameShape m now r id g
  | keydown now r code =>
    have h0 : SameShape g { g with keys := g.keys.set code true } := ⟨rfl, rfl, rfl⟩
    show SameShape g (keydown m now r code g)
    unfold keydown
    cases code <;> simp only
    · exact h0
    · exact h0
    · exact h0
    · exact h0
    · split_ifs
      · exact sameShape_trans h0 (togglePauseGame_sameShape m now r _)
      · exact h0
    · split_ifs
      · exact sameShape_trans h0 (restartGame_sameShape now _)
      · exact h0
    · exact h0
  | keyup code => exact ⟨rfl, rfl, rfl⟩
  | mousemove y =>
    show SameShape g (mousemove y g)
    unfold mousemove
    split_ifs <;> exact ⟨rfl, rfl, rfl⟩
  | touchstart y =>
    show SameShape g (touchstart y g)
    unfold touchstart
    simp only
    split_ifs <;> exact ⟨rfl, rfl, rfl⟩
  | touchmove y =>
    show SameShape g (touchmove y g)
    unfold touchmove
    split_ifs <;> exact ⟨rfl, rfl, rfl⟩
  | touchend now r =>
    show SameShape g (touchend m now r g)
    unfold touchend
    simp only
    have key : ∀ G : Game α, SameShape g G → SameShape g { G with lastTapTime := now } :=
      fun G hG => ⟨hG.playerWidth, hG.computerWidth, hG.radius⟩
    apply key
    split_ifs
    · exact togglePauseGame_sameShape m now r g
    · exact sameShape_refl g
    · exact sameShape_refl g
  | canvasClick =>
    show SameShape g (canvasClick g)
    unfold canvasClick
    split_ifs <;> exact ⟨rfl, rfl, rfl⟩
  | startClick now =>
    simp only [step]
    split_ifs
    · exact startGame_sameShape now g
    · exact sameShape_refl g
  | pauseClick now r =>
    simp only [step]
    split_ifs
    · exact togglePauseGame_sameShape m now r g
    · exact sameShape_refl g
  | restartClick now =>
    simp only [step]
    split_ifs
    · exact restartGame_sameShape now g
    · exact sameShape_refl g
  | resize w h r => exact resizeCanvas_sameShape w h r g

theorem initialState_shapeInv (page : Page α) : ShapeInv (initialState page) := by
  have h0 : ShapeInv (declaredState page) := ⟨rfl, rfl, rfl⟩
  unfold initialState
  exact shapeInv_of_same (sameShape_trans (resizeCanvas_sameShape _ _ _ _)
    (updateScore_sameShape _)) h0

/-- In every reachable state both paddles have the declared width
`PADDLE_WIDTH` and the ball has the declared radius `BALL_RADIUS`. -/
theorem reachable_shapeInv [FloorRing α] (m : MathLib α) (page : Page α) (g : Game α)
    (h : Reachable m page g) : ShapeInv g := by
  induction h with
  | init => exact initialState_shapeInv page
  | step g e _ ih => exact shapeInv_of_same (step_sameShape m g e) ih

end Theorems

end Pong
